import Mathlib

/-!
# Traffic simulation core of 3DWorld (`cars.cpp`)

A shallow embedding of the car and helicopter update code of `src/src/cars.cpp`.

Conventions of the embedding

* C++ `float`/`double` values are rationals (`ℚ`). Two embeddings of the arithmetic are
  used. In the exact embedding the operations are carried out without rounding; it is used
  for the statements about control flow, order and which object is written, which do not
  depend on the rounding. In the embedding with rounding (`car_t.move_f32`,
  `car_t.check_collision_f32` with their helpers, and the landing branch `heli_land_step`)
  every operation is followed by the rounding of IEEE 754 arithmetic, `f32` to binary32 for
  operations on `float` operands and `f64` to binary64 where a `double` literal promotes the
  expression, each operation evaluated in the type of its operands; it is used for the
  statements about the exact position of a box. Infinities and NaN are not values: overflow
  is not modelled, and the one division whose divisor can be zero for finite inputs (by the
  length of the box in `car_t::move`) is resolved by cases.
* `unsigned` indices and ids are natural numbers (no arithmetic on them can overflow in the
  code that is embedded here).
* An `assert` that fails is the result `none`.
* The header `city.h` (the declarations of `cube_t`, `car_t`, `car_block_t`, `helipad_t`,
  `helicopter_t` and their inline helpers) is not part of the sources; the records and the
  one-line helpers below are modelled after the way `cars.cpp` uses them.
* Pointers to cars (`car_in_front`, iterators) are indices into the car array; a link that
  names no car of the array stands for the null pointer.
* Pure side effects on collaborators (sound, shadows, explosions) are dropped.
-/

/-! ## Binary floating-point rounding -/

/-- Rounding of a rational to an integer: to the nearest integer, ties to the even one. -/
def round_half_even (x : ℚ) : ℤ :=
  if x - ⌊x⌋ < 1 / 2 then ⌊x⌋
  else if 1 / 2 < x - ⌊x⌋ then ⌊x⌋ + 1
  else if ⌊x⌋ % 2 = 0 then ⌊x⌋ else ⌊x⌋ + 1

/-- Rounding of a rational to the nearest binary floating-point number with `p` significant
bits and a unit in the last place of at least `2 ^ emin` (round to nearest, ties to even, the
default rounding of IEEE 754 arithmetic, with gradual underflow). The exponent range is not
bounded above: overflow to an infinity is not modelled. -/
def round_float (p : ℕ) (emin : ℤ) (x : ℚ) : ℚ :=
  if x = 0 then 0
  else
    (round_half_even (x / 2 ^ max (Int.log 2 |x| - ((p : ℤ) - 1)) emin) : ℚ)
      * 2 ^ max (Int.log 2 |x| - ((p : ℤ) - 1)) emin

/-- Rounding to `float` (binary32: 24 significant bits, least subnormal `2 ^ -149`). -/
def f32 (x : ℚ) : ℚ := round_float 24 (-149) x

/-- Rounding to `double` (binary64: 53 significant bits, least subnormal `2 ^ -1074`). -/
def f64 (x : ℚ) : ℚ := round_float 53 (-1074) x

/-! ## Geometry -/

/-- A point or vector with three coordinates. -/
structure point where
  x : ℚ
  y : ℚ
  z : ℚ
deriving DecidableEq

/-- The constant `all_zeros` / `zero_vector`. -/
def all_zeros : point := ⟨0, 0, 0⟩

/-- Component `p[dim]` for a horizontal axis (`dim = false` is x, `dim = true` is y). -/
def point.get (p : point) (dim : Bool) : ℚ := if dim then p.y else p.x

/-- Statement `p[dim] += v` for a horizontal axis. -/
def point.add_dim (p : point) (dim : Bool) (v : ℚ) : point :=
  if dim then { p with y := p.y + v } else { p with x := p.x + v }

/-- Assignment `p[dim] = v` for a horizontal axis. -/
def point.set_dim (p : point) (dim : Bool) (v : ℚ) : point :=
  if dim then { p with y := v } else { p with x := v }

/-- Modelled from the spec: `cube_t` of the absent header, an axis-aligned box stored as
`d[3][2]`; here the six entries are named fields. -/
structure cube_t where
  x1 : ℚ
  x2 : ℚ
  y1 : ℚ
  y2 : ℚ
  z1 : ℚ
  z2 : ℚ
deriving DecidableEq

/-- Entry `d[dim][e]` of a horizontal axis: `dim = false` is x, `dim = true` is y;
`e = false` is the low edge and `e = true` the high edge. -/
def cube_t.d (c : cube_t) (dim e : Bool) : ℚ :=
  match dim, e with
  | false, false => c.x1
  | false, true => c.x2
  | true, false => c.y1
  | true, true => c.y2

/-- Assignment `d[dim][e] = v` of a horizontal axis. -/
def cube_t.set_d (c : cube_t) (dim e : Bool) (v : ℚ) : cube_t :=
  match dim, e with
  | false, false => { c with x1 := v }
  | false, true => { c with x2 := v }
  | true, false => { c with y1 := v }
  | true, true => { c with y2 := v }

/-- Operator `cube + vector` (and `+=`): every axis is shifted by the vector's component. -/
def cube_t.add (c : cube_t) (v : point) : cube_t :=
  { x1 := c.x1 + v.x, x2 := c.x2 + v.x, y1 := c.y1 + v.y, y2 := c.y2 + v.y,
    z1 := c.z1 + v.z, z2 := c.z2 + v.z }

/-- Operator `cube -= vector`. -/
def cube_t.sub (c : cube_t) (v : point) : cube_t :=
  { x1 := c.x1 - v.x, x2 := c.x2 - v.x, y1 := c.y1 - v.y, y2 := c.y2 - v.y,
    z1 := c.z1 - v.z, z2 := c.z2 - v.z }

/-- Modelled from the spec: inline helper of the absent header, `get_cube_center`. -/
def cube_t.get_cube_center (c : cube_t) : point :=
  ⟨(c.x1 + c.x2) / 2, (c.y1 + c.y2) / 2, (c.z1 + c.z2) / 2⟩

/-- Operator `cube + vector` (and `+=`) on `float` coordinates: every sum is rounded. -/
def cube_t.add_f32 (c : cube_t) (v : point) : cube_t :=
  { x1 := f32 (c.x1 + v.x), x2 := f32 (c.x2 + v.x), y1 := f32 (c.y1 + v.y),
    y2 := f32 (c.y2 + v.y), z1 := f32 (c.z1 + v.z), z2 := f32 (c.z2 + v.z) }

/-- Operator `cube -= vector` on `float` coordinates: every difference is rounded. -/
def cube_t.sub_f32 (c : cube_t) (v : point) : cube_t :=
  { x1 := f32 (c.x1 - v.x), x2 := f32 (c.x2 - v.x), y1 := f32 (c.y1 - v.y),
    y2 := f32 (c.y2 - v.y), z1 := f32 (c.z1 - v.z), z2 := f32 (c.z2 - v.z) }

/-- Modelled from the spec: inline helper of the absent header, `get_cube_center`, on `float`
coordinates: half of the rounded sum of the two edges of every axis. -/
def cube_t.get_cube_center_f32 (c : cube_t) : point :=
  ⟨f32 ((1 / 2 : ℚ) * f32 (c.x1 + c.x2)), f32 ((1 / 2 : ℚ) * f32 (c.y1 + c.y2)),
    f32 ((1 / 2 : ℚ) * f32 (c.z1 + c.z2))⟩

/-- Modelled from the spec: inline helper of the absent header, `contains_pt`: the point
lies strictly inside the box. -/
def cube_t.contains_pt (c : cube_t) (p : point) : Bool :=
  decide (c.x1 < p.x ∧ p.x < c.x2 ∧ c.y1 < p.y ∧ p.y < c.y2 ∧ c.z1 < p.z ∧ p.z < c.z2)

/-- Modelled from the spec: inline helper of the absent header, `contains_pt_xy`: the point
lies strictly inside the box in x and y. -/
def cube_t.contains_pt_xy (c : cube_t) (p : point) : Bool :=
  decide (c.x1 < p.x ∧ p.x < c.x2 ∧ c.y1 < p.y ∧ p.y < c.y2)

/-- Modelled from the spec: inline helper of the absent header, `expand_by_xy`. -/
def cube_t.expand_by_xy (c : cube_t) (v : ℚ) : cube_t :=
  { c with x1 := c.x1 - v, x2 := c.x2 + v, y1 := c.y1 - v, y2 := c.y2 + v }

/-- Modelled from the spec: the constructor of a `cube_t` from a single point. -/
def cube_t.of_point (p : point) : cube_t := ⟨p.x, p.x, p.y, p.y, p.z, p.z⟩

/-- Vector sum. -/
def point.add (a b : point) : point := ⟨a.x + b.x, a.y + b.y, a.z + b.z⟩

/-- Vector difference. -/
def point.sub (a b : point) : point := ⟨a.x - b.x, a.y - b.y, a.z - b.z⟩

/-- Product of a scalar and a vector. -/
def point.scale (k : ℚ) (a : point) : point := ⟨k * a.x, k * a.y, k * a.z⟩

/-- Modelled from the spec: inline helper of the absent header, `contains_cube_xy`: the other box lies inside this one in x and y. -/
def cube_t.contains_cube_xy (c o : cube_t) : Bool :=
  decide (c.x1 ≤ o.x1 ∧ o.x2 ≤ c.x2 ∧ c.y1 ≤ o.y1 ∧ o.y2 ≤ c.y2)

/-- Modelled from the spec: inline helper of the absent header, `intersects_xy`: the boxes overlap or touch in x and y. -/
def cube_t.intersects_xy (c o : cube_t) : Bool :=
  decide (¬ (o.x2 < c.x1 ∨ o.x1 > c.x2) ∧ ¬ (o.y2 < c.y1 ∨ o.y1 > c.y2))

/-- Modelled from the spec: inline helper of the absent header, `p2p_dist_xy_sq`: squared horizontal distance of two points. -/
def p2p_dist_xy_sq (a b : point) : ℚ := (a.x - b.x) * (a.x - b.x) + (a.y - b.y) * (a.y - b.y)

/-! ## Cars -/

/-- Constant `MIN_CAR_STOP_SEP` of `cars.cpp`, in units of car lengths. -/
def MIN_CAR_STOP_SEP : ℚ := 1 / 4

/-- Modelled from the spec: `car_t` (with its base `car_base_t` and `waiting_obj_t`) of the
absent header, restricted to the fields the simulation code reads or writes.
`car_in_front` is the index of the car in the car array instead of a pointer. -/
structure car_t where
  bcube : cube_t
  prev_bcube : cube_t
  dim : Bool
  dir : Bool
  stopped_at_light : Bool
  destroyed : Bool
  entering_city : Bool
  cur_road_type : Nat
  turn_dir : Nat
  front_car_turn_dir : Nat
  cur_city : Nat
  cur_road : Nat
  cur_seg : Nat
  max_speed : ℚ
  cur_speed : ℚ
  dz : ℚ
  height : ℚ
  turn_val : ℚ
  waiting_pos : ℚ
  waiting_start : ℚ
  car_in_front : Option Nat
deriving DecidableEq

/-- Modelled from the spec: inline helper of the absent header, `get_length`: the extent of the box along the travel axis. -/
def car_t.get_length (c : car_t) : ℚ := c.bcube.d c.dim true - c.bcube.d c.dim false

/-- Modelled from the spec: inline helper of the absent header, `get_center`. -/
def car_t.get_center (c : car_t) : point := c.bcube.get_cube_center

/-- Modelled from the spec: inline helper of the absent header, `is_stopped`: the current speed is zero. -/
def car_t.is_stopped (c : car_t) : Bool := decide (c.cur_speed = 0)

/-- Modelled from the spec: inline helper of the absent header, `is_parked`: the maximal speed is zero. -/
def car_t.is_parked (c : car_t) : Bool := decide (c.max_speed = 0)

/-- Modelled from the spec: inline helper of the absent header, `is_almost_stopped`. -/
def car_t.is_almost_stopped (c : car_t) : Bool := decide (c.cur_speed < c.max_speed / 10)

/-- Modelled from the spec: inline helper of the absent header, `decelerate(mult)`: the speed drops by `mult * max_speed`, not below zero. -/
def car_t.decelerate (c : car_t) (mult : ℚ) : car_t :=
  { c with cur_speed := max (c.cur_speed - mult * c.max_speed) 0 }

/-- Modelled from the spec: inline helper of the absent header, `decelerate_fast`. -/
def car_t.decelerate_fast (c : car_t) : car_t := c.decelerate 10

/-- Modelled from the spec: inline helper of the absent header, `move_by`: translation of the
box along the travel axis, in exact arithmetic (`car_t.move_by_f32` is the embedding with
rounding). -/
def car_t.move_by (c : car_t) (val : ℚ) : car_t :=
  let b := c.bcube.set_d c.dim false (c.bcube.d c.dim false + val)
  { c with bcube := b.set_d c.dim true (b.d c.dim true + val) }

/-- Function `car_t::get_max_lookahead_dist`. -/
def car_t.get_max_lookahead_dist (road_width : ℚ) (c : car_t) : ℚ := c.get_length + road_width

/-- Function `car_t::get_min_sep_dist_to_car`. -/
def car_t.get_min_sep_dist_to_car (self c : car_t) (add_one_car_len : Bool) : ℚ :=
  let avg_len := (1 / 2 : ℚ) * (self.get_length + c.get_length)
  let min_speed := max 0 (min self.cur_speed c.cur_speed - (1 / 10 : ℚ) * self.max_speed)
  avg_len * (MIN_CAR_STOP_SEP + (111 / 100 : ℚ) * min_speed + (if add_one_car_len then 1 else 0))

/-- Function `car_t::move` in exact arithmetic (`car_t.move_f32` is the embedding with
rounding). `CONN_ROAD_SPEED_MULT` (a constant of the absent header),
`city_params.road_width` and the clock `tfticks` read by `reset_waiting` are parameters.
For a car of length zero the quotient `0.5*dz/get_length()` is an infinity with the sign of
`dz`, which the clamp turns into the factor 0.75 or 1.25. The failing `assert` is `none`. -/
def car_t.move (CONN_ROAD_SPEED_MULT road_width tfticks : ℚ) (c : car_t) (speed_mult : ℚ) :
    Option car_t :=
  let c := { c with prev_bcube := c.bcube }
  if c.destroyed || c.stopped_at_light || c.is_stopped then some c
  else if ¬ (speed_mult ≥ 0 ∧ c.cur_speed > 0 ∧ c.cur_speed ≤ CONN_ROAD_SPEED_MULT * c.max_speed)
  then none
  else
    let dist := c.cur_speed * speed_mult
    let dist := if c.dz ≠ 0 then
        dist * (if c.get_length = 0 then (if 0 < c.dz then (3 / 4 : ℚ) else (5 / 4 : ℚ))
          else min (5 / 4 : ℚ) (max (3 / 4 : ℚ) (1 - (1 / 2 : ℚ) * c.dz / c.get_length)))
      else dist
    let dist := min dist ((1 / 4 : ℚ) * road_width)
    let c := c.move_by (if c.dir then dist else -dist)
    let cur_pos := c.bcube.d c.dim c.dir
    if |cur_pos - c.waiting_pos| > c.get_length then
      some { c with waiting_pos := cur_pos, waiting_start := tfticks }
    else some c

/-- Function `car_base_t::get_front`: the center moved by `dval` car lengths along the
direction of travel. -/
def car_t.get_front (c : car_t) (dval : ℚ) : point :=
  c.get_center.add_dim c.dim ((if c.dir then dval else -dval) * c.get_length)

/-- Function `car_t::front_intersects_car`. -/
def car_t.front_intersects_car (self c : car_t) : Bool :=
  c.bcube.contains_pt (self.get_front (1 / 4)) || c.bcube.contains_pt (self.get_front (1 / 2))

/-- The local `move_c` of `car_t::check_collision`: whether the argument car is the one
that is moved in a conflict of two cars with the same axis and direction. -/
def car_t.check_collision_move_c (self c : car_t) : Bool :=
  xor (decide (self.bcube.d self.dim self.dir < c.bcube.d self.dim self.dir)) self.dir

/-- The local `cmove` of `car_t::check_collision` right after its deceleration: the car
that is behind, slowed down sharply when the car in front is stopped and smoothly otherwise
(`decelerate()` with the default multiplier 0.05 of the absent header). -/
def car_t.check_collision_slowed (self c : car_t) : car_t :=
  let move_c := self.check_collision_move_c c
  let cmove := if move_c then c else self
  let cstay := if move_c then self else c
  if cstay.is_stopped then cmove.decelerate_fast else cmove.decelerate (1 / 20)

/-- The local `delta` of `car_t::check_collision` before any clamping: the offset that
puts the front of the moved car at distance `sep_dist` behind the back of the other car. -/
def car_t.check_collision_delta (self c : car_t) : point :=
  let sep_dist := self.get_min_sep_dist_to_car c false
  let move_c := self.check_collision_move_c c
  let cstay := if move_c then self else c
  let cmove := self.check_collision_slowed c
  let dist := cstay.bcube.d self.dim (!self.dir) - cmove.bcube.d self.dim self.dir
  all_zeros.add_dim self.dim (dist + (if cmove.dir then -sep_dist else sep_dist))

/-- The range test of `car_t::check_collision` for two cars with the same axis and
direction: the box of this car, extended along the travel axis on both sides by 0.999 times
the separation distance, intersects the box of the other car in x and y. -/
def car_t.check_collision_in_range (self c : car_t) : Bool :=
  let sep_dist := self.get_min_sep_dist_to_car c false
  let test_dist := (999 / 1000 : ℚ) * sep_dist
  let ext := self.bcube.set_d self.dim false (self.bcube.d self.dim false - test_dist)
  let bcube_ext := ext.set_d self.dim true (ext.d self.dim true + test_dist)
  bcube_ext.intersects_xy c.bcube

/-- The local `cmove` of `car_t::check_collision` after the statement that records the
turn direction of a slower car in front in `front_car_turn_dir`. -/
def car_t.check_collision_cmove (self c : car_t) : car_t :=
  let cstay := if self.check_collision_move_c c then self else c
  let cmove := self.check_collision_slowed c
  if cstay.max_speed < cmove.max_speed then { cmove with front_car_turn_dir := cstay.turn_dir }
  else cmove

/-- Assignment `car.bcube = b`. -/
def car_t.set_bcube (c : car_t) (b : cube_t) : car_t := { c with bcube := b }

/-- Function `car_t::check_collision` in exact arithmetic (`car_t.check_collision_f32` is
the embedding with rounding). The result is the returned flag together with the two cars
after the call (`*this` first, the argument `c` second). `road_gen.get_bcube_for_car` is a
parameter; the horn is dropped. -/
def car_t.check_collision (get_bcube_for_car : car_t → cube_t) (self c : car_t) :
    Bool × car_t × car_t :=
  if c.dim ≠ self.dim then
    if c.front_intersects_car self then
      let s := c.decelerate_fast
      (true, self, s.set_bcube s.prev_bcube)
    else if self.front_intersects_car c then
      let s := self.decelerate_fast
      (true, s.set_bcube s.prev_bcube, c)
    else (false, self, c)
  else if self.dir ≠ c.dir then (false, self, c)
  else if ¬ self.check_collision_in_range c then (false, self, c)
  else
    let move_c := self.check_collision_move_c c
    let delta := self.check_collision_delta c
    let bcube := get_bcube_for_car (self.check_collision_slowed c)
    let cmove := self.check_collision_cmove c
    let finish := fun (m : car_t) => if move_c then (true, self, m) else (true, m, c)
    if ¬ bcube.contains_cube_xy (cmove.bcube.add delta) then
      if cmove.bcube ≠ cmove.prev_bcube then finish (cmove.set_bcube cmove.prev_bcube)
      else
        let dv := delta.get self.dim
        let dv := if cmove.dir then
            max dv (min 0 ((999 / 1000 : ℚ) * (bcube.d cmove.dim false - cmove.bcube.d cmove.dim false)))
          else
            min dv (max 0 ((999 / 1000 : ℚ) * (bcube.d cmove.dim true - cmove.bcube.d cmove.dim true)))
        finish (cmove.set_bcube (cmove.bcube.add (delta.set_dim self.dim dv)))
    else finish (cmove.set_bcube (cmove.bcube.add delta))

/-- The gap along the travel axis between the back of the car in front and the front of
the car behind, measured in the direction of travel of the car behind. -/
def travel_gap (rear front : car_t) : ℚ :=
  if rear.dir then front.bcube.d rear.dim false - rear.bcube.d rear.dim true
  else rear.bcube.d rear.dim false - front.bcube.d rear.dim true

/-- Car `a` is geometrically behind car `b`: along the common direction of travel the front
edge of `a` comes strictly before the front edge of `b`. -/
def car_t.is_behind (a b : car_t) : Prop :=
  if a.dir then a.bcube.d a.dim a.dir < b.bcube.d a.dim a.dir
  else b.bcube.d a.dim a.dir < a.bcube.d a.dim a.dir

/-! ## Cars with rounded arithmetic -/

/-- Modelled from the spec: inline helper of the absent header, `get_length`, on `float`
coordinates: the rounded difference of the two edges of the travel axis. -/
def car_t.get_length_f32 (c : car_t) : ℚ := f32 (c.bcube.d c.dim true - c.bcube.d c.dim false)

/-- Modelled from the spec: inline helper of the absent header, `decelerate(mult)`, on
`float` values. -/
def car_t.decelerate_f32 (c : car_t) (mult : ℚ) : car_t :=
  { c with cur_speed := max (f32 (c.cur_speed - f32 (mult * c.max_speed))) 0 }

/-- Modelled from the spec: inline helper of the absent header, `move_by`, on `float`
coordinates: the statements `d[dim][0] += val` and `d[dim][1] += val`, each sum rounded. -/
def car_t.move_by_f32 (c : car_t) (val : ℚ) : car_t :=
  let b := c.bcube.set_d c.dim false (f32 (c.bcube.d c.dim false + val))
  { c with bcube := b.set_d c.dim true (f32 (b.d c.dim true + val)) }

/-- Function `car_t::get_min_sep_dist_to_car` with the rounding of every operation: the
operations on `float` operands round to `float`, the return expression, which contains the
`double` literals `1.11`, `1.0` and `0.0`, is evaluated in `double` and converted to `float`. -/
def car_t.get_min_sep_dist_to_car_f32 (self c : car_t) (add_one_car_len : Bool) : ℚ :=
  let avg_len := f32 ((1 / 2 : ℚ) * f32 (self.get_length_f32 + c.get_length_f32))
  let min_speed :=
    max 0 (f32 (min self.cur_speed c.cur_speed - f32 (f32 (1 / 10) * self.max_speed)))
  f32 (f64 (avg_len
    * f64 (f64 (MIN_CAR_STOP_SEP + f64 (f64 (111 / 100) * min_speed))
        + (if add_one_car_len then 1 else 0))))

/-- Function `car_t::move` with the rounding of every operation. The products and sums of
`float` operands round to `float`; the grade factor
`min(1.25, max(0.75, (1.0 - 0.5*dz/get_length())))` is evaluated in `double`, and so is its
product with `dist`, which is then converted to `float`. For a car of length zero the
quotient is an infinity with the sign of `dz`, which the clamp turns into 0.75 or 1.25.
`CONN_ROAD_SPEED_MULT`, `city_params.road_width` and the clock `tfticks` are parameters. The
failing `assert` is `none`. -/
def car_t.move_f32 (CONN_ROAD_SPEED_MULT road_width tfticks : ℚ) (c : car_t) (speed_mult : ℚ) :
    Option car_t :=
  let c := { c with prev_bcube := c.bcube }
  if c.destroyed || c.stopped_at_light || c.is_stopped then some c
  else if ¬ (speed_mult ≥ 0 ∧ c.cur_speed > 0
      ∧ c.cur_speed ≤ f32 (CONN_ROAD_SPEED_MULT * c.max_speed))
  then none
  else
    let dist := f32 (c.cur_speed * speed_mult)
    let dist := if c.dz ≠ 0 then
        f32 (f64 (dist *
          (if c.get_length_f32 = 0 then (if 0 < c.dz then (3 / 4 : ℚ) else (5 / 4 : ℚ))
            else min (5 / 4 : ℚ) (max (3 / 4 : ℚ)
              (f64 (1 - f64 (f64 ((1 / 2 : ℚ) * c.dz) / c.get_length_f32)))))))
      else dist
    let dist := min dist (f32 ((1 / 4 : ℚ) * road_width))
    let c := c.move_by_f32 (if c.dir then dist else -dist)
    let cur_pos := c.bcube.d c.dim c.dir
    if |f32 (cur_pos - c.waiting_pos)| > c.get_length_f32 then
      some { c with waiting_pos := cur_pos, waiting_start := tfticks }
    else some c

/-- The local `dist` of `car_t::move` after the clamp to a quarter of the road width, with
the rounding of every operation. -/
def car_t.move_dist_f32 (road_width : ℚ) (c : car_t) (speed_mult : ℚ) : ℚ :=
  min (if c.dz ≠ 0 then
        f32 (f64 (f32 (c.cur_speed * speed_mult) *
          (if c.get_length_f32 = 0 then (if 0 < c.dz then (3 / 4 : ℚ) else (5 / 4 : ℚ))
            else min (5 / 4 : ℚ) (max (3 / 4 : ℚ)
              (f64 (1 - f64 (f64 ((1 / 2 : ℚ) * c.dz) / c.get_length_f32)))))))
      else f32 (c.cur_speed * speed_mult)) (f32 ((1 / 4 : ℚ) * road_width))

/-- Function `car_base_t::get_front` on `float` values. -/
def car_t.get_front_f32 (c : car_t) (dval : ℚ) : point :=
  let car_front := c.bcube.get_cube_center_f32
  car_front.set_dim c.dim
    (f32 (car_front.get c.dim + f32 ((if c.dir then dval else -dval) * c.get_length_f32)))

/-- Function `car_t::front_intersects_car` on `float` values. -/
def car_t.front_intersects_car_f32 (self c : car_t) : Bool :=
  c.bcube.contains_pt (self.get_front_f32 (1 / 4))
    || c.bcube.contains_pt (self.get_front_f32 (1 / 2))

/-- The local `cmove` of `car_t::check_collision` right after its deceleration, on `float`
values. -/
def car_t.check_collision_slowed_f32 (self c : car_t) : car_t :=
  let move_c := self.check_collision_move_c c
  let cmove := if move_c then c else self
  let cstay := if move_c then self else c
  if cstay.is_stopped then cmove.decelerate_f32 10 else cmove.decelerate_f32 (f32 (1 / 20))

/-- The local `delta` of `car_t::check_collision` before any clamping, on `float` values:
`dist` is the rounded difference of the two edges, and `delta[dim] += dist -+ sep_dist` is a
rounded sum added to zero. -/
def car_t.check_collision_delta_f32 (self c : car_t) : point :=
  let sep_dist := self.get_min_sep_dist_to_car_f32 c false
  let move_c := self.check_collision_move_c c
  let cstay := if move_c then self else c
  let cmove := self.check_collision_slowed_f32 c
  let dist := f32 (cstay.bcube.d self.dim (!self.dir) - cmove.bcube.d self.dim self.dir)
  all_zeros.set_dim self.dim
    (f32 (all_zeros.get self.dim + f32 (dist + (if cmove.dir then -sep_dist else sep_dist))))

/-- The range test of `car_t::check_collision` on `float` values: `test_dist` is the product
of the `double` literal `0.999` and `sep_dist`, converted to `float`, and the two edges of the
extended box are rounded. -/
def car_t.check_collision_in_range_f32 (self c : car_t) : Bool :=
  let sep_dist := self.get_min_sep_dist_to_car_f32 c false
  let test_dist := f32 (f64 (f64 (999 / 1000) * sep_dist))
  let ext := self.bcube.set_d self.dim false (f32 (self.bcube.d self.dim false - test_dist))
  let bcube_ext := ext.set_d self.dim true (f32 (ext.d self.dim true + test_dist))
  bcube_ext.intersects_xy c.bcube

/-- The local `cmove` of `car_t::check_collision` after the statement that records the
turn direction of a slower car in front, on `float` values. -/
def car_t.check_collision_cmove_f32 (self c : car_t) : car_t :=
  let cstay := if self.check_collision_move_c c then self else c
  let cmove := self.check_collision_slowed_f32 c
  if cstay.max_speed < cmove.max_speed then { cmove with front_car_turn_dir := cstay.turn_dir }
  else cmove

/-- Function `car_t::check_collision` with the rounding of every operation on `float`
values. The result is the returned flag together with the two cars after the call (`*this`
first, the argument `c` second). `road_gen.get_bcube_for_car` is a parameter; the horn is
dropped. -/
def car_t.check_collision_f32 (get_bcube_for_car : car_t → cube_t) (self c : car_t) :
    Bool × car_t × car_t :=
  if c.dim ≠ self.dim then
    if c.front_intersects_car_f32 self then
      let s := c.decelerate_f32 10
      (true, self, s.set_bcube s.prev_bcube)
    else if self.front_intersects_car_f32 c then
      let s := self.decelerate_f32 10
      (true, s.set_bcube s.prev_bcube, c)
    else (false, self, c)
  else if self.dir ≠ c.dir then (false, self, c)
  else if ¬ self.check_collision_in_range_f32 c then (false, self, c)
  else
    let move_c := self.check_collision_move_c c
    let delta := self.check_collision_delta_f32 c
    let bcube := get_bcube_for_car (self.check_collision_slowed_f32 c)
    let cmove := self.check_collision_cmove_f32 c
    let finish := fun (m : car_t) => if move_c then (true, self, m) else (true, m, c)
    if ¬ bcube.contains_cube_xy (cmove.bcube.add_f32 delta) then
      if cmove.bcube ≠ cmove.prev_bcube then finish (cmove.set_bcube cmove.prev_bcube)
      else
        let dv := delta.get self.dim
        let dv := if cmove.dir then
            max dv (min 0
              (f32 (f32 (999 / 1000) * f32 (bcube.d cmove.dim false - cmove.bcube.d cmove.dim false))))
          else
            min dv (max 0
              (f32 (f32 (999 / 1000) * f32 (bcube.d cmove.dim true - cmove.bcube.d cmove.dim true))))
        finish (cmove.set_bcube (cmove.bcube.add_f32 (delta.set_dim self.dim dv)))
    else finish (cmove.set_bcube (cmove.bcube.add_f32 delta))
/-- A car of unit square footprint on the x axis, travelling in the positive direction:
its box starts at `x1`, its previous-frame box is the same, and its speeds are as given. -/
def unit_car (x1 cur_speed max_speed : ℚ) : car_t :=
  { bcube := ⟨x1, x1 + 1, 0, 1, 0, 1⟩, prev_bcube := ⟨x1, x1 + 1, 0, 1, 0, 1⟩, dim := false,
    dir := true, stopped_at_light := false, destroyed := false, entering_city := false,
    cur_road_type := 1, turn_dir := 0, front_car_turn_dir := 0, cur_city := 0, cur_road := 0,
    cur_seg := 0, max_speed := max_speed, cur_speed := cur_speed, dz := 0, height := 1,
    turn_val := 0, waiting_pos := x1 + 1, waiting_start := 0, car_in_front := none }

/-- Functor `comp_car_road_then_pos`, the order of the per-frame sort; `camera_pos` is the
functor's member. -/
def comp_car_road_then_pos (camera_pos : point) (c1 c2 : car_t) : Bool :=
  if c1.cur_city ≠ c2.cur_city then decide (c1.cur_city < c2.cur_city)
  else if c1.is_parked ≠ c2.is_parked then c2.is_parked
  else if c1.cur_road ≠ c2.cur_road then decide (c1.cur_road < c2.cur_road)
  else if c1.is_parked then
    decide (p2p_dist_xy_sq c1.bcube.get_cube_center camera_pos
      > p2p_dist_xy_sq c2.bcube.get_cube_center camera_pos)
  else decide (c1.bcube.d c1.dim c1.dir < c2.bcube.d c2.dim c2.dir)

/-! ## The per-frame block index -/

/-- Modelled from the spec: `car_block_t` of the absent header, a block of the sorted car
array: the index of its first car, its city, and the index of its first parked car. -/
structure car_block_t where
  start : Nat
  cur_city : Nat
  first_parked : Nat
deriving DecidableEq

/-- Modelled from the spec: the constructor `car_block_t(start, cur_city)` of the absent
header, as called by `emplace_back`; `first_parked` starts at zero. -/
def car_block_t.create (s c : Nat) : car_block_t := ⟨s, c, 0⟩

/-- Statement `car_blocks.back().first_parked = v` (no effect on an empty list). -/
def set_back_first_parked : List car_block_t → Nat → List car_block_t
  | [], _ => []
  | [b], v => [{ b with first_parked := v }]
  | b :: b2 :: rest, v => b :: set_back_first_parked (b2 :: rest) v

/-- The first block statement in the body of the first loop of `car_manager_t::next_frame`,
for the car `c` at index `cix`: a new block is started when the list is empty or the city
changes, after the `first_parked` of the previous block has been closed. The state is the
pair `(car_blocks, saw_parked)`. -/
def car_blocks_new_city (cix : Nat) (c : car_t) (st : List car_block_t × Bool) :
    List car_block_t × Bool :=
  match st.1.getLast? with
  | none => ([car_block_t.create cix c.cur_city], false)
  | some back =>
    if c.cur_city ≠ back.cur_city then
      ((if !st.2 then set_back_first_parked st.1 cix else st.1)
        ++ [car_block_t.create cix c.cur_city], false)
    else st

/-- The second block statement in the body of the loop: the first parked car of a city sets
`first_parked` of the open block. -/
def car_blocks_mark_parked (cix : Nat) (c : car_t) (st : List car_block_t × Bool) :
    List car_block_t × Bool :=
  if c.is_parked && !st.2 then (set_back_first_parked st.1 cix, true) else st

/-- The block bookkeeping of the body of the first loop of `next_frame` for the car `c` at
index `cix`. -/
def car_blocks_add_car (cix : Nat) (c : car_t) (st : List car_block_t × Bool) :
    List car_block_t × Bool :=
  car_blocks_mark_parked cix c (car_blocks_new_city cix c st)

/-- What the move loop of `next_frame` needs from the rest of the program: constants of the
absent header and of `city_params`, the clock, and the road network queries. -/
structure frame_env where
  CONN_ROAD_SPEED_MULT : ℚ
  road_width : ℚ
  tfticks : ℚ
  in_isect : car_t → Bool
  get_car_isec : car_t → Nat
  get_bcube_for_car : car_t → cube_t

/-- The part of the state of `car_manager_t` that the first loop of `next_frame` writes:
the cars processed so far, the block index, the local `saw_parked`, the indices of the cars
entering a city, and the `mark_blocked` calls made (intersection, dim, dir). -/
structure frame_state where
  cars : List car_t
  car_blocks : List car_block_t
  saw_parked : Bool
  entering_city : List Nat
  blocked : List (Nat × Bool × Bool)

/-- The first loop of `car_manager_t::next_frame` ("move cars"), from index `cix` on, over
the cars not yet visited. A failing `assert` inside `car_t::move` is `none`. The call
`register_car_at_city`, whose definition is not in the sources, is left out. -/
def next_frame_move_cars (env : frame_env) (speed : ℚ) :
    Nat → List car_t → frame_state → Option frame_state
  | _, [], s => some s
  | cix, c0 :: rest, s =>
    let c : car_t := { c0 with car_in_front := none }
    let st := car_blocks_add_car cix c (s.car_blocks, s.saw_parked)
    if c.is_parked then
      next_frame_move_cars env speed (cix + 1) rest
        { s with cars := s.cars ++ [c], car_blocks := st.1, saw_parked := st.2 }
    else
      match c.move env.CONN_ROAD_SPEED_MULT env.road_width env.tfticks speed with
      | none => none
      | some m =>
        next_frame_move_cars env speed (cix + 1) rest
          { cars := s.cars ++ [m], car_blocks := st.1, saw_parked := st.2,
            entering_city := if m.entering_city then s.entering_city ++ [cix] else s.entering_city,
            blocked :=
              if !m.stopped_at_light && m.is_almost_stopped && env.in_isect m then
                s.blocked ++ [(env.get_car_isec m, m.dim, m.dir)]
              else s.blocked }

/-- The first pass of `car_manager_t::next_frame` on the sorted car array: the move loop
followed by the two statements that close the block index (the `first_parked` of the last
city and the terminator block). -/
def next_frame_first_pass (env : frame_env) (speed : ℚ) (cars : List car_t) :
    Option frame_state :=
  match next_frame_move_cars env speed 0 cars ⟨[], [], false, [], []⟩ with
  | none => none
  | some s =>
    let bs := if !s.saw_parked && !s.car_blocks.isEmpty then
        set_back_first_parked s.car_blocks cars.length
      else s.car_blocks
    some { s with car_blocks := bs ++ [car_block_t.create cars.length 0] }

/-- The block bookkeeping of the move loop alone, from index `cix` on. -/
def car_blocks_loop : Nat → List car_t → List car_block_t × Bool → List car_block_t × Bool
  | _, [], st => st
  | cix, c :: rest, st => car_blocks_loop (cix + 1) rest (car_blocks_add_car cix c st)

/-! ## Helicopters and helipads -/

/-- Modelled from the spec: the random generator `rand_gen_t` is not part of the sources.
Every call consumes the next entry of a stream of outcomes, so that a generator value
stands for one arbitrary sequence of random results. -/
structure rand_gen_t where
  ints : Nat → Nat
  bools : Nat → Bool
  units : Nat → ℚ
  vecs : Nat → point
  pos : Nat

/-- Modelled from the spec: call `rgen.rand()`. -/
def rand_gen_t.rand (r : rand_gen_t) : Nat × rand_gen_t := (r.ints r.pos, { r with pos := r.pos + 1 })

/-- Modelled from the spec: call `rgen.rand_bool()`. -/
def rand_gen_t.rand_bool (r : rand_gen_t) : Bool × rand_gen_t :=
  (r.bools r.pos, { r with pos := r.pos + 1 })

/-- Modelled from the spec: call `rgen.rand_uniform(a, b)`, a value between `a` and `b`. -/
def rand_gen_t.rand_uniform (r : rand_gen_t) (a b : ℚ) : ℚ × rand_gen_t :=
  (a + (b - a) * max 0 (min 1 (r.units r.pos)), { r with pos := r.pos + 1 })

/-- Modelled from the spec: call `rgen.signed_rand_vector_xy().get_norm()`. -/
def rand_gen_t.rand_dir_xy (r : rand_gen_t) : point × rand_gen_t :=
  ({ r.vecs r.pos with z := 0 }, { r with pos := r.pos + 1 })

/-- Modelled from the spec: `helipad_t` of the absent header. -/
structure helipad_t where
  bcube : cube_t
  in_use : Bool
  reserved : Bool
deriving DecidableEq

/-- Modelled from the spec: `helipad_t::is_avail`, "a pad is selectable as a new destination
only when neither flag is set". -/
def helipad_t.is_avail (h : helipad_t) : Bool := !h.in_use && !h.reserved

/-- The states of `helicopter_t`. -/
inductive heli_state where
  | STATE_WAIT
  | STATE_TAKEOFF
  | STATE_FLY
  | STATE_LAND
deriving DecidableEq

/-- Modelled from the spec: `helicopter_t` of the absent header (the rendering flag
`dynamic_shadow` is left out). -/
structure helicopter_t where
  bcube : cube_t
  dir : point
  velocity : point
  wait_time : ℚ
  fly_zval : ℚ
  blade_rot : ℚ
  dest_hp : Nat
  state : heli_state
  model_id : Nat
  dynamic : Bool
deriving DecidableEq

/-- Modelled from the spec: the constructor of `helicopter_t` as `add_helicopters` calls it:
a helicopter at rest, waiting on its pad. -/
def helicopter_t.create (bcube : cube_t) (dir : point) (model_id dest_hp : Nat) (dynamic : Bool) :
    helicopter_t :=
  { bcube := bcube, dir := dir, velocity := all_zeros, wait_time := 0, fly_zval := 0,
    blade_rot := 0, dest_hp := dest_hp, state := heli_state.STATE_WAIT, model_id := model_id,
    dynamic := dynamic }

/-- Modelled from the spec: `helicopter_t::get_landing_pt`, the center of the bottom face. -/
def helicopter_t.get_landing_pt (h : helicopter_t) : point :=
  ⟨(h.bcube.x1 + h.bcube.x2) / 2, (h.bcube.y1 + h.bcube.y2) / 2, h.bcube.z1⟩

/-- Constant `DYNAMIC_HELICOPTERS` of `cars.cpp`. -/
def DYNAMIC_HELICOPTERS : Bool := true

/-- The helicopter part of `car_manager_t`. -/
structure heli_manager_t where
  helipads : List helipad_t
  helicopters : List helicopter_t
  rgen : rand_gen_t

/-- What the helicopter code needs from the rest of the program: the model loader, the frame
time, the speed scale, the mesh spacing `DX_VAL`, `DY_VAL`, the terrain height
`get_exact_zval`, the building query `update_buildings_zmax_for_line` (its result is the
value it leaves in its reference argument), the translation
`get_camera_coord_space_xlate()`, and the three vector functions that need a square root
(`get_norm`, `mag` and `p2p_dist`). -/
structure heli_env where
  num_models : Nat
  is_model_valid : Nat → Bool
  get_helicopter_size : Nat → point
  fticks : ℚ
  TICKS_PER_SECOND : ℚ
  CAR_SPEED_SCALE : ℚ
  SQRT2 : ℚ
  TWO_PI : ℚ
  get_norm : point → point
  mag : point → ℚ
  p2p_dist : point → point → ℚ
  DX_VAL : ℚ
  DY_VAL : ℚ
  get_exact_zval : ℚ → ℚ → ℚ
  update_buildings_zmax_for_line : point → point → ℚ → ℚ → ℚ
  get_camera_coord_space_xlate : point

/-- Conversion of a floating-point value to `unsigned`: the value is truncated towards
zero. The conversion is undefined, here `none`, when the truncated value is outside the
range of a 32 bit `unsigned`. -/
def float_to_unsigned (x : ℚ) : Option Nat :=
  if -1 < x ∧ x < 2 ^ 32 then some (Int.toNat ⌊x⌋) else none

/-- The terrain loop of `get_flight_path_zmax` with `n` steps left, the sample position
`pos` and the running maximum `cur_zmax`. -/
def get_flight_path_zmax_loop (env : heli_env) (step : point) : Nat → point → ℚ → ℚ
  | 0, _, cur_zmax => cur_zmax
  | n + 1, pos, cur_zmax =>
    get_flight_path_zmax_loop env step n (pos.add step)
      (max cur_zmax (env.get_exact_zval pos.x pos.y))

/-- Function `get_flight_path_zmax`. The result `none` is a failed `assert` (the two points
are not at the same height, or the path has 10000 terrain steps or more) or an undefined
number of steps (a zero step size, or a quotient outside the range of `unsigned`). -/
def get_flight_path_zmax (env : heli_env) (p1 p2 : point) (radius : ℚ) : Option ℚ :=
  if p1.z ≠ p2.z then none
  else
    let cur_zmax := p1.z
    let dist := env.p2p_dist p1 p2
    let step_sz := min env.DX_VAL env.DY_VAL
    if step_sz = 0 then none
    else
      match float_to_unsigned (dist / step_sz + 1) with
      | none => none
      | some num_steps =>
        let step := point.scale (1 / (num_steps : ℚ)) (p2.sub p1)
        let pos := p1.add env.get_camera_coord_space_xlate
        if ¬ num_steps < 10000 then none
        else
          let cur_zmax := get_flight_path_zmax_loop env step num_steps pos cur_zmax
          some (env.update_buildings_zmax_for_line p1 p2 radius cur_zmax)

/-- Statement `helipads[ix].field = ...` as a functional update (no effect out of range). -/
def update_helipad (hps : List helipad_t) (ix : Nat) (f : helipad_t → helipad_t) : List helipad_t :=
  hps.modify f ix

/-- The body of the loop of `car_manager_t::add_helicopters` for the helipad location `loc`
with index `hp_ix`. -/
def add_helicopters_body (env : heli_env) (hp_ix : Nat) (loc : cube_t) (m : heli_manager_t) :
    heli_manager_t :=
  let hps := update_helipad m.helipads hp_ix (fun h => { h with bcube := loc })
  let (skip, r) := m.rgen.rand_bool
  if skip then { m with helipads := hps, rgen := r }
  else
    let (model_id, r) :=
      if env.num_models = 0 then (0, r) else ((r.rand).1 % env.num_models, (r.rand).2)
    if !env.is_model_valid model_id then { m with helipads := hps, rgen := r }
    else
      let helicopter_sz := env.get_helicopter_size model_id
      let (dir, r) := r.rand_dir_xy
      let center := loc.get_cube_center
      let bcube : cube_t := ⟨0, 0, 0, 0, 0, helicopter_sz.z⟩
      let bcube := bcube.expand_by_xy ((1 / 2 : ℚ) * max helicopter_sz.x helicopter_sz.y)
      let helicopter := helicopter_t.create (bcube.add center) dir model_id hp_ix DYNAMIC_HELICOPTERS
      let (w, r) := if helicopter.dynamic then r.rand_uniform 5 30 else (helicopter.wait_time, r)
      { helipads := update_helipad hps hp_ix (fun h => { h with in_use := true }),
        helicopters := m.helicopters ++ [{ helicopter with wait_time := w }],
        rgen := r }

/-- The loop of `add_helicopters` over the helipad locations, from index `hp_ix` on. -/
def add_helicopters_loop (env : heli_env) : Nat → List cube_t → heli_manager_t → heli_manager_t
  | _, [], m => m
  | hp_ix, loc :: rest, m =>
    add_helicopters_loop env (hp_ix + 1) rest (add_helicopters_body env hp_ix loc m)

/-- Modelled from the spec: a default-constructed `helipad_t`, as `resize` creates it. -/
def helipad_t.default : helipad_t := ⟨⟨0, 0, 0, 0, 0, 0⟩, false, false⟩

/-- Function `car_manager_t::add_helicopters`, called on a manager without helipads and
helicopters. -/
def add_helicopters (env : heli_env) (rgen : rand_gen_t) (hp_locs : List cube_t) : heli_manager_t :=
  if env.num_models = 0 then ⟨[], [], rgen⟩
  else
    add_helicopters_loop env 0 hp_locs ⟨List.replicate hp_locs.length helipad_t.default, [], rgen⟩

/-- The sampling loop of `helicopters_next_frame` that looks for a new destination helipad:
at most `n` draws, the first draw that is not the current pad and is available wins.
The result `none` is the fault of a modulo by an empty helipad list. -/
def choose_new_dest_hp (helipads : List helipad_t) (dest_hp : Nat) :
    Nat → rand_gen_t → Option (Option Nat × rand_gen_t)
  | 0, r => some (none, r)
  | n + 1, r =>
    let (v, r1) := r.rand
    let hp_ix := v % helipads.length
    match helipads[hp_ix]? with
    | none => none
    | some hp =>
      if hp_ix ≠ dest_hp && hp.is_avail then some (some hp_ix, r1)
      else choose_new_dest_hp helipads dest_hp n r1

/-- The result of the loop body of `helicopters_next_frame` for one helicopter: the
helicopter, the helipads and the random generator after the body. -/
abbrev heli_result := helicopter_t × List helipad_t × rand_gen_t

/-- The branch `state == STATE_WAIT` of the loop body of `helicopters_next_frame`: the
countdown, the choice of a new destination helipad and the start of the takeoff.
`none` is a failed `assert`, here or in `get_flight_path_zmax`. -/
def heli_wait_step (env : heli_env) (car_speed : ℚ) (h : helicopter_t)
    (hps : List helipad_t) (r : rand_gen_t) : Option heli_result :=
  let elapsed_secs := env.fticks / env.TICKS_PER_SECOND
  let speed := 2 * env.CAR_SPEED_SCALE * car_speed
  let takeoff_speed := (1 / 5 : ℚ) * speed
  if h.velocity ≠ all_zeros then none
  else if h.wait_time = 0 then some (h, hps, r)
  else
    let h1 := { h with wait_time := h.wait_time - elapsed_secs }
    if h1.wait_time > 0 then some (h1, hps, r)
    else
      match choose_new_dest_hp hps h1.dest_hp 20 r with
      | none => none
      | some (none, r1) => some ({ h1 with wait_time := 1 }, hps, r1)
      | some (some new_dest_hp, r1) =>
        let model_sz := env.get_helicopter_size h1.model_id
        let hc_height := model_sz.z
        let min_vert_clearance := 2 * hc_height
        let min_climb_height := max min_vert_clearance (5 * hc_height)
        let avoid_dist := 2 * env.SQRT2 * max model_sz.x model_sz.y
        if ¬ h1.dest_hp < hps.length then none
        else
          match hps[new_dest_hp]? with
          | none => none
          | some helipad =>
            let p1 := h1.bcube.get_cube_center
            let p2 := helipad.bcube.get_cube_center
            let hps1 := update_helipad hps h1.dest_hp (fun p => { p with in_use := false })
            let hps2 := update_helipad hps1 new_dest_hp (fun p => { p with reserved := true })
            let z := max p1.z p2.z + min_climb_height
            let p1 := { p1 with z := z }
            let p2 := { p2 with z := z }
            (get_flight_path_zmax env p1 p2 avoid_dist).map (fun zmax =>
              ({ h1 with
                  wait_time := 0, dest_hp := new_dest_hp, velocity := ⟨0, 0, takeoff_speed⟩,
                  fly_zval := max p1.z (zmax + min_vert_clearance),
                  state := heli_state.STATE_TAKEOFF }, hps2, r1))

/-- The branch `state == STATE_TAKEOFF` of the loop body: the vertical climb towards
`fly_zval` and the switch to horizontal flight. -/
def heli_takeoff_step (env : heli_env) (car_speed : ℚ) (h : helicopter_t) (helipad : helipad_t)
    (hps : List helipad_t) (r : rand_gen_t) : Option heli_result :=
  let speed := 2 * env.CAR_SPEED_SCALE * car_speed
  let takeoff_speed := (1 / 5 : ℚ) * speed
  let rotate_rate := (1 / 50 : ℚ) * env.fticks
  let dir := env.get_norm (helipad.bcube.get_cube_center.sub h.get_landing_pt)
  let dir := { dir with z := 0 }
  let takeoff_dz := h.fly_zval - h.bcube.z1
  let max_rise_dist := takeoff_speed * env.fticks
  let rise_dist := min takeoff_dz max_rise_dist
  if ¬ takeoff_dz ≥ 0 then none
  else
    let h1 := { h with bcube := h.bcube.add ⟨0, 0, rise_dist⟩ }
    if rise_dist = takeoff_dz then
      let (u, r1) := r.rand_uniform (9 / 10) (11 / 10)
      some ({ h1 with dir := dir, velocity := point.scale (speed * u) dir,
                      state := heli_state.STATE_FLY }, hps, r1)
    else
      let mix := (point.scale rotate_rate dir).add (point.scale (1 - rotate_rate) h1.dir)
      some ({ h1 with dir := env.get_norm mix }, hps, r)

/-- The branch `state == STATE_LAND` of the loop body: the vertical descent onto the
destination helipad and the switch to waiting, with the rounding of every operation: the
expressions with the `double` literals `2.0` and `0.2` are evaluated in `double` and
converted to `float`, the difference `land_dz`, the product `max_fall_dist` and the
coordinates of the box after `bcube -= vector3d(0.0, 0.0, fall_dist)` are rounded to
`float`. -/
def heli_land_step (env : heli_env) (car_speed : ℚ) (h : helicopter_t) (helipad : helipad_t)
    (hps : List helipad_t) (r : rand_gen_t) : Option heli_result :=
  let speed := f32 (f64 (f64 (2 * env.CAR_SPEED_SCALE) * car_speed))
  let land_speed := f32 (f64 (f64 (1 / 5) * speed))
  let land_dz := f32 (h.bcube.z1 - helipad.bcube.z2)
  let max_fall_dist := f32 (land_speed * env.fticks)
  let fall_dist := min land_dz max_fall_dist
  if ¬ land_dz ≥ 0 then none
  else
    let h1 := { h with bcube := h.bcube.sub_f32 ⟨0, 0, fall_dist⟩ }
    if fall_dist = land_dz then
      let (w, r1) := r.rand_uniform 30 60
      some ({ h1 with velocity := all_zeros, wait_time := w, state := heli_state.STATE_WAIT },
        update_helipad hps h.dest_hp (fun p => { p with in_use := true, reserved := false }), r1)
    else some (h1, hps, r)

/-- The last branch of the loop body (`state == STATE_FLY`, asserted): horizontal flight
and the switch to landing once the destination is within one step. -/
def heli_fly_step (env : heli_env) (car_speed : ℚ) (h : helicopter_t) (helipad : helipad_t)
    (hps : List helipad_t) (r : rand_gen_t) : Option heli_result :=
  let speed := 2 * env.CAR_SPEED_SCALE * car_speed
  let land_speed := (1 / 5 : ℚ) * speed
  if h.state ≠ heli_state.STATE_FLY then none
  else
    let cur_pos := h.get_landing_pt
    let dest_pos := helipad.bcube.get_cube_center
    let delta_pos := point.scale env.fticks h.velocity
    let dest := (cube_t.of_point dest_pos).expand_by_xy (env.mag delta_pos)
    if dest.contains_pt_xy cur_pos then
      let xy_move : point := ⟨dest_pos.x - cur_pos.x, dest_pos.y - cur_pos.y, 0⟩
      some ({ h with bcube := h.bcube.add xy_move, velocity := ⟨0, 0, -land_speed⟩,
                     state := heli_state.STATE_LAND }, hps, r)
    else some ({ h with bcube := h.bcube.add delta_pos }, hps, r)

/-- The rotor statement at the end of the moving branch: the blade angle advances while the
velocity is not zero, wrapping at a full turn. -/
def heli_blade_step (env : heli_env) (res : heli_result) : heli_result :=
  if res.1.velocity ≠ all_zeros then
    let rot := res.1.blade_rot + (3 / 4 : ℚ) * env.fticks
    ({ res.1 with blade_rot := if rot > env.TWO_PI then rot - env.TWO_PI else rot }, res.2)
  else res

/-- The body of the loop of `car_manager_t::helicopters_next_frame` for one helicopter `h`:
the result is the helicopter, the helipads and the generator after the body, or `none`
when an `assert` fails. -/
def helicopter_next_frame (env : heli_env) (car_speed : ℚ) (h : helicopter_t)
    (hps : List helipad_t) (r : rand_gen_t) : Option heli_result :=
  if h.state = heli_state.STATE_WAIT then heli_wait_step env car_speed h hps r
  else if h.wait_time ≠ 0 then none
  else
    match hps[h.dest_hp]? with
    | none => none
    | some helipad =>
      if !helipad.reserved then none
      else
        let res :=
          if h.state = heli_state.STATE_TAKEOFF then heli_takeoff_step env car_speed h helipad hps r
          else if h.state = heli_state.STATE_LAND then heli_land_step env car_speed h helipad hps r
          else heli_fly_step env car_speed h helipad hps r
        res.map (heli_blade_step env)

/-- The loop of `helicopters_next_frame` over the helicopters: `done` are the helicopters
already updated in this frame, the list argument the ones still to visit. -/
def helicopters_loop (env : heli_env) (car_speed : ℚ) :
    List helicopter_t → List helicopter_t → List helipad_t → rand_gen_t → Option heli_manager_t
  | [], done, hps, r => some ⟨hps, done, r⟩
  | h :: rest, done, hps, r =>
    match helicopter_next_frame env car_speed h hps r with
    | none => none
    | some (h1, hps1, r1) => helicopters_loop env car_speed rest (done ++ [h1]) hps1 r1

/-- Function `car_manager_t::helicopters_next_frame`; `none` is a failed `assert`. -/
def helicopters_next_frame (env : heli_env) (car_speed : ℚ) (m : heli_manager_t) :
    Option heli_manager_t :=
  if m.helicopters.isEmpty then some m
  else helicopters_loop env car_speed m.helicopters [] m.helipads m.rgen

/-- The travel distance that `car_t::move` hands to `move_by`: speed times multiplier,
scaled by the grade factor on a slope and clamped to a quarter of the road width. -/
def car_t.move_dist (road_width : ℚ) (c : car_t) (speed_mult : ℚ) : ℚ :=
  min (if c.dz ≠ 0 then
        c.cur_speed * speed_mult
          * (if c.get_length = 0 then (if 0 < c.dz then (3 / 4 : ℚ) else (5 / 4 : ℚ))
            else min (5 / 4 : ℚ) (max (3 / 4 : ℚ) (1 - (1 / 2 : ℚ) * c.dz / c.get_length)))
      else c.cur_speed * speed_mult) ((1 / 4 : ℚ) * road_width)

/-! ## Predicates on helicopters and helipads -/

/-- The states of the helicopter manager that can be reached: the state produced by
`add_helicopters` on a manager without helipads and helicopters, for any helipad locations
and any random outcomes, followed by any number of completed `helicopters_next_frame`
calls (the frame time and the other collaborators may differ from frame to frame). -/
inductive heli_reachable : heli_manager_t → Prop where
  | init (env : heli_env) (rgen : rand_gen_t) (hp_locs : List cube_t) :
      heli_reachable (add_helicopters env rgen hp_locs)
  | step (env : heli_env) (car_speed : ℚ) (m m2 : heli_manager_t) :
      heli_reachable m → helicopters_next_frame env car_speed m = some m2 → heli_reachable m2

/-- A helipad is held: its `reserved` or its `in_use` flag is set. -/
def helipad_t.is_held (p : helipad_t) : Prop := p.reserved = true ∨ p.in_use = true

/-- The invariant of helicopters and helipads: no two helicopters have the same
destination pad, the destination pad of every helicopter exists and is held (and is not
reserved while the helicopter waits on it), and every held pad is the destination of some
helicopter. -/
def heli_inv (helis : List helicopter_t) (hps : List helipad_t) : Prop :=
  (helis.map helicopter_t.dest_hp).Nodup
  ∧ (∀ h ∈ helis, ∃ p, hps[h.dest_hp]? = some p ∧ p.is_held
      ∧ (h.state = heli_state.STATE_WAIT → p.reserved = false))
  ∧ (∀ ix p, hps[ix]? = some p → p.is_held → ∃ h ∈ helis, h.dest_hp = ix)

/-- The three kinds of effect of the loop body of `helicopters_next_frame` on the
destination of a helicopter and on the helipads: nothing changes (and a helicopter that
waits afterwards waited before); the helicopter lands and its pad becomes `in_use` and not
`reserved`; or a waiting helicopter leaves for another pad that was available, clearing
`in_use` on the old pad and setting `reserved` on the new one. -/
def heli_step_spec (h : helicopter_t) (hps : List helipad_t) (h1 : helicopter_t)
    (hps1 : List helipad_t) : Prop :=
  (h1.dest_hp = h.dest_hp ∧ hps1 = hps
    ∧ (h1.state = heli_state.STATE_WAIT → h.state = heli_state.STATE_WAIT))
  ∨ (h1.dest_hp = h.dest_hp ∧ h1.state = heli_state.STATE_WAIT
    ∧ hps1 = update_helipad hps h.dest_hp (fun p => { p with in_use := true, reserved := false }))
  ∨ (h.state = heli_state.STATE_WAIT ∧ h1.state ≠ heli_state.STATE_WAIT
    ∧ h1.dest_hp ≠ h.dest_hp
    ∧ (∃ p, hps[h1.dest_hp]? = some p ∧ p.is_avail = true)
    ∧ hps1 = update_helipad (update_helipad hps h.dest_hp (fun p => { p with in_use := false }))
        h1.dest_hp (fun p => { p with reserved := true }))

/-- The invariant of the loop of `add_helicopters` before the helipad with index `k`: no
pad is reserved, a pad is `in_use` exactly when it is the destination of a helicopter, the
destinations are pairwise distinct, below `k` and valid pad indices, and all helicopters
wait. -/
def heli_init_inv (k : Nat) (m : heli_manager_t) : Prop :=
  (∀ (ix : Nat) (p : helipad_t), m.helipads[ix]? = some p → p.reserved = false)
  ∧ (∀ (ix : Nat) (p : helipad_t), m.helipads[ix]? = some p →
      (p.in_use = true ↔ ix ∈ m.helicopters.map helicopter_t.dest_hp))
  ∧ (m.helicopters.map helicopter_t.dest_hp).Nodup
  ∧ (∀ d ∈ m.helicopters.map helicopter_t.dest_hp, d < k ∧ d < m.helipads.length)
  ∧ (∀ h ∈ m.helicopters, h.state = heli_state.STATE_WAIT)

/-! ## Sample data -/

/-- The unit car of `unit_car`, placed in the city `city`. -/
def city_car (city : Nat) (x1 cur_speed max_speed : ℚ) : car_t :=
  { unit_car x1 cur_speed max_speed with cur_city := city }

/-- A sample environment: connector speed multiplier 2, road width 1, no intersections, one
long road segment. -/
def sample_env : frame_env :=
  { CONN_ROAD_SPEED_MULT := 2, road_width := 1, tfticks := 0, in_isect := fun _ => false,
    get_car_isec := fun _ => 0, get_bcube_for_car := fun _ => ⟨-10, 10, 0, 1, 0, 1⟩ }

/-- A sample car array, sorted for a camera at the origin: city 0 with a moving and a parked
car, city 1 with a moving car, city 2 with two parked cars (the farther one first). -/
def sample_cars : List car_t :=
  [city_car 0 0 (1 / 2) 1, city_car 0 3 0 0, city_car 1 0 (1 / 2) 1, city_car 2 3 0 0,
    city_car 2 0 0 0]

/-- A sample helicopter environment: one valid model of unit size, 40 ticks per second, flat
terrain at height 0 with mesh spacing 1 and no buildings; `p2p_dist` is the sum of the
distances in x and in y, the distance of two points that differ in one coordinate. -/
def sample_heli_env : heli_env :=
  { num_models := 1, is_model_valid := fun _ => true, get_helicopter_size := fun _ => ⟨1, 1, 1⟩,
    fticks := 1, TICKS_PER_SECOND := 40, CAR_SPEED_SCALE := 1 / 100, SQRT2 := 7 / 5,
    TWO_PI := 44 / 7, get_norm := fun v => v, mag := fun _ => 0,
    p2p_dist := fun a b => max (a.x - b.x) (b.x - a.x) + max (a.y - b.y) (b.y - a.y),
    DX_VAL := 1, DY_VAL := 1, get_exact_zval := fun _ _ => 0,
    update_buildings_zmax_for_line := fun _ _ _ cur_zmax => cur_zmax,
    get_camera_coord_space_xlate := all_zeros }

/-- A sample sequence of random outcomes: a helicopter on every helipad, the shortest
initial delay, and the draws 0, 1, 2, ... of `rand()`. -/
def sample_rgen : rand_gen_t :=
  { ints := fun n => n, bools := fun _ => false, units := fun _ => 0, vecs := fun _ => ⟨1, 0, 0⟩,
    pos := 0 }

/-- Two sample helipad locations. -/
def sample_hp_locs : List cube_t := [⟨0, 2, 0, 2, 10, 10⟩, ⟨20, 22, 0, 2, 12, 12⟩]

/-- A car on the x axis, travelling in the positive direction, with box `[0, 2] x [0, 1.2]`,
at rest at its previous-frame pose. -/
def cross_car_x : car_t := (unit_car 0 0 1).set_bcube ⟨0, 2, 0, 6 / 5, 0, 1⟩

/-- A car on the y axis, travelling in the positive direction with speed 1/4, with box
`[1, 2] x [-0.5, 1.5]`; in the previous frame it was 0.25 further back. -/
def cross_car_y : car_t :=
  { unit_car 0 (1 / 4) 1 with
    dim := true, bcube := ⟨1, 2, -1 / 2, 3 / 2, 0, 1⟩, prev_bcube := ⟨1, 2, -3 / 4, 5 / 4, 0, 1⟩ }


/-- A waiting helicopter on helipad 0 with 0.01 seconds left on its countdown. -/
def waiting_heli : helicopter_t :=
  { helicopter_t.create ⟨0, 2, 0, 2, 10, 11⟩ ⟨1, 0, 0⟩ 0 0 true with wait_time := 1 / 100 }

/-- Two helipads of which none is available: pad 0 is in use, pad 1 is reserved. -/
def busy_helipads : List helipad_t :=
  [⟨⟨0, 2, 0, 2, 10, 10⟩, true, false⟩, ⟨⟨20, 22, 0, 2, 12, 12⟩, false, true⟩]

/-- A stopped car with box `[1000, 1000.0625]` on the x axis, at its previous-frame pose. -/
def far_rear_car : car_t :=
  { unit_car 1000 0 1 with
    bcube := ⟨1000, 16001 / 16, 0, 1, 0, 1⟩, prev_bcube := ⟨1000, 16001 / 16, 0, 1, 0, 1⟩ }

/-- A stopped car with box `[1000.0703125, 1000.13299560546875]` on the x axis, at its
previous-frame pose: its length is `2^-4 + 3 * 2^-14`. -/
def far_front_car : car_t :=
  { unit_car 1000 0 1 with
    bcube := ⟨128009 / 128, 16386179 / 16384, 0, 1, 0, 1⟩,
    prev_bcube := ⟨128009 / 128, 16386179 / 16384, 0, 1, 0, 1⟩ }

/-- The sample helicopter environment with values that are `float` numbers: speed scale 0.5
and a frame time of 4 ticks. -/
def dyadic_heli_env : heli_env := { sample_heli_env with CAR_SPEED_SCALE := 1 / 2, fticks := 4 }

/-- A reserved helipad whose surface is at height 0.1 (the nearest `float`,
`13421773 / 2^27`). -/
def low_helipad : helipad_t := ⟨⟨-5, 5, -5, 5, 13421773 / 2 ^ 27, 13421773 / 2 ^ 27⟩, false, true⟩

/-- A landing helicopter bound for pad 0, above the center of `low_helipad`, with its bottom
at height 0.35 (the nearest `float`, `11744051 / 2^25`) and its top at height 1.5. -/
def low_landing_heli : helicopter_t :=
  { helicopter_t.create ⟨-1 / 2, 1 / 2, -1 / 2, 1 / 2, 11744051 / 2 ^ 25, 3 / 2⟩ ⟨-1, 0, 0⟩ 0 0
      true with
    velocity := ⟨0, 0, -(13421773 / 2 ^ 26)⟩, state := heli_state.STATE_LAND }

/-! ## Predicates on the block index -/

/-- Two consecutive blocks `b1`, `b2` of the index over the array `cars`: the range
`[b1.start, b2.start)` is not empty, all its cars are in the city of `b1`, and it is
maximal: the car right after it (if there is one) and the car right before it (if there is
one) are in another city. -/
def car_blocks_city_run (cars : List car_t) (b1 b2 : car_block_t) : Prop :=
  b1.start < b2.start
  ∧ (∀ k c, b1.start ≤ k → k < b2.start → cars[k]? = some c → c.cur_city = b1.cur_city)
  ∧ (∀ c, cars[b2.start]? = some c → c.cur_city ≠ b1.cur_city)
  ∧ (∀ c, 0 < b1.start → cars[b1.start - 1]? = some c → c.cur_city ≠ b1.cur_city)

/-- The split of a block `b1` (followed by `b2`) into moving and parked cars:
`first_parked` lies in `[b1.start, b2.start]`, the cars before it are not parked and the
cars from it on are parked. -/
def car_blocks_parked_split (cars : List car_t) (b1 b2 : car_block_t) : Prop :=
  b1.start ≤ b1.first_parked ∧ b1.first_parked ≤ b2.start
  ∧ (∀ k c, b1.start ≤ k → k < b1.first_parked → cars[k]? = some c → c.is_parked = false)
  ∧ (∀ k c, b1.first_parked ≤ k → k < b2.start → cars[k]? = some c → c.is_parked = true)

/-- What the bookkeeping guarantees for the split of a closed block without any assumption
on the order of the cars: `first_parked` is the index of the first parked car of the block,
or the end of the block when it has none. -/
def car_blocks_first_parked (cars : List car_t) (b1 b2 : car_block_t) : Prop :=
  b1.start ≤ b1.first_parked ∧ b1.first_parked ≤ b2.start
  ∧ (∀ k c, b1.start ≤ k → k < b1.first_parked → cars[k]? = some c → c.is_parked = false)
  ∧ (∀ c, b1.first_parked < b2.start → cars[b1.first_parked]? = some c → c.is_parked = true)

/-- The relation between consecutive blocks that the move loop maintains. -/
def car_blocks_link (cars : List car_t) (b1 b2 : car_block_t) : Prop :=
  car_blocks_city_run cars b1 b2 ∧ car_blocks_first_parked cars b1 b2

/-- The invariant of the block bookkeeping: the list is `closed ++ [cur]`, consecutive
blocks are linked, the first block starts at 0, the open block `cur` covers the cars from its
start up to `nc` (all in its city), and its parked cars are known up to `np`: either none of
its cars before `np` is parked, or `first_parked` is its first parked car. -/
def car_blocks_inv (cars : List car_t) (nc np : Nat) (st : List car_block_t × Bool) : Prop :=
  ∃ closed cur, st.1 = closed ++ [cur]
    ∧ List.Chain' (car_blocks_link cars) (closed ++ [cur])
    ∧ (∀ b ∈ (closed ++ [cur]).head?, b.start = 0)
    ∧ cur.start < nc
    ∧ (∀ k c, cur.start ≤ k → k < nc → cars[k]? = some c → c.cur_city = cur.cur_city)
    ∧ (∀ c, 0 < cur.start → cars[cur.start - 1]? = some c → c.cur_city ≠ cur.cur_city)
    ∧ (st.2 = false → ∀ k c, cur.start ≤ k → k < np → cars[k]? = some c → c.is_parked = false)
    ∧ (st.2 = true → cur.start ≤ cur.first_parked ∧ cur.first_parked < np
        ∧ (∀ k c, cur.start ≤ k → k < cur.first_parked → cars[k]? = some c → c.is_parked = false)
        ∧ (∀ c, cars[cur.first_parked]? = some c → c.is_parked = true))

/-- The key that `comp_car_road_then_pos` compares lexicographically: city, parked state
(moving first), road, and then the negated squared distance to the camera for a parked car
or the front position for a moving car. -/
def comp_key (camera_pos : point) (c : car_t) : Nat × Bool × Nat × ℚ :=
  (c.cur_city, c.is_parked, c.cur_road,
    if c.is_parked then -p2p_dist_xy_sq c.bcube.get_cube_center camera_pos
    else c.bcube.d c.dim c.dir)

/-- The lexicographic order on the keys of `comp_key`. -/
def comp_key_lt (k1 k2 : Nat × Bool × Nat × ℚ) : Prop :=
  k1.1 < k2.1 ∨ (k1.1 = k2.1 ∧ ((k1.2.1 = false ∧ k2.2.1 = true)
    ∨ (k1.2.1 = k2.2.1 ∧ (k1.2.2.1 < k2.2.2.1 ∨ (k1.2.2.1 = k2.2.2.1 ∧ k1.2.2.2 < k2.2.2.2)))))

/-! ## Links to the car in front -/

/-- Modelled from the spec: inline helper of the absent header, `is_all_zeros`. -/
def cube_t.is_all_zeros (c : cube_t) : Bool :=
  decide (c.x1 = 0 ∧ c.x2 = 0 ∧ c.y1 = 0 ∧ c.y2 = 0 ∧ c.z1 = 0 ∧ c.z2 = 0)

/-- The loop of `car_t::count_cars_in_front` with `n` iterations left, the current car
`cur_car` and the count `num`. -/
def car_t.count_cars_in_front_loop (cars : List car_t) (self : car_t) (range : cube_t) :
    Nat → car_t → Nat → Nat
  | 0, _, num => num
  | n + 1, cur_car, num =>
    match cur_car.car_in_front.bind (fun f => cars[f]?) with
    | none => num
    | some nxt =>
      if !range.is_all_zeros && !range.contains_pt_xy nxt.get_center then num
      else
        car_t.count_cars_in_front_loop cars self range n nxt
          (if nxt.dim ≠ self.dim ∨ nxt.dir = self.dir then num + 1 else num)

/-- Function `car_t::count_cars_in_front`. -/
def car_t.count_cars_in_front (cars : List car_t) (self : car_t) (range : cube_t) : Nat :=
  car_t.count_cars_in_front_loop cars self range 50 self 0

/-- The loop of `car_t::get_sum_len_space_for_cars_in_front` with `n` iterations left, the
current car `cur_car` and the sum `len`. -/
def car_t.get_sum_len_loop (cars : List car_t) (self : car_t) (range : cube_t) :
    Nat → car_t → ℚ → ℚ
  | 0, _, len => len
  | n + 1, cur_car, len =>
    let len :=
      if cur_car.dim ≠ self.dim ∨ cur_car.dir = self.dir then len + cur_car.get_length else len
    match cur_car.car_in_front.bind (fun f => cars[f]?) with
    | none => len
    | some nxt =>
      if !range.contains_pt_xy nxt.get_center then len
      else car_t.get_sum_len_loop cars self range n nxt len

/-- Function `car_t::get_sum_len_space_for_cars_in_front`. -/
def car_t.get_sum_len_space_for_cars_in_front (cars : List car_t) (self : car_t)
    (range : cube_t) : ℚ :=
  car_t.get_sum_len_loop cars self range 1000 self 0 * (1 + MIN_CAR_STOP_SEP)

/-- Three cars in a row: the first is followed by a car of length 2 that comes towards it
on the same axis, which is followed by a car of length 2 going the way of the first. -/
def oncoming_cars : List car_t :=
  [{ unit_car 0 0 1 with car_in_front := some 1 },
    { unit_car 2 0 1 with bcube := ⟨2, 4, 0, 1, 0, 1⟩, dir := false, car_in_front := some 2 },
    { unit_car 5 0 1 with bcube := ⟨5, 7, 0, 1, 0, 1⟩, car_in_front := none }]

/-- Two cars whose links form a circle: each one is the car in front of the other. -/
def circular_cars : List car_t :=
  [{ unit_car 0 0 1 with car_in_front := some 1 }, { unit_car 2 0 1 with car_in_front := some 0 }]

/-! ## Pedestrians in front of a car -/

/-- Modelled from the spec: inline helper of the absent header, `get_orient`: the pair
`(dim, dir)` as a number. -/
def car_t.get_orient (c : car_t) : Nat := 2 * (if c.dim then 1 else 0) + (if c.dir then 1 else 0)

/-- Modelled from the spec: inline helper of the absent header, `p2p_dist_sq`: squared
distance of two points. -/
def p2p_dist_sq (a b : point) : ℚ :=
  (a.x - b.x) * (a.x - b.x) + (a.y - b.y) * (a.y - b.y) + (a.z - b.z) * (a.z - b.z)

/-- What `car_manager_t::find_next_car_after_turn` needs from the rest of the program:
constants of the absent header, the road width, and the queries on the intersection of a car
(`get_car_isec(car)` is folded into them). -/
structure turn_env where
  TURN_NONE : Nat
  TYPE_RSEG : Nat
  CONN_CITY_IX : Nat
  road_width : ℚ
  is_global_conn_int : car_t → Bool
  get_dest_orient_for_car_in_isec : car_t → Nat
  rix_xy : car_t → Nat → Int
  conn_ix : car_t → Nat → Int
  decode_neg_ix : Int → Nat

/-- Modelled from the spec: `std::lower_bound` over the cars `[first, first + count)` with
the functor `comp_car_road` of the absent header (it compares `cur_road`), by the usual
halving search; the first argument bounds the number of rounds. -/
def lower_bound_road (cars : List car_t) (road_ix : Nat) : Nat → Nat → Nat → Nat
  | 0, first, _ => first
  | fuel + 1, first, count =>
    if count = 0 then first
    else
      let step := count / 2
      match cars[first + step]? with
      | none => first
      | some c =>
        if c.cur_road < road_ix then
          lower_bound_road cars road_ix fuel (first + step + 1) (count - (step + 1))
        else lower_bound_road cars road_ix fuel first step

/-- The locals of `find_next_car_after_turn` that its loops write: the link `car_in_front`
of the queried car, `dmin_sq`, `ret_car_ix` (`none` is -1) and `prev_dist_sq` (`none` is
`FLT_MAX`). -/
structure turn_scan_t where
  car_in_front : Option Nat
  dmin_sq : ℚ
  ret_car_ix : Option Nat
  prev_dist_sq : Option ℚ

/-- The inner loop of `find_next_car_after_turn` over the car indices `it`, for the queried
car `car` at index `ci`. The result `none` is the failed `assert`; `get_front()` is called
with the default argument 0.5 of the absent header. -/
def find_next_car_scan (env : turn_env) (cars : List car_t) (ci : Nat) (car : car_t)
    (city_ix road_ix seg_ix dest_orient : Nat) : List Nat → turn_scan_t → Option turn_scan_t
  | [], s => some s
  | it :: rest, s =>
    match cars[it]? with
    | none => some s
    | some c =>
      if it = ci then find_next_car_scan env cars ci car city_ix road_ix seg_ix dest_orient rest s
      else if c.cur_city ≠ city_ix then none
      else if c.cur_road ≠ road_ix then some s
      else if (if c.cur_road_type = env.TYPE_RSEG then c.cur_seg ≠ seg_ix
          else c.cur_road_type ≠ car.cur_road_type ∨ c.cur_seg ≠ car.cur_seg) then
        find_next_car_scan env cars ci car city_ix road_ix seg_ix dest_orient rest s
      else if c.get_orient ≠ dest_orient then
        find_next_car_scan env cars ci car city_ix road_ix seg_ix dest_orient rest s
      else
        let dist_sq := p2p_dist_sq car.get_center c.get_center
        if p2p_dist_sq car.get_center (c.get_front (1 / 2)) < dist_sq then
          find_next_car_scan env cars ci car city_ix road_ix seg_ix dest_orient rest s
        else if dist_sq < s.dmin_sq then
          find_next_car_scan env cars ci car city_ix road_ix seg_ix dest_orient rest
            { car_in_front := some it, dmin_sq := dist_sq,
              ret_car_ix := if some it ≠ s.car_in_front then some it else s.ret_car_ix,
              prev_dist_sq := some dist_sq }
        else if (match s.prev_dist_sq with
            | none => false
            | some p => decide (dist_sq > p)) then some s
        else
          find_next_car_scan env cars ci car city_ix road_ix seg_ix dest_orient rest
            { s with prev_dist_sq := some dist_sq }

/-- The outer loop of `find_next_car_after_turn` over the blocks of the index (all but the
terminator): in each block of the destination city the moving cars are scanned from the
first one on the destination road. -/
def find_next_car_blocks (env : turn_env) (cars : List car_t) (ci : Nat) (car : car_t)
    (city_ix road_ix seg_ix dest_orient : Nat) :
    List car_block_t → turn_scan_t → Option turn_scan_t
  | [], s => some s
  | cb :: rest, s =>
    if cb.cur_city ≠ city_ix then
      find_next_car_blocks env cars ci car city_ix road_ix seg_ix dest_orient rest s
    else if ¬ (cb.first_parked ≤ cars.length ∧ cb.start ≤ cb.first_parked) then none
    else
      let it := lower_bound_road cars road_ix (cb.first_parked - cb.start) cb.start
        (cb.first_parked - cb.start)
      match find_next_car_scan env cars ci car city_ix road_ix seg_ix dest_orient
          (List.range' it (cb.first_parked - it)) { s with prev_dist_sq := none } with
      | none => none
      | some s1 =>
        find_next_car_blocks env cars ci car city_ix road_ix seg_ix dest_orient rest s1

/-- Function `car_manager_t::find_next_car_after_turn` for the car at index `ci` of the array
`cars`: the returned index (`none` is -1) and the link `car_in_front` of the car after the
call. The links are indices into `cars`; a link that names no car of the array stands for
the null pointer. The outer `none` is a failed `assert`. -/
def find_next_car_after_turn (env : turn_env) (car_blocks : List car_block_t)
    (cars : List car_t) (ci : Nat) : Option (Option Nat × Option Nat) :=
  match cars[ci]? with
  | none => none
  | some car =>
    if car.turn_dir = env.TURN_NONE ∧ env.is_global_conn_int car = false then
      some (none, car.car_in_front)
    else
      let dest_orient := env.get_dest_orient_for_car_in_isec car
      let road_ix := env.rix_xy car dest_orient
      let seg_ix := env.conn_ix car dest_orient
      if ¬ (road_ix < 0 ↔ seg_ix < 0) then none
      else
        let city_ix := if road_ix < 0 then env.CONN_CITY_IX else car.cur_city
        let road := if road_ix < 0 then env.decode_neg_ix road_ix else road_ix.toNat
        let seg := if road_ix < 0 then env.decode_neg_ix seg_ix else seg_ix.toNat
        let dmin := car.get_max_lookahead_dist env.road_width
        let link := car.car_in_front.bind (fun f => (cars[f]?).map (fun cf => (f, cf)))
        let link := link.bind (fun p => if p.2.get_orient ≠ dest_orient then none else some p)
        let dmin_sq :=
          match link with
          | some p =>
            if car.turn_dir = env.TURN_NONE then
              min (dmin * dmin) (p2p_dist_sq car.get_center p.2.get_center)
            else dmin * dmin
          | none => dmin * dmin
        match find_next_car_blocks env cars ci car city_ix road seg dest_orient
            car_blocks.dropLast ⟨link.map Prod.fst, dmin_sq, none, none⟩ with
        | none => none
        | some s => some (s.ret_car_ix, s.car_in_front)

/-- Constants and intersection queries for the samples: cars go straight on, the
destination is road 0, segment 0 of the city of the car, and the road is 4 wide. -/
def sample_turn_env : turn_env :=
  { TURN_NONE := 0, TYPE_RSEG := 1, CONN_CITY_IX := 1000, road_width := 4,
    is_global_conn_int := fun _ => false,
    get_dest_orient_for_car_in_isec := fun c => c.get_orient,
    rix_xy := fun _ _ => 0, conn_ix := fun _ _ => 0,
    decode_neg_ix := fun i => (-(i + 1)).toNat }

/-- Three unit cars on the x axis that travel in the negative direction, in sorted order: a
car at `[6, 7]`, a car at `[8, 9]`, and a turning car at `[10, 11]` whose link `car_in_front`
names the car at `[8, 9]`. -/
def turn_cars : List car_t :=
  [{ unit_car 6 1 1 with dir := false }, { unit_car 8 1 1 with dir := false },
   { unit_car 10 1 1 with dir := false, turn_dir := 1, car_in_front := some 1 }]

/-- The invariant of the loops of `find_next_car_after_turn` for the queried car at index
`ci` with center `center`, the destination orientation `dest` and the initial value `D` of
`dmin_sq`: `dmin_sq` has not grown, and a recorded index is not `ci`, is the current link,
and names a car with the destination orientation that is closer than `D`. -/
def turn_scan_inv (cars : List car_t) (ci : Nat) (center : point) (dest : Nat) (D : ℚ)
    (s : turn_scan_t) : Prop :=
  s.dmin_sq ≤ D
  ∧ ∀ i : Nat, s.ret_car_ix = some i →
      i ≠ ci ∧ s.car_in_front = some i
        ∧ ∃ c : car_t, cars[i]? = some c ∧ c.get_orient = dest
          ∧ p2p_dist_sq center c.get_center < D

/-! ## The road-scoped index of map mode -/

/-- Modelled from the spec: `cube_with_ix_t` of the absent header, a box together with the
index of the first car it covers. -/
structure cube_with_ix_t where
  cube : cube_t
  ix : Nat
deriving DecidableEq

/-- Modelled from the spec: inline helper of the absent header, `union_with_cube`: the
smallest box that contains both boxes. -/
def cube_t.union_with_cube (c o : cube_t) : cube_t :=
  { x1 := min c.x1 o.x1, x2 := max c.x2 o.x2, y1 := min c.y1 o.y1, y2 := max c.y2 o.y2,
    z1 := min c.z1 o.z1, z2 := max c.z2 o.z2 }

/-- The state of the map-mode loop of `car_manager_t::next_frame`: the two vectors it fills
and its locals `cur_city`, `cur_road` and `saw_parked`. -/
structure by_road_state where
  car_blocks_by_road : List car_block_t
  cars_by_road : List cube_with_ix_t
  cur_city : Nat
  cur_road : Nat
  saw_parked : Bool

/-- Statement `cars_by_road.back().union_with_cube(b)`; `none` is `back()` on an empty
vector. -/
def union_back (l : List cube_with_ix_t) (b : cube_t) : Option (List cube_with_ix_t) :=
  match l.getLast? with
  | none => none
  | some last => some (l.dropLast ++ [{ last with cube := last.cube.union_with_cube b }])

/-- The map-mode loop of `car_manager_t::next_frame` ("create cars_by_road") from the car
with index `ix` on. `TYPE_BUILDING` is a constant of the absent header. The result `none` is
a call of `back()` on an empty vector. -/
def cars_by_road_loop (TYPE_BUILDING : Nat) :
    Nat → List car_t → by_road_state → Option by_road_state
  | _, [], s => some s
  | ix, c :: rest, s =>
    if c.cur_road_type = TYPE_BUILDING then cars_by_road_loop TYPE_BUILDING (ix + 1) rest s
    else
      let new_city := decide (c.cur_city ≠ s.cur_city)
      let new_parked := !s.saw_parked && c.is_parked
      let cbr_ix := s.cars_by_road.length
      if new_parked && s.car_blocks_by_road.isEmpty then none
      else
        let bs := if new_parked then set_back_first_parked s.car_blocks_by_road cbr_ix
          else s.car_blocks_by_road
        let saw := if new_parked then true else s.saw_parked
        if new_city || new_parked || decide (c.cur_road ≠ s.cur_road) then
          let bs2 :=
            if new_city then
              (if !saw && !bs.isEmpty then set_back_first_parked bs cbr_ix else bs)
                ++ [car_block_t.create cbr_ix c.cur_city]
            else bs
          let saw2 := if new_city then false else saw
          cars_by_road_loop TYPE_BUILDING (ix + 1) rest
            { car_blocks_by_road := bs2, cars_by_road := s.cars_by_road ++ [⟨c.bcube, ix⟩],
              cur_city := c.cur_city, cur_road := c.cur_road, saw_parked := saw2 }
        else
          match union_back s.cars_by_road c.bcube with
          | none => none
          | some cbr =>
            cars_by_road_loop TYPE_BUILDING (ix + 1) rest
              { s with car_blocks_by_road := bs, cars_by_road := cbr, saw_parked := saw }

/-- The map-mode part of `car_manager_t::next_frame`: the loop over the cars, started with
empty vectors and the invalid city and road `1 << 31`, followed by the statements that close
the last block and append the two terminators. The result is the pair
`(car_blocks_by_road, cars_by_road)`. -/
def next_frame_cars_by_road (TYPE_BUILDING : Nat) (cars : List car_t) :
    Option (List car_block_t × List cube_with_ix_t) :=
  match cars_by_road_loop TYPE_BUILDING 0 cars ⟨[], [], 2 ^ 31, 2 ^ 31, false⟩ with
  | none => none
  | some s =>
    let bs := if !s.saw_parked && !s.car_blocks_by_road.isEmpty then
        set_back_first_parked s.car_blocks_by_road s.cars_by_road.length
      else s.car_blocks_by_road
    some (bs ++ [car_block_t.create s.cars_by_road.length 0],
      s.cars_by_road ++ [⟨⟨0, 0, 0, 0, 0, 0⟩, cars.length⟩])

/-! ## The collision pass of `next_frame` -/

/-- The conditions that `helicopters_next_frame` asserts on a helicopter before it updates
it: a waiting helicopter has zero velocity; a helicopter in another state (TAKEOFF, FLY or
LAND) has `wait_time == 0`, a `dest_hp` that is an index of the helipad list, and a
destination helipad whose `reserved` flag is set. -/
def heli_asserts (h : helicopter_t) (hps : List helipad_t) : Prop :=
  (h.state = heli_state.STATE_WAIT → h.velocity = all_zeros)
  ∧ (h.state ≠ heli_state.STATE_WAIT →
      h.wait_time = 0 ∧ h.dest_hp < hps.length
        ∧ ∃ p, hps[h.dest_hp]? = some p ∧ p.reserved = true)

/-- A unit car at the origin with speed 1/2 whose waiting marker was set when its front was
at 1/2. -/
def waiting_car : car_t := { unit_car 0 (1 / 2) 1 with waiting_pos := 1 / 2 }

/-- The sample environment with every car inside the intersection number 3. -/
def isect_env : frame_env :=
  { sample_env with in_isect := fun _ => true, get_car_isec := fun _ => 3 }

/-- A moving (not parked) unit car that stands still, held by a red light. -/
def red_light_car : car_t := { unit_car 0 0 1 with stopped_at_light := true }

/-! ## Properties of `car_t::move` and of the minimum separation -/

theorem cube_t.d_set_d (b : cube_t) (dim e dim2 e2 : Bool) (v : ℚ) :
    (b.set_d dim e v).d dim2 e2 = if dim2 = dim ∧ e2 = e then v else b.d dim2 e2 := by
  cases dim <;> cases e <;> cases dim2 <;> cases e2 <;> simp [cube_t.d, cube_t.set_d]

theorem car_t.move_eq (conn_mult road_width tfticks : ℚ) (c : car_t) (speed_mult : ℚ) :
    c.move conn_mult road_width tfticks speed_mult =
      if (c.destroyed || c.stopped_at_light || c.is_stopped) = true then
        some { c with prev_bcube := c.bcube }
      else if ¬ (speed_mult ≥ 0 ∧ c.cur_speed > 0 ∧ c.cur_speed ≤ conn_mult * c.max_speed) then none
      else if |(c.move_by (if c.dir then c.move_dist road_width speed_mult
                  else -c.move_dist road_width speed_mult)).bcube.d c.dim c.dir - c.waiting_pos|
                > (c.move_by (if c.dir then c.move_dist road_width speed_mult
                  else -c.move_dist road_width speed_mult)).get_length then
        some { c.move_by (if c.dir then c.move_dist road_width speed_mult
                  else -c.move_dist road_width speed_mult) with
                prev_bcube := c.bcube,
                waiting_pos := (c.move_by (if c.dir then c.move_dist road_width speed_mult
                  else -c.move_dist road_width speed_mult)).bcube.d c.dim c.dir,
                waiting_start := tfticks }
      else
        some { c.move_by (if c.dir then c.move_dist road_width speed_mult
                  else -c.move_dist road_width speed_mult) with prev_bcube := c.bcube } := by
  rfl

/-- Case analysis of `car_t::move`: a car that completes the call either returned early with
only `prev_bcube` updated, or satisfied the asserted precondition and was moved by the
clamped distance, with its waiting marker possibly reset. -/
theorem car_t.move_cases (conn_mult road_width tfticks : ℚ) (c : car_t) (speed_mult : ℚ)
    (c2 : car_t) (h : c.move conn_mult road_width tfticks speed_mult = some c2) :
    ((c.destroyed = true ∨ c.stopped_at_light = true ∨ c.cur_speed = 0)
      ∧ c2 = { c with prev_bcube := c.bcube })
    ∨ (¬ (c.destroyed = true ∨ c.stopped_at_light = true ∨ c.cur_speed = 0)
      ∧ (speed_mult ≥ 0 ∧ c.cur_speed > 0 ∧ c.cur_speed ≤ conn_mult * c.max_speed)
      ∧ ∃ w ws : ℚ, c2 = { c.move_by (if c.dir then c.move_dist road_width speed_mult
                                        else -c.move_dist road_width speed_mult) with
                            prev_bcube := c.bcube, waiting_pos := w, waiting_start := ws }) := by
  rw [car_t.move_eq] at h
  have hiff : (c.destroyed || c.stopped_at_light || c.is_stopped) = true ↔
      (c.destroyed = true ∨ c.stopped_at_light = true ∨ c.cur_speed = 0) := by
    simp [car_t.is_stopped, or_assoc]
  by_cases hs : (c.destroyed || c.stopped_at_light || c.is_stopped) = true
  · left
    rw [if_pos hs] at h
    exact ⟨hiff.1 hs, (Option.some.inj h).symm⟩
  · right
    rw [if_neg hs] at h
    by_cases hp : speed_mult ≥ 0 ∧ c.cur_speed > 0 ∧ c.cur_speed ≤ conn_mult * c.max_speed
    · refine ⟨fun hc => hs (hiff.2 hc), hp, ?_⟩
      rw [if_neg (not_not.2 hp)] at h
      generalize (if c.dir then c.move_dist road_width speed_mult
          else -c.move_dist road_width speed_mult) = v at h ⊢
      split_ifs at h
      · exact ⟨_, _, (Option.some.inj h).symm⟩
      · exact ⟨_, _, (Option.some.inj h).symm⟩
    · rw [if_pos hp] at h
      exact absurd h (by simp)

/-- C9: for a car that is not destroyed, not stopped at a light and not stopped,
`car_t::move` faults exactly when `speed_mult < 0`, or `cur_speed <= 0`, or
`cur_speed > CONN_ROAD_SPEED_MULT * max_speed`; when the asserted precondition holds the
call completes. -/
theorem move_faults_iff_precondition_violated (conn_mult road_width tfticks : ℚ) (c : car_t)
    (speed_mult : ℚ) (hd : c.destroyed = false) (hl : c.stopped_at_light = false)
    (hs : c.cur_speed ≠ 0) :
    (c.move conn_mult road_width tfticks speed_mult = none
      ↔ (speed_mult < 0 ∨ c.cur_speed ≤ 0 ∨ c.cur_speed > conn_mult * c.max_speed))
    ∧ ((0 ≤ speed_mult ∧ 0 < c.cur_speed ∧ c.cur_speed ≤ conn_mult * c.max_speed)
      → ∃ c2, c.move conn_mult road_width tfticks speed_mult = some c2) := by
  have hcond : ¬ ((c.destroyed || c.stopped_at_light || c.is_stopped) = true) := by
    simp [hd, hl, hs, car_t.is_stopped]
  constructor
  · rw [car_t.move_eq, if_neg hcond]
    constructor
    · intro h
      by_contra hc
      simp only [not_or, not_lt, not_le] at hc
      rw [if_neg (not_not.2 ⟨hc.1, hc.2.1, hc.2.2⟩)] at h
      split_ifs at h
    · intro h
      rw [if_pos]
      rintro ⟨h1, h2, h3⟩
      rcases h with h | h | h
      · exact absurd h1 (not_le.2 h)
      · exact absurd h2 (not_lt.2 h)
      · exact absurd h3 (not_le.2 h)
  · intro hp
    rw [car_t.move_eq, if_neg hcond, if_neg (not_not.2 hp)]
    split_ifs <;> exact ⟨_, rfl⟩

theorem move_faults_iff_precondition_violated_witness :
    ((unit_car 0 (1 / 2) 1).move 2 1 0 (-1) = none
      ↔ ((-1 : ℚ) < 0 ∨ (unit_car 0 (1 / 2) 1).cur_speed ≤ 0
          ∨ (unit_car 0 (1 / 2) 1).cur_speed > 2 * (unit_car 0 (1 / 2) 1).max_speed))
    ∧ ((0 ≤ (-1 : ℚ) ∧ 0 < (unit_car 0 (1 / 2) 1).cur_speed
          ∧ (unit_car 0 (1 / 2) 1).cur_speed ≤ 2 * (unit_car 0 (1 / 2) 1).max_speed)
      → ∃ c2, (unit_car 0 (1 / 2) 1).move 2 1 0 (-1) = some c2) :=
  move_faults_iff_precondition_violated 2 1 0 (unit_car 0 (1 / 2) 1) (-1) rfl rfl
    (by norm_num [unit_car])

/-- The deceleration and the turn record inside `check_collision` leave the box, the
previous box, the axis and the direction of the moved car as they were. -/
theorem car_t.check_collision_cmove_fields (a b : car_t) :
    (a.check_collision_cmove b).bcube = (if a.check_collision_move_c b then b else a).bcube
    ∧ (a.check_collision_cmove b).prev_bcube
        = (if a.check_collision_move_c b then b else a).prev_bcube
    ∧ (a.check_collision_cmove b).dim = (if a.check_collision_move_c b then b else a).dim
    ∧ (a.check_collision_cmove b).dir = (if a.check_collision_move_c b then b else a).dir
    ∧ (a.check_collision_slowed b).bcube = (if a.check_collision_move_c b then b else a).bcube
    ∧ (a.check_collision_slowed b).dir = (if a.check_collision_move_c b then b else a).dir := by
  unfold car_t.check_collision_cmove car_t.check_collision_slowed
  simp only
  split_ifs <;> simp [car_t.decelerate_fast, car_t.decelerate]

/-- The outcomes of `check_collision` on two cars with the same axis and direction: without
a conflict nothing changes; with a conflict exactly the car selected by `move_c` is
replaced by a car `m` whose box is the corrected pose, the previous pose, or the clamped
pose, and the other car is returned as it was. -/
theorem car_t.check_collision_same_dir (road : car_t → cube_t) (a b : car_t)
    (hdim : b.dim = a.dim) (hdir : a.dir = b.dir) :
    (a.check_collision_in_range b = false ∧ a.check_collision road b = (false, a, b))
    ∨ a.check_collision_in_range b = true ∧ ∃ m : car_t,
        a.check_collision road b
          = (if a.check_collision_move_c b then (true, a, m) else (true, m, b))
        ∧ m.dim = a.dim ∧ m.dir = a.dir
        ∧ m.prev_bcube = (if a.check_collision_move_c b then b else a).prev_bcube
        ∧ ((road (a.check_collision_slowed b)).contains_cube_xy
              ((a.check_collision_slowed b).bcube.add (a.check_collision_delta b)) = true
            ∧ m.bcube = (if a.check_collision_move_c b then b else a).bcube.add
                (a.check_collision_delta b)
          ∨ (road (a.check_collision_slowed b)).contains_cube_xy
              ((a.check_collision_slowed b).bcube.add (a.check_collision_delta b)) = false
            ∧ ((if a.check_collision_move_c b then b else a).bcube
                  ≠ (if a.check_collision_move_c b then b else a).prev_bcube
                ∧ m.bcube = m.prev_bcube
              ∨ (if a.check_collision_move_c b then b else a).bcube
                  = (if a.check_collision_move_c b then b else a).prev_bcube)) := by
  obtain ⟨hb, hp, hd1, hd2, hsb, -⟩ := car_t.check_collision_cmove_fields a b
  have hrd : (if a.check_collision_move_c b then b else a).dim = a.dim := by
    split_ifs <;> simp [hdim]
  have hrr : (if a.check_collision_move_c b then b else a).dir = a.dir := by
    split_ifs <;> simp [hdir]
  unfold car_t.check_collision
  simp only [hdim, hdir, ne_eq, not_true_eq_false, if_false]
  by_cases h1 : a.check_collision_in_range b = true
  · right
    refine ⟨h1, ?_⟩
    rw [if_neg (not_not.2 h1)]
    by_cases h2 : (road (a.check_collision_slowed b)).contains_cube_xy
        ((a.check_collision_cmove b).bcube.add (a.check_collision_delta b)) = true
    · rw [if_neg (not_not.2 h2)]
      refine ⟨_, rfl, ?_, ?_, ?_, Or.inl ⟨?_, ?_⟩⟩
      · exact hd1.trans hrd
      · exact (hd2.trans hrr).trans hdir
      · exact hp
      · rw [hsb, ← hb]; exact h2
      · simp [car_t.set_bcube, hb]
    · rw [if_pos h2]
      have h2f : (road (a.check_collision_slowed b)).contains_cube_xy
          ((a.check_collision_slowed b).bcube.add (a.check_collision_delta b)) = false := by
        rw [hsb, ← hb]; simpa using h2
      by_cases h3 : (a.check_collision_cmove b).bcube = (a.check_collision_cmove b).prev_bcube
      · rw [if_neg (not_not.2 h3)]
        refine ⟨_, rfl, ?_, ?_, ?_, Or.inr ⟨h2f, Or.inr ?_⟩⟩
        · exact hd1.trans hrd
        · exact (hd2.trans hrr).trans hdir
        · exact hp
        · rw [← hb, ← hp]; exact h3
      · rw [if_pos h3]
        refine ⟨_, rfl, ?_, ?_, ?_, Or.inr ⟨h2f, Or.inl ⟨?_, ?_⟩⟩⟩
        · exact hd1.trans hrd
        · exact (hd2.trans hrr).trans hdir
        · exact hp
        · rw [← hb, ← hp]; exact h3
        · simp [car_t.set_bcube]
  · left
    exact ⟨by simpa using h1, by rw [if_pos h1]⟩

/-- Evaluation of `check_collision` in both orders on a stopped unit car at `[0, 1]` and a
stopped car of length 1/2 at `[1/2, 1]`, whose front edges coincide: each call moves its
argument car and leaves the car it is called on unchanged. -/
theorem check_collision_tie_example :
    (unit_car 0 0 1).check_collision (fun _ => ⟨-10, 10, 0, 1, 0, 1⟩)
        ((unit_car 0 0 1).set_bcube ⟨1 / 2, 1, 0, 1, 0, 1⟩)
      = (true, unit_car 0 0 1, (unit_car 0 0 1).set_bcube ⟨-11 / 16, -3 / 16, 0, 1, 0, 1⟩)
    ∧ ((unit_car 0 0 1).set_bcube ⟨1 / 2, 1, 0, 1, 0, 1⟩).check_collision
        (fun _ => ⟨-10, 10, 0, 1, 0, 1⟩) (unit_car 0 0 1)
      = (true, (unit_car 0 0 1).set_bcube ⟨1 / 2, 1, 0, 1, 0, 1⟩,
          (unit_car 0 0 1).set_bcube ⟨-11 / 16, 5 / 16, 0, 1, 0, 1⟩) := by
  constructor
  all_goals
    simp [car_t.check_collision, car_t.check_collision_in_range, car_t.check_collision_move_c,
      car_t.check_collision_cmove, car_t.check_collision_slowed, car_t.check_collision_delta,
      car_t.get_min_sep_dist_to_car, car_t.get_length, car_t.is_stopped, car_t.decelerate_fast,
      car_t.decelerate, car_t.set_bcube, unit_car, cube_t.d, cube_t.set_d, cube_t.add,
      cube_t.intersects_xy, cube_t.contains_cube_xy, point.add_dim, point.set_dim, point.get,
      all_zeros, MIN_CAR_STOP_SEP]
    norm_num

/-- C5, counterexample: for two cars with the same axis and direction whose front edges
coincide, both `a.check_collision(b)` and `b.check_collision(a)` detect a conflict, but the
first call moves `b` and leaves `a` unchanged while the second moves `a` and leaves `b`
unchanged: the moved car depends on the processing order. -/
theorem check_collision_order_claim_fails :
    ((unit_car 0 0 1).check_collision (fun _ => ⟨-10, 10, 0, 1, 0, 1⟩)
        ((unit_car 0 0 1).set_bcube ⟨1 / 2, 1, 0, 1, 0, 1⟩)).1 = true
    ∧ (((unit_car 0 0 1).set_bcube ⟨1 / 2, 1, 0, 1, 0, 1⟩).check_collision
        (fun _ => ⟨-10, 10, 0, 1, 0, 1⟩) (unit_car 0 0 1)).1 = true
    ∧ ((unit_car 0 0 1).check_collision (fun _ => ⟨-10, 10, 0, 1, 0, 1⟩)
        ((unit_car 0 0 1).set_bcube ⟨1 / 2, 1, 0, 1, 0, 1⟩)).2.1 = unit_car 0 0 1
    ∧ ((unit_car 0 0 1).check_collision (fun _ => ⟨-10, 10, 0, 1, 0, 1⟩)
        ((unit_car 0 0 1).set_bcube ⟨1 / 2, 1, 0, 1, 0, 1⟩)).2.2.bcube
        ≠ ((unit_car 0 0 1).set_bcube ⟨1 / 2, 1, 0, 1, 0, 1⟩).bcube
    ∧ (((unit_car 0 0 1).set_bcube ⟨1 / 2, 1, 0, 1, 0, 1⟩).check_collision
        (fun _ => ⟨-10, 10, 0, 1, 0, 1⟩) (unit_car 0 0 1)).2.1
        = (unit_car 0 0 1).set_bcube ⟨1 / 2, 1, 0, 1, 0, 1⟩
    ∧ (((unit_car 0 0 1).set_bcube ⟨1 / 2, 1, 0, 1, 0, 1⟩).check_collision
        (fun _ => ⟨-10, 10, 0, 1, 0, 1⟩) (unit_car 0 0 1)).2.2.bcube
        ≠ (unit_car 0 0 1).bcube := by
  rw [check_collision_tie_example.1, check_collision_tie_example.2]
  refine ⟨rfl, rfl, rfl, ?_, rfl, ?_⟩ <;> norm_num [car_t.set_bcube, unit_car]

/-- The car that `check_collision` leaves alone on two cars with the same axis and
direction: the car it is called on when `move_c` is set, its argument otherwise. -/
theorem car_t.check_collision_keeps_cstay (road : car_t → cube_t) (a b : car_t)
    (hdim : b.dim = a.dim) (hdir : a.dir = b.dir) :
    (a.check_collision_move_c b = true → (a.check_collision road b).2.1 = a)
    ∧ (a.check_collision_move_c b = false → (a.check_collision road b).2.2 = b) := by
  rcases car_t.check_collision_same_dir road a b hdim hdir with ⟨-, h⟩ | ⟨-, m, hm, -⟩
  · rw [h]
    exact ⟨fun _ => rfl, fun _ => rfl⟩
  · rw [hm]
    constructor
    · intro hc
      rw [hc]
      rfl
    · intro hc
      rw [hc]
      rfl

/-- C5, amended: for two cars `a` and `b` with the same travel axis and direction, the car
selected to be moved is decided by the front edges alone. When the front edges differ, one
car is geometrically behind the other, and both `a.check_collision(b)` and
`b.check_collision(a)` select that rear car and return the other car unchanged. When the
front edges coincide, each call selects its argument when `dir` is set and the car it is
called on when `dir` is clear, so the two orders select different cars. -/
theorem check_collision_moves_rear_in_both_orders (road : car_t → cube_t) (a b : car_t)
    (hdim : b.dim = a.dim) (hdir : a.dir = b.dir) :
    (a.bcube.d a.dim a.dir ≠ b.bcube.d a.dim a.dir → a.is_behind b ∨ b.is_behind a)
    ∧ (a.is_behind b →
        a.check_collision_move_c b = false ∧ b.check_collision_move_c a = true
        ∧ (a.check_collision road b).2.2 = b ∧ (b.check_collision road a).2.1 = b)
    ∧ (b.is_behind a →
        a.check_collision_move_c b = true ∧ b.check_collision_move_c a = false
        ∧ (a.check_collision road b).2.1 = a ∧ (b.check_collision road a).2.2 = a)
    ∧ (a.bcube.d a.dim a.dir = b.bcube.d a.dim a.dir →
        a.check_collision_move_c b = a.dir ∧ b.check_collision_move_c a = a.dir
        ∧ (a.dir = true →
            (a.check_collision road b).2.1 = a ∧ (b.check_collision road a).2.1 = b)
        ∧ (a.dir = false →
            (a.check_collision road b).2.2 = b ∧ (b.check_collision road a).2.2 = a)) := by
  have hbr : b.dir = a.dir := hdir.symm
  obtain ⟨hab1, hab0⟩ := car_t.check_collision_keeps_cstay road a b hdim hdir
  obtain ⟨hba1, hba0⟩ := car_t.check_collision_keeps_cstay road b a hdim.symm hbr
  refine ⟨?_, ?_, ?_, ?_⟩
  · intro hne
    unfold car_t.is_behind
    rw [hdim, hbr]
    cases hr : a.dir <;> rw [hr] at hne <;>
      simp only [if_true, if_false, Bool.false_eq_true] <;>
      rcases lt_or_gt_of_ne hne with h | h <;>
      first
        | exact Or.inl h
        | exact Or.inr h
  · intro hab
    have hmc : a.check_collision_move_c b = false ∧ b.check_collision_move_c a = true := by
      unfold car_t.is_behind at hab
      unfold car_t.check_collision_move_c
      rw [hdim, hbr]
      cases hr : a.dir <;> simp [hr] at hab ⊢
      · exact ⟨le_of_lt hab, hab⟩
      · exact ⟨hab, le_of_lt hab⟩
    exact ⟨hmc.1, hmc.2, hab0 hmc.1, hba1 hmc.2⟩
  · intro hba
    have hmc : a.check_collision_move_c b = true ∧ b.check_collision_move_c a = false := by
      unfold car_t.is_behind at hba
      unfold car_t.check_collision_move_c
      rw [hdim, hbr] at *
      cases hr : a.dir <;> simp [hr] at hba ⊢
      · exact ⟨hba, le_of_lt hba⟩
      · exact ⟨le_of_lt hba, hba⟩
    exact ⟨hmc.1, hmc.2, hab1 hmc.1, hba0 hmc.2⟩
  · intro heq
    have hmc : a.check_collision_move_c b = a.dir ∧ b.check_collision_move_c a = a.dir := by
      unfold car_t.check_collision_move_c
      rw [hdim, hbr, heq]
      cases hr : a.dir <;> simp
    refine ⟨hmc.1, hmc.2, fun hr => ?_, fun hr => ?_⟩
    · exact ⟨hab1 (hmc.1.trans hr), hba1 (hmc.2.trans hr)⟩
    · exact ⟨hab0 (hmc.1.trans hr), hba0 (hmc.2.trans hr)⟩

/-- C5, instance: a unit car at `[0, 1]` behind a unit car at `[1.1, 2.1]`: both orders
select the car at `[0, 1]` and return the car at `[1.1, 2.1]` unchanged. -/
theorem check_collision_moves_rear_in_both_orders_witness :
    (unit_car 0 0 1).is_behind (unit_car (11 / 10) 0 1)
    ∧ (unit_car 0 0 1).check_collision_move_c (unit_car (11 / 10) 0 1) = false
    ∧ (unit_car (11 / 10) 0 1).check_collision_move_c (unit_car 0 0 1) = true
    ∧ ((unit_car 0 0 1).check_collision (fun _ => ⟨-10, 10, 0, 1, 0, 1⟩)
        (unit_car (11 / 10) 0 1)).2.2 = unit_car (11 / 10) 0 1
    ∧ ((unit_car (11 / 10) 0 1).check_collision (fun _ => ⟨-10, 10, 0, 1, 0, 1⟩)
        (unit_car 0 0 1)).2.1 = unit_car (11 / 10) 0 1 :=
  have hb : (unit_car 0 0 1).is_behind (unit_car (11 / 10) 0 1) := by
    norm_num [car_t.is_behind, unit_car, cube_t.d]
  ⟨hb, (check_collision_moves_rear_in_both_orders (fun _ => ⟨-10, 10, 0, 1, 0, 1⟩)
    (unit_car 0 0 1) (unit_car (11 / 10) 0 1) rfl rfl).2.1 hb⟩

/-- Evaluation of `check_collision` in both orders on two stopped cars that travel in the
negative direction of the x axis and whose front edges coincide at 0: each call moves the
car it is called on and leaves its argument unchanged. -/
theorem check_collision_tie_example_neg :
    ({ unit_car 0 0 1 with dir := false } : car_t).check_collision
        (fun _ => ⟨-10, 10, 0, 1, 0, 1⟩)
        { (unit_car 0 0 1).set_bcube ⟨0, 1 / 2, 0, 1, 0, 1⟩ with dir := false }
      = (true, { (unit_car 0 0 1).set_bcube ⟨11 / 16, 27 / 16, 0, 1, 0, 1⟩ with dir := false },
          { (unit_car 0 0 1).set_bcube ⟨0, 1 / 2, 0, 1, 0, 1⟩ with dir := false })
    ∧ ({ (unit_car 0 0 1).set_bcube ⟨0, 1 / 2, 0, 1, 0, 1⟩ with dir := false } : car_t).check_collision
        (fun _ => ⟨-10, 10, 0, 1, 0, 1⟩) { unit_car 0 0 1 with dir := false }
      = (true, { (unit_car 0 0 1).set_bcube ⟨19 / 16, 27 / 16, 0, 1, 0, 1⟩ with dir := false },
          { unit_car 0 0 1 with dir := false }) := by
  constructor
  all_goals
    simp [car_t.check_collision, car_t.check_collision_in_range, car_t.check_collision_move_c,
      car_t.check_collision_cmove, car_t.check_collision_slowed, car_t.check_collision_delta,
      car_t.get_min_sep_dist_to_car, car_t.get_length, car_t.is_stopped, car_t.decelerate_fast,
      car_t.decelerate, car_t.set_bcube, unit_car, cube_t.d, cube_t.set_d, cube_t.add,
      cube_t.intersects_xy, cube_t.contains_cube_xy, point.add_dim, point.set_dim, point.get,
      all_zeros, MIN_CAR_STOP_SEP]
    norm_num

/-! ## Properties of the block index built by `next_frame` -/

theorem set_back_first_parked_concat (closed : List car_block_t) (cur : car_block_t) (v : Nat) :
    set_back_first_parked (closed ++ [cur]) v = closed ++ [{ cur with first_parked := v }] := by
  induction closed with
  | nil => rfl
  | cons b rest ih =>
    cases rest with
    | nil => rfl
    | cons b2 rest2 =>
      simp only [List.cons_append] at ih ⊢
      rw [set_back_first_parked, ih]

/-- The link of a block to its successor reads only the start of the successor. -/
theorem car_blocks_link_congr (cars : List car_t) (x b b2 : car_block_t)
    (hs : b2.start = b.start) (h : car_blocks_link cars x b) : car_blocks_link cars x b2 := by
  unfold car_blocks_link car_blocks_city_run car_blocks_first_parked at *
  rw [hs]
  exact h

/-- Replacing the last block by one with the same start keeps the chain of links. -/
theorem car_blocks_chain_replace_last (cars : List car_t) (closed : List car_block_t)
    (cur cur2 : car_block_t) (hs : cur2.start = cur.start)
    (h : List.Chain' (car_blocks_link cars) (closed ++ [cur])) :
    List.Chain' (car_blocks_link cars) (closed ++ [cur2]) := by
  rw [List.chain'_append] at h ⊢
  refine ⟨h.1, List.chain'_singleton _, ?_⟩
  intro x hx y hy
  simp only [List.head?_cons, Option.mem_def, Option.some.injEq] at hy
  subst hy
  exact car_blocks_link_congr cars x cur _ hs (h.2.2 x hx cur (by simp))

theorem car_blocks_head_replace_last (closed : List car_block_t) (cur cur2 : car_block_t)
    (hs : cur2.start = cur.start) (h : ∀ b ∈ (closed ++ [cur]).head?, b.start = 0) :
    ∀ b ∈ (closed ++ [cur2]).head?, b.start = 0 := by
  cases closed with
  | nil =>
    intro b hb
    simp only [List.nil_append, List.head?_cons, Option.mem_def, Option.some.injEq] at hb h
    subst hb
    rw [hs]
    exact h cur rfl
  | cons c rest => simpa using h

/-- The city statement of the loop body extends the invariant by the car at index `n`. -/
theorem car_blocks_new_city_inv (cars : List car_t) (n : Nat) (st : List car_block_t × Bool)
    (c : car_t) (hinv : car_blocks_inv cars n n st) (hc : cars[n]? = some c) :
    car_blocks_inv cars (n + 1) n (car_blocks_new_city n c st) := by
  obtain ⟨closed, cur, hst, hch, hhead, hlt, hcity, hleft, hnp, hp⟩ := hinv
  obtain ⟨bs, sp⟩ := st
  simp only at hst hnp hp
  subst hst
  unfold car_blocks_new_city
  simp only [List.getLast?_concat]
  by_cases hcc : c.cur_city = cur.cur_city
  · rw [if_neg (not_not.2 hcc)]
    refine ⟨closed, cur, rfl, hch, hhead, by omega, ?_, hleft, hnp, hp⟩
    intro k c2 hk1 hk2 hk
    rcases Nat.lt_succ_iff_lt_or_eq.1 hk2 with h | h
    · exact hcity k c2 hk1 h hk
    · subst h
      rw [hc] at hk
      cases hk
      exact hcc
  · rw [if_pos hcc]
    have hrun : ∀ curF : car_block_t, curF.start = cur.start → curF.cur_city = cur.cur_city →
        car_blocks_city_run cars curF (car_block_t.create n c.cur_city) := by
      intro curF hs hcty
      refine ⟨by rw [hs]; exact hlt, ?_, ?_, ?_⟩
      · intro k c2 hk1 hk2 hk
        rw [hcty]
        exact hcity k c2 (by rw [← hs]; exact hk1) hk2 hk
      · intro c2 hk
        have hk2 : cars[n]? = some c2 := hk
        rw [hc] at hk2
        cases hk2
        rw [hcty]
        exact hcc
      · intro c2 h0 hk
        rw [hcty]
        rw [hs] at h0 hk
        exact hleft c2 h0 hk
    have hfin : ∀ curF : car_block_t, curF.start = cur.start →
        List.Chain' (car_blocks_link cars) (closed ++ [curF]) →
        (∀ b ∈ (closed ++ [curF]).head?, b.start = 0) →
        car_blocks_link cars curF (car_block_t.create n c.cur_city) →
        car_blocks_inv cars (n + 1) n
          ((closed ++ [curF]) ++ [car_block_t.create n c.cur_city], false) := by
      intro curF hs hchF hheadF hlink
      refine ⟨closed ++ [curF], car_block_t.create n c.cur_city, rfl, ?_, ?_, ?_, ?_, ?_, ?_, ?_⟩
      · refine List.Chain'.append hchF (List.chain'_singleton _) ?_
        intro x hx y hy
        rw [List.getLast?_concat] at hx
        simp only [Option.mem_def, Option.some.injEq, List.head?_cons] at hx hy
        subst hx hy
        exact hlink
      · rw [List.head?_append_of_ne_nil _ (by simp)]
        exact hheadF
      · show n < n + 1
        omega
      · intro k c2 hk1 hk2 hk
        have hkn : k = n := by
          have : n ≤ k := hk1
          omega
        subst hkn
        rw [hc] at hk
        cases hk
        rfl
      · intro c2 h0 hk
        have h0n : 0 < n := h0
        have hk2 : cars[n - 1]? = some c2 := hk
        have := hcity (n - 1) c2 (by omega) (by omega) hk2
        show c2.cur_city ≠ c.cur_city
        rw [this]
        exact fun h => hcc h.symm
      · intro _ k c2 hk1 hk2 hk
        have : n ≤ k := hk1
        omega
      · intro h
        cases h
    cases sp with
    | true =>
      simp only [Bool.not_true, Bool.false_eq_true, if_false]
      obtain ⟨hp1, hp2, hp3, hp4⟩ := hp rfl
      exact hfin cur rfl hch hhead
        ⟨hrun cur rfl rfl, hp1, le_of_lt hp2, hp3, fun c2 _ hk => hp4 c2 hk⟩
    | false =>
      simp only [Bool.not_false, if_true]
      rw [set_back_first_parked_concat]
      refine hfin _ rfl (car_blocks_chain_replace_last cars closed cur _ rfl hch)
        (car_blocks_head_replace_last closed cur _ rfl hhead)
        ⟨hrun _ rfl rfl, le_of_lt hlt, le_refl _, hnp rfl, ?_⟩
      intro c2 hlt2 _
      exact absurd hlt2 (lt_irrefl _)

/-- The parking statement of the loop body extends the parked part of the invariant by the
car at index `n`. -/
theorem car_blocks_mark_parked_inv (cars : List car_t) (n : Nat) (st : List car_block_t × Bool)
    (c : car_t) (hinv : car_blocks_inv cars (n + 1) n st) (hc : cars[n]? = some c) :
    car_blocks_inv cars (n + 1) (n + 1) (car_blocks_mark_parked n c st) := by
  obtain ⟨closed, cur, hst, hch, hhead, hlt, hcity, hleft, hnp, hp⟩ := hinv
  obtain ⟨bs, sp⟩ := st
  simp only at hst hnp hp
  subst hst
  unfold car_blocks_mark_parked
  by_cases hpk : c.is_parked = true
  · cases sp with
    | true =>
      simp only [hpk, Bool.not_true, Bool.and_false, Bool.false_eq_true, if_false]
      obtain ⟨hp1, hp2, hp3, hp4⟩ := hp rfl
      exact ⟨closed, cur, rfl, hch, hhead, hlt, hcity, hleft, (fun h => by cases h),
        fun _ => ⟨hp1, by omega, hp3, hp4⟩⟩
    | false =>
      simp only [hpk, Bool.not_false, Bool.and_true, if_true]
      rw [set_back_first_parked_concat]
      refine ⟨closed, _, rfl, car_blocks_chain_replace_last cars closed cur _ rfl hch,
        car_blocks_head_replace_last closed cur _ rfl hhead, hlt, hcity, hleft,
        (fun h => by cases h), fun _ => ⟨?_, ?_, hnp rfl, ?_⟩⟩
      · show cur.start ≤ n
        omega
      · show n < n + 1
        omega
      · intro c2 hk
        have hk2 : cars[n]? = some c2 := hk
        rw [hc] at hk2
        cases hk2
        exact hpk
  · have hpk2 : c.is_parked = false := by simpa using hpk
    simp only [hpk2, Bool.false_and, Bool.false_eq_true, if_false]
    refine ⟨closed, cur, rfl, hch, hhead, hlt, hcity, hleft, ?_, ?_⟩
    · intro hsp k c2 hk1 hk2 hk
      rcases Nat.lt_succ_iff_lt_or_eq.1 hk2 with h | h
      · exact hnp hsp k c2 hk1 h hk
      · subst h
        rw [hc] at hk
        cases hk
        exact hpk2
    · intro hsp
      obtain ⟨hp1, hp2, hp3, hp4⟩ := hp hsp
      exact ⟨hp1, by omega, hp3, hp4⟩

/-- The bookkeeping for the first car of the array establishes the invariant. -/
theorem car_blocks_inv_first (cars : List car_t) (c : car_t) (hc : cars[0]? = some c) :
    car_blocks_inv cars 1 1 (car_blocks_add_car 0 c ([], false)) := by
  apply car_blocks_mark_parked_inv cars 0 _ c _ hc
  refine ⟨[], car_block_t.create 0 c.cur_city, rfl, List.chain'_singleton _, ?_, ?_, ?_, ?_, ?_, ?_⟩
  · intro b hb
    simp only [List.nil_append, List.head?_cons, Option.mem_def, Option.some.injEq] at hb
    subst hb
    rfl
  · show 0 < 0 + 1
    omega
  · intro k c2 _ hk2 hk
    have hk0 : k = 0 := by omega
    subst hk0
    rw [hc] at hk
    cases hk
    rfl
  · intro c2 h0
    exact absurd h0 (lt_irrefl _)
  · intro _ k c2 _ hk2
    omega
  · intro h
    cases h

/-- The bookkeeping loop keeps the invariant up to the end of the array. -/
theorem car_blocks_loop_inv (cars : List car_t) :
    ∀ (rest pre : List car_t) (st : List car_block_t × Bool), cars = pre ++ rest →
      car_blocks_inv cars pre.length pre.length st →
      car_blocks_inv cars cars.length cars.length (car_blocks_loop pre.length rest st) := by
  intro rest
  induction rest with
  | nil =>
    intro pre st hcars hinv
    subst hcars
    simpa [car_blocks_loop] using hinv
  | cons c rest ih =>
    intro pre st hcars hinv
    have hc : cars[pre.length]? = some c := by
      rw [hcars, List.getElem?_append_right (le_refl _)]
      simp
    have h1 := car_blocks_new_city_inv cars pre.length st c hinv hc
    have h2 := car_blocks_mark_parked_inv cars pre.length _ c h1 hc
    have := ih (pre ++ [c]) (car_blocks_add_car pre.length c st) (by simp [hcars])
      (by simpa [car_blocks_add_car] using h2)
    simpa [car_blocks_loop] using this

/-- The bookkeeping of the whole loop on a non-empty array ends in the invariant. -/
theorem car_blocks_loop_inv_all (cars : List car_t) (hne : cars ≠ []) :
    car_blocks_inv cars cars.length cars.length (car_blocks_loop 0 cars ([], false)) := by
  cases cars with
  | nil => exact absurd rfl hne
  | cons c rest =>
    have h1 := car_blocks_inv_first (c :: rest) c (by simp)
    have := car_blocks_loop_inv (c :: rest) rest [c] _ rfl (by simpa using h1)
    simpa [car_blocks_loop] using this

/-- A completed call of `car_t::move` keeps the city and the maximal speed of the car. -/
theorem car_t.move_keeps_city_and_max_speed (conn_mult road_width tfticks : ℚ) (c : car_t)
    (speed_mult : ℚ) (c2 : car_t) (h : c.move conn_mult road_width tfticks speed_mult = some c2) :
    c2.cur_city = c.cur_city ∧ c2.is_parked = c.is_parked := by
  rcases car_t.move_cases _ _ _ _ _ _ h with ⟨-, rfl⟩ | ⟨-, -, w, ws, rfl⟩
  · exact ⟨rfl, rfl⟩
  · exact ⟨rfl, rfl⟩

/-- The move loop computes its blocks by the bookkeeping loop, and it keeps the city and
the parked state of every car. -/
theorem next_frame_move_cars_blocks (env : frame_env) (speed : ℚ) :
    ∀ (rest : List car_t) (cix : Nat) (s s2 : frame_state),
      next_frame_move_cars env speed cix rest s = some s2 →
      (s2.car_blocks, s2.saw_parked) = car_blocks_loop cix rest (s.car_blocks, s.saw_parked)
      ∧ s2.cars.map car_t.cur_city = s.cars.map car_t.cur_city ++ rest.map car_t.cur_city
      ∧ s2.cars.map car_t.is_parked = s.cars.map car_t.is_parked ++ rest.map car_t.is_parked := by
  intro rest
  induction rest with
  | nil =>
    intro cix s s2 h
    simp only [next_frame_move_cars, Option.some.injEq] at h
    subst h
    simp [car_blocks_loop]
  | cons c rest ih =>
    intro cix s s2 h
    rw [next_frame_move_cars] at h
    have hadd : ∀ st, car_blocks_add_car cix { c with car_in_front := none } st
        = car_blocks_add_car cix c st := fun st => rfl
    rw [hadd] at h
    by_cases hp : c.is_parked = true
    · have hp2 : ({ c with car_in_front := none } : car_t).is_parked = true := hp
      rw [if_pos hp2] at h
      obtain ⟨h1, h2, h3⟩ := ih _ _ _ h
      refine ⟨by rw [h1]; rfl, ?_, ?_⟩
      · rw [h2]; simp
      · rw [h3]; simp [car_t.is_parked]
    · have hp2 : ¬ ({ c with car_in_front := none } : car_t).is_parked = true := hp
      rw [if_neg hp2] at h
      cases hm : car_t.move env.CONN_ROAD_SPEED_MULT env.road_width env.tfticks
          { c with car_in_front := none } speed with
      | none => rw [hm] at h; exact absurd h (by simp)
      | some m =>
        rw [hm] at h
        simp only at h
        have hk1 : m.cur_city = c.cur_city :=
          (car_t.move_keeps_city_and_max_speed _ _ _ _ _ _ hm).1
        have hk2 : m.is_parked = c.is_parked :=
          (car_t.move_keeps_city_and_max_speed _ _ _ _ _ _ hm).2
        obtain ⟨h1, h2, h3⟩ := ih _ _ _ h
        refine ⟨by rw [h1]; rfl, ?_, ?_⟩
        · rw [h2]; simp [hk1]
        · rw [h3]; simp [hk2]

/-- The closing statements of the first pass turn the invariant into a chain of linked
blocks that starts at index 0 and ends with the terminator block. -/
theorem next_frame_first_pass_links (env : frame_env) (speed : ℚ) (cars : List car_t)
    (s : frame_state) (hne : cars ≠ [])
    (h : next_frame_first_pass env speed cars = some s) :
    (∃ init, init ≠ [] ∧ s.car_blocks = init ++ [car_block_t.create cars.length 0])
    ∧ List.Chain' (car_blocks_link cars) s.car_blocks
    ∧ (∀ b ∈ s.car_blocks.head?, b.start = 0)
    ∧ s.cars.map car_t.cur_city = cars.map car_t.cur_city
    ∧ s.cars.map car_t.is_parked = cars.map car_t.is_parked := by
  unfold next_frame_first_pass at h
  cases hm : next_frame_move_cars env speed 0 cars ⟨[], [], false, [], []⟩ with
  | none => rw [hm] at h; exact absurd h (by simp)
  | some s1 =>
    rw [hm] at h
    simp only [Option.some.injEq] at h
    obtain ⟨hb, hc1, hc2⟩ := next_frame_move_cars_blocks env speed cars 0 _ s1 hm
    have hinv := car_blocks_loop_inv_all cars hne
    rw [← hb] at hinv
    obtain ⟨closed, cur, hst, hch, hhead, hlt, hcity, hleft, hnp, hp⟩ := hinv
    simp only at hst hnp hp
    have hrun : ∀ curF : car_block_t, curF.start = cur.start → curF.cur_city = cur.cur_city →
        car_blocks_city_run cars curF (car_block_t.create cars.length 0) := by
      intro curF hs hcty
      refine ⟨by rw [hs]; exact hlt, ?_, ?_, ?_⟩
      · intro k c2 hk1 hk2 hk
        rw [hcty]
        exact hcity k c2 (by rw [← hs]; exact hk1) hk2 hk
      · intro c2 hk
        have hk2 : cars[cars.length]? = some c2 := hk
        rw [List.getElem?_eq_none (le_refl _)] at hk2
        cases hk2
      · intro c2 h0 hk
        rw [hcty]
        rw [hs] at h0 hk
        exact hleft c2 h0 hk
    have hfin : ∀ curF : car_block_t, curF.start = cur.start →
        car_blocks_link cars curF (car_block_t.create cars.length 0) →
        s.car_blocks = (closed ++ [curF]) ++ [car_block_t.create cars.length 0] →
        (∃ init, init ≠ [] ∧ s.car_blocks = init ++ [car_block_t.create cars.length 0])
        ∧ List.Chain' (car_blocks_link cars) s.car_blocks
        ∧ (∀ b ∈ s.car_blocks.head?, b.start = 0) := by
      intro curF hs hlink hsb
      refine ⟨⟨closed ++ [curF], by simp, hsb⟩, ?_, ?_⟩
      · rw [hsb]
        refine List.Chain'.append (car_blocks_chain_replace_last cars closed cur curF hs hch)
          (List.chain'_singleton _) ?_
        intro x hx y hy
        rw [List.getLast?_concat] at hx
        simp only [Option.mem_def, Option.some.injEq, List.head?_cons] at hx hy
        subst hx hy
        exact hlink
      · rw [hsb, List.head?_append_of_ne_nil _ (by simp)]
        exact car_blocks_head_replace_last closed cur curF hs hhead
    have hcars : s.cars = s1.cars := by subst h; rfl
    have hblocks : s.car_blocks =
        (if (!s1.saw_parked && !s1.car_blocks.isEmpty) = true then
          set_back_first_parked s1.car_blocks cars.length else s1.car_blocks)
        ++ [car_block_t.create cars.length 0] := by subst h; rfl
    refine ⟨?_, ?_, ?_, by rw [hcars, hc1]; rfl, by rw [hcars, hc2]; rfl⟩
    all_goals
      cases hsp : s1.saw_parked with
      | true =>
        obtain ⟨hp1, hp2, hp3, hp4⟩ := hp hsp
        have := hfin cur rfl ⟨hrun cur rfl rfl, hp1, le_of_lt hp2, hp3, fun c2 _ hk => hp4 c2 hk⟩
          (by rw [hblocks, hsp, hst]; simp)
        first
          | exact this.1
          | exact this.2.1
          | exact this.2.2
      | false =>
        have := hfin { cur with first_parked := cars.length } rfl
          ⟨hrun _ rfl rfl, le_of_lt hlt, le_refl _, hnp hsp,
            fun c2 hlt2 _ => absurd hlt2 (lt_irrefl _)⟩
          (by rw [hblocks, hsp, hst]; simp [set_back_first_parked_concat])
        first
          | exact this.1
          | exact this.2.1
          | exact this.2.2

/-- C1: for every non-empty car array on which the first pass of `next_frame` completes,
the block list it builds partitions the index range `[0, N)`: the first block starts at 0,
the block starts are strictly increasing, the last block is the terminator with start
`N = cars.size()` (and city 0), and every block before the terminator, up to the start of
the next block, is a maximal run of consecutive cars whose `cur_city` is the city of the
block. The cars keep their city during the pass. -/
theorem next_frame_car_blocks_partition (env : frame_env) (speed : ℚ) (cars : List car_t)
    (s : frame_state) (hne : cars ≠ [])
    (h : next_frame_first_pass env speed cars = some s) :
    (∃ b0 tl, s.car_blocks = b0 :: tl ∧ b0.start = 0)
    ∧ List.Pairwise (fun b1 b2 => b1.start < b2.start) s.car_blocks
    ∧ (∃ init, init ≠ [] ∧ s.car_blocks = init ++ [car_block_t.create cars.length 0])
    ∧ List.Chain' (car_blocks_city_run cars) s.car_blocks
    ∧ s.cars.map car_t.cur_city = cars.map car_t.cur_city := by
  obtain ⟨hterm, hch, hhead, hcity, -⟩ := next_frame_first_pass_links env speed cars s hne h
  have hrun : List.Chain' (car_blocks_city_run cars) s.car_blocks :=
    hch.imp (fun _ _ hl => hl.1)
  refine ⟨?_, ?_, hterm, hrun, hcity⟩
  · obtain ⟨init, hinit, hs⟩ := hterm
    cases hbs : s.car_blocks with
    | nil => rw [hs] at hbs; simp at hbs
    | cons b0 tl =>
      refine ⟨b0, tl, rfl, ?_⟩
      apply hhead
      rw [hbs]
      rfl
  · haveI : IsTrans car_block_t (fun b1 b2 => b1.start < b2.start) :=
      ⟨fun _ _ _ h1 h2 => lt_trans h1 h2⟩
    exact List.chain'_iff_pairwise.1 (hrun.imp (fun _ _ hl => hl.1))

/-- In an array sorted by `comp_car_road_then_pos`, a parked car is followed only by parked
cars as long as the city stays the same. -/
theorem sorted_parked_last (camera_pos : point) (cars : List car_t)
    (hsorted : cars.Pairwise (fun c1 c2 => comp_car_road_then_pos camera_pos c2 c1 = false))
    (i j : Nat) (ci cj : car_t) (hij : i < j) (hi : cars[i]? = some ci) (hj : cars[j]? = some cj)
    (hcity : ci.cur_city = cj.cur_city) (hp : ci.is_parked = true) : cj.is_parked = true := by
  obtain ⟨hi1, hi2⟩ := List.getElem?_eq_some.1 hi
  obtain ⟨hj1, hj2⟩ := List.getElem?_eq_some.1 hj
  have hcmp := List.pairwise_iff_getElem.1 hsorted i j hi1 hj1 hij
  rw [hi2, hj2] at hcmp
  by_contra hnp
  have hnp2 : cj.is_parked = false := by simpa using hnp
  unfold comp_car_road_then_pos at hcmp
  simp [hcity, hp, hnp2] at hcmp

/-- C2: for every car array sorted by `comp_car_road_then_pos` on which the first pass of
`next_frame` completes, every block before the terminator has
`start <= first_parked <= next start`, the cars with index in `[start, first_parked)` are
not parked and the cars with index in `[first_parked, next start)` are parked. The cars
keep their parked state during the pass. -/
theorem next_frame_car_blocks_parked_split (env : frame_env) (speed : ℚ) (camera_pos : point)
    (cars : List car_t) (s : frame_state)
    (hsorted : cars.Pairwise (fun c1 c2 => comp_car_road_then_pos camera_pos c2 c1 = false))
    (h : next_frame_first_pass env speed cars = some s) :
    List.Chain' (car_blocks_parked_split cars) s.car_blocks
    ∧ s.cars.map car_t.is_parked = cars.map car_t.is_parked := by
  by_cases hne : cars = []
  · subst hne
    simp only [next_frame_first_pass, next_frame_move_cars, Option.some.injEq] at h
    subst h
    simp
  · obtain ⟨-, hch, -, -, hpk⟩ := next_frame_first_pass_links env speed cars s hne h
    refine ⟨hch.imp ?_, hpk⟩
    rintro b1 b2 ⟨⟨-, hrange, -, -⟩, hp1, hp2, hp3, hp4⟩
    refine ⟨hp1, hp2, hp3, ?_⟩
    intro k c hk1 hk2 hk
    have hfp : b1.first_parked < b2.start := by omega
    have hlen : b1.first_parked < cars.length := by
      have := (List.getElem?_eq_some.1 hk).1
      omega
    obtain ⟨cf, hcf⟩ : ∃ cf, cars[b1.first_parked]? = some cf :=
      ⟨cars[b1.first_parked], List.getElem?_eq_getElem hlen⟩
    have hcfp := hp4 cf hfp hcf
    rcases Nat.eq_or_lt_of_le hk1 with heq | hlt
    · subst heq
      rw [hcf] at hk
      cases hk
      exact hcfp
    · have h1 := hrange b1.first_parked cf hp1 hfp hcf
      have h2 := hrange k c (by omega) hk2 hk
      exact sorted_parked_last camera_pos cars hsorted b1.first_parked k cf c hlt hcf hk
        (h1.trans h2.symm) hcfp

/-- The sample array is sorted by `comp_car_road_then_pos` for a camera at the origin. -/
theorem sample_cars_sorted :
    sample_cars.Pairwise (fun c1 c2 => comp_car_road_then_pos all_zeros c2 c1 = false) := by
  simp [sample_cars, comp_car_road_then_pos, city_car, unit_car, car_t.is_parked, all_zeros,
    p2p_dist_xy_sq, cube_t.get_cube_center, cube_t.d]
  norm_num

/-- The first pass completes on the sample array and builds the blocks
`(0, city 0, first parked 1)`, `(2, city 1, 3)`, `(3, city 2, 3)` and the terminator. -/
theorem sample_first_pass_blocks :
    ∃ s, next_frame_first_pass sample_env 1 sample_cars = some s
      ∧ s.car_blocks = [⟨0, 0, 1⟩, ⟨2, 1, 3⟩, ⟨3, 2, 3⟩, ⟨5, 0, 0⟩] := by
  have h4 : |(1 / 4 : ℚ)| = 1 / 4 := abs_of_pos (by norm_num)
  have h1 : ¬ ((1 : ℚ) < 1 / 4) := by norm_num
  simp [next_frame_first_pass, next_frame_move_cars, sample_cars, sample_env, city_car, unit_car,
    car_t.move, car_t.is_parked, car_t.is_stopped, car_t.move_by, car_t.get_length, cube_t.d,
    cube_t.set_d, car_blocks_add_car, car_blocks_new_city, car_blocks_mark_parked,
    set_back_first_parked, car_block_t.create, h4, h1]
  norm_num [h4, h1]

theorem next_frame_car_blocks_partition_witness :
    ∃ s, next_frame_first_pass sample_env 1 sample_cars = some s
      ∧ s.car_blocks = [⟨0, 0, 1⟩, ⟨2, 1, 3⟩, ⟨3, 2, 3⟩, ⟨5, 0, 0⟩]
      ∧ ((∃ b0 tl, s.car_blocks = b0 :: tl ∧ b0.start = 0)
        ∧ List.Pairwise (fun b1 b2 => b1.start < b2.start) s.car_blocks
        ∧ (∃ init, init ≠ [] ∧ s.car_blocks = init ++ [car_block_t.create sample_cars.length 0])
        ∧ List.Chain' (car_blocks_city_run sample_cars) s.car_blocks
        ∧ s.cars.map car_t.cur_city = sample_cars.map car_t.cur_city) := by
  obtain ⟨s, hs, hb⟩ := sample_first_pass_blocks
  exact ⟨s, hs, hb,
    next_frame_car_blocks_partition sample_env 1 sample_cars s (by simp [sample_cars]) hs⟩

theorem next_frame_car_blocks_parked_split_witness :
    ∃ s, next_frame_first_pass sample_env 1 sample_cars = some s
      ∧ s.car_blocks = [⟨0, 0, 1⟩, ⟨2, 1, 3⟩, ⟨3, 2, 3⟩, ⟨5, 0, 0⟩]
      ∧ (List.Chain' (car_blocks_parked_split sample_cars) s.car_blocks
        ∧ s.cars.map car_t.is_parked = sample_cars.map car_t.is_parked) := by
  obtain ⟨s, hs, hb⟩ := sample_first_pass_blocks
  exact ⟨s, hs, hb,
    next_frame_car_blocks_parked_split sample_env 1 all_zeros sample_cars s sample_cars_sorted hs⟩

/-! ## Properties of the helicopter state machine -/

/-- A pad chosen by the sampling loop is not the current pad and is available. -/
theorem choose_new_dest_hp_avail (hps : List helipad_t) (d : Nat) :
    ∀ (n : Nat) (r r1 : rand_gen_t) (ix : Nat),
      choose_new_dest_hp hps d n r = some (some ix, r1) →
      ix ≠ d ∧ ∃ p, hps[ix]? = some p ∧ p.is_avail = true := by
  intro n
  induction n with
  | zero =>
    intro r r1 ix h
    simp [choose_new_dest_hp] at h
  | succ n ih =>
    intro r r1 ix h
    rw [choose_new_dest_hp] at h
    simp only [rand_gen_t.rand] at h
    cases hp : hps[r.ints r.pos % hps.length]? with
    | none => rw [hp] at h; exact absurd h (by simp)
    | some p =>
      rw [hp] at h
      simp only at h
      split_ifs at h with hc
      · simp only [Option.some.injEq, Prod.mk.injEq] at h
        obtain ⟨h1, -⟩ := h
        subst h1
        simp only [Bool.and_eq_true, decide_eq_true_eq] at hc
        exact ⟨hc.1, p, hp, hc.2⟩
      · exact ih _ _ _ h

theorem heli_wait_step_spec (env : heli_env) (car_speed : ℚ) (h : helicopter_t)
    (hps : List helipad_t) (r : rand_gen_t) (h1 : helicopter_t) (hps1 : List helipad_t)
    (r1 : rand_gen_t) (hw : h.state = heli_state.STATE_WAIT)
    (hs : heli_wait_step env car_speed h hps r = some (h1, hps1, r1)) :
    heli_step_spec h hps h1 hps1 := by
  unfold heli_wait_step at hs
  simp only at hs
  split_ifs at hs with hv h0 hpos hlen
  · simp only [Option.some.injEq, Prod.mk.injEq] at hs
    obtain ⟨rfl, rfl, -⟩ := hs
    exact Or.inl ⟨rfl, rfl, fun _ => hw⟩
  · simp only [Option.some.injEq, Prod.mk.injEq] at hs
    obtain ⟨rfl, rfl, -⟩ := hs
    exact Or.inl ⟨rfl, rfl, fun _ => hw⟩
  · split at hs
    · exact absurd hs (by simp)
    · simp only [Option.some.injEq, Prod.mk.injEq] at hs
      obtain ⟨rfl, rfl, -⟩ := hs
      exact Or.inl ⟨rfl, rfl, fun _ => hw⟩
    · rename_i new_dest r2 hch
      obtain ⟨hne, p, hp, hav⟩ := choose_new_dest_hp_avail hps _ 20 r r2 new_dest hch
      rw [hp] at hs
      simp only [Option.map_eq_some', Prod.mk.injEq] at hs
      obtain ⟨zmax, -, rfl, rfl, -⟩ := hs
      exact Or.inr (Or.inr ⟨hw, by simp, hne, ⟨p, hp, hav⟩, rfl⟩)
  · split at hs
    · exact absurd hs (by simp)
    · simp only [Option.some.injEq, Prod.mk.injEq] at hs
      obtain ⟨rfl, rfl, -⟩ := hs
      exact Or.inl ⟨rfl, rfl, fun _ => hw⟩
    · exact absurd hs (by simp)

/-- The rotor statement changes neither the destination nor the state of the helicopter
nor the helipads. -/
theorem heli_blade_step_fields (env : heli_env) (res : heli_result) :
    (heli_blade_step env res).1.dest_hp = res.1.dest_hp
    ∧ (heli_blade_step env res).1.state = res.1.state
    ∧ (heli_blade_step env res).2.1 = res.2.1 := by
  unfold heli_blade_step
  split_ifs <;> exact ⟨rfl, rfl, rfl⟩

/-- The effect of the loop body of `helicopters_next_frame` on destinations and helipads
is one of the three effects of `heli_step_spec`. -/
theorem helicopter_next_frame_spec (env : heli_env) (car_speed : ℚ) (h : helicopter_t)
    (hps : List helipad_t) (r : rand_gen_t) (h1 : helicopter_t) (hps1 : List helipad_t)
    (r1 : rand_gen_t) (hs : helicopter_next_frame env car_speed h hps r = some (h1, hps1, r1)) :
    heli_step_spec h hps h1 hps1 := by
  unfold helicopter_next_frame at hs
  by_cases hw : h.state = heli_state.STATE_WAIT
  · rw [if_pos hw] at hs
    exact heli_wait_step_spec env car_speed h hps r h1 hps1 r1 hw hs
  · rw [if_neg hw] at hs
    by_cases hwt : h.wait_time ≠ 0
    · rw [if_pos hwt] at hs
      exact absurd hs (by simp)
    rw [if_neg hwt] at hs
    cases hpad : hps[h.dest_hp]? with
    | none => rw [hpad] at hs; exact absurd hs (by simp)
    | some helipad =>
      rw [hpad] at hs
      simp only at hs
      by_cases hrs : (!helipad.reserved) = true
      · rw [if_pos hrs] at hs
        exact absurd hs (by simp)
      rw [if_neg hrs, Option.map_eq_some'] at hs
      obtain ⟨res, hres2, hbl⟩ := hs
      obtain ⟨hb1, hb2, hb3⟩ := heli_blade_step_fields env res
      rw [hbl] at hb1 hb2 hb3
      simp only at hb1 hb2 hb3
      by_cases htk : h.state = heli_state.STATE_TAKEOFF
      · rw [if_pos htk] at hres2
        unfold heli_takeoff_step at hres2
        simp only [rand_gen_t.rand_uniform] at hres2
        split_ifs at hres2 <;> simp only [Option.some.injEq] at hres2 <;> subst hres2 <;>
          refine Or.inl ⟨hb1, hb3, fun hst => ?_⟩ <;> rw [hb2] at hst
        · exact absurd hst (by simp)
        · exact absurd hst hw
      rw [if_neg htk] at hres2
      by_cases hld : h.state = heli_state.STATE_LAND
      · rw [if_pos hld] at hres2
        unfold heli_land_step at hres2
        simp only [rand_gen_t.rand_uniform] at hres2
        split_ifs at hres2 <;> simp only [Option.some.injEq] at hres2 <;> subst hres2
        · exact Or.inr (Or.inl ⟨hb1, hb2, hb3⟩)
        · refine Or.inl ⟨hb1, hb3, fun hst => ?_⟩
          rw [hb2] at hst
          exact absurd hst hw
      rw [if_neg hld] at hres2
      unfold heli_fly_step at hres2
      simp only at hres2
      split_ifs at hres2 <;> simp only [Option.some.injEq] at hres2 <;> subst hres2 <;>
        refine Or.inl ⟨hb1, hb3, fun hst => ?_⟩ <;> rw [hb2] at hst
      · exact absurd hst (by simp)
      · exact absurd hst hw

theorem update_helipad_get (hps : List helipad_t) (i : Nat) (f : helipad_t → helipad_t)
    (j : Nat) :
    (update_helipad hps i f)[j]? = if i = j then (hps[j]?).map f else hps[j]? := by
  unfold update_helipad
  rw [List.getElem?_modify]
  split_ifs with h
  · cases hps[j]? <;> simp [h]
  · cases hps[j]? <;> simp [h]

theorem helipad_t.not_held_of_avail (p : helipad_t) (h : p.is_avail = true) : ¬ p.is_held := by
  unfold helipad_t.is_avail at h
  unfold helipad_t.is_held
  simp only [Bool.and_eq_true, Bool.not_eq_true'] at h
  rintro (h1 | h1)
  · rw [h.2] at h1; cases h1
  · rw [h.1] at h1; cases h1

/-- Each of the three effects of the loop body keeps the invariant of helicopters and
helipads, for the updated helicopter in front of the other helicopters. -/
theorem heli_inv_step (h h1 : helicopter_t) (others : List helicopter_t)
    (hps hps1 : List helipad_t) (hinv : heli_inv (h :: others) hps)
    (hspec : heli_step_spec h hps h1 hps1) : heli_inv (h1 :: others) hps1 := by
  obtain ⟨hJ1, hJ2, hJ3⟩ := hinv
  simp only [List.map_cons, List.nodup_cons, List.mem_map, not_exists, not_and] at hJ1
  obtain ⟨hnot, hnd⟩ := hJ1
  obtain ⟨p0, hp0, hheld0, hres0⟩ := hJ2 h (List.mem_cons_self _ _)
  have hJ2o : ∀ x ∈ others, ∃ p, hps[x.dest_hp]? = some p ∧ p.is_held
      ∧ (x.state = heli_state.STATE_WAIT → p.reserved = false) :=
    fun x hx => hJ2 x (List.mem_cons_of_mem _ hx)
  have hJ3o : ∀ ix p, hps[ix]? = some p → p.is_held → ix ≠ h.dest_hp →
      ∃ x ∈ others, x.dest_hp = ix := by
    intro ix p hp hheld hne
    obtain ⟨x, hx, hxd⟩ := hJ3 ix p hp hheld
    rcases List.mem_cons.1 hx with rfl | hx
    · exact absurd hxd.symm hne
    · exact ⟨x, hx, hxd⟩
  rcases hspec with ⟨hd, rfl, hst⟩ | ⟨hd, hst, rfl⟩ | ⟨hw, hst, hne, ⟨pn, hpn, hav⟩, rfl⟩
  · -- nothing changes
    refine ⟨?_, ?_, ?_⟩
    · simp only [List.map_cons, List.nodup_cons, List.mem_map, not_exists, not_and, hd]
      exact ⟨hnot, hnd⟩
    · intro x hx
      rcases List.mem_cons.1 hx with rfl | hx
      · rw [hd]
        exact ⟨p0, hp0, hheld0, fun hs => hres0 (hst hs)⟩
      · exact hJ2o x hx
    · intro ix p hp hheld
      by_cases hix : ix = h.dest_hp
      · exact ⟨h1, List.mem_cons_self _ _, by rw [hd, hix]⟩
      · obtain ⟨x, hx, hxd⟩ := hJ3o ix p hp hheld hix
        exact ⟨x, List.mem_cons_of_mem _ hx, hxd⟩
  · -- landing
    refine ⟨?_, ?_, ?_⟩
    · simp only [List.map_cons, List.nodup_cons, List.mem_map, not_exists, not_and, hd]
      exact ⟨hnot, hnd⟩
    · intro x hx
      rcases List.mem_cons.1 hx with rfl | hx
      · rw [hd, update_helipad_get, if_pos rfl, hp0]
        exact ⟨_, rfl, Or.inr rfl, fun _ => rfl⟩
      · have hxd : h.dest_hp ≠ x.dest_hp := fun he => hnot x hx he.symm
        rw [update_helipad_get, if_neg hxd]
        exact hJ2o x hx
    · intro ix p hp hheld
      by_cases hix : ix = h.dest_hp
      · exact ⟨h1, List.mem_cons_self _ _, by rw [hd, hix]⟩
      · rw [update_helipad_get, if_neg (fun he => hix he.symm)] at hp
        obtain ⟨x, hx, hxd⟩ := hJ3o ix p hp hheld hix
        exact ⟨x, List.mem_cons_of_mem _ hx, hxd⟩
  · -- takeoff towards a new pad
    have hnew : ∀ x ∈ others, x.dest_hp ≠ h1.dest_hp := by
      intro x hx he
      obtain ⟨p, hp, hheld, -⟩ := hJ2o x hx
      rw [he, hpn] at hp
      cases hp
      exact helipad_t.not_held_of_avail _ hav hheld
    refine ⟨?_, ?_, ?_⟩
    · simp only [List.map_cons, List.nodup_cons, List.mem_map, not_exists, not_and]
      exact ⟨fun x hx => hnew x hx, hnd⟩
    · intro x hx
      rcases List.mem_cons.1 hx with rfl | hx
      · rw [update_helipad_get, if_pos rfl, update_helipad_get, if_neg (fun he => hne he.symm), hpn]
        exact ⟨_, rfl, Or.inl rfl, fun hs => absurd hs hst⟩
      · have hxd : h.dest_hp ≠ x.dest_hp := fun he => hnot x hx he.symm
        have hxn : x.dest_hp ≠ h1.dest_hp := hnew x hx
        rw [update_helipad_get, if_neg (fun he => hxn he.symm), update_helipad_get, if_neg hxd]
        exact hJ2o x hx
    · intro ix p hp hheld
      by_cases hin : ix = h1.dest_hp
      · exact ⟨h1, List.mem_cons_self _ _, hin.symm⟩
      · rw [update_helipad_get, if_neg (fun he => hin he.symm), update_helipad_get] at hp
        by_cases hix : ix = h.dest_hp
        · exfalso
          rw [if_pos hix.symm, hix, hp0] at hp
          simp only [Option.map_some', Option.some.injEq] at hp
          subst hp
          rcases hheld with hr | hu
          · have : p0.reserved = true := hr
            rw [hres0 hw] at this
            cases this
          · cases hu
        · rw [if_neg (fun he => hix he.symm)] at hp
          obtain ⟨x, hx, hxd⟩ := hJ3o ix p hp hheld hix
          exact ⟨x, List.mem_cons_of_mem _ hx, hxd⟩

/-- The invariant does not depend on the position of a helicopter in the list. -/
theorem heli_inv_middle (done rest : List helicopter_t) (h : helicopter_t)
    (hps : List helipad_t) :
    heli_inv (done ++ h :: rest) hps ↔ heli_inv (h :: (done ++ rest)) hps := by
  unfold heli_inv
  have hmem : ∀ x, x ∈ done ++ h :: rest ↔ x ∈ h :: (done ++ rest) := by
    intro x
    simp only [List.mem_append, List.mem_cons]
    tauto
  have hnd : ((done ++ h :: rest).map helicopter_t.dest_hp).Nodup
      ↔ ((h :: (done ++ rest)).map helicopter_t.dest_hp).Nodup := by
    simp only [List.map_append, List.map_cons]
    exact List.nodup_middle
  rw [hnd]
  simp only [hmem]

/-- The loop of `helicopters_next_frame` keeps the invariant. -/
theorem helicopters_loop_inv (env : heli_env) (car_speed : ℚ) :
    ∀ (rest done : List helicopter_t) (hps : List helipad_t) (r : rand_gen_t)
      (m : heli_manager_t),
      helicopters_loop env car_speed rest done hps r = some m →
      heli_inv (done ++ rest) hps → heli_inv m.helicopters m.helipads := by
  intro rest
  induction rest with
  | nil =>
    intro done hps r m hm hinv
    simp only [helicopters_loop, Option.some.injEq] at hm
    subst hm
    simpa using hinv
  | cons h rest ih =>
    intro done hps r m hm hinv
    rw [helicopters_loop] at hm
    cases hb : helicopter_next_frame env car_speed h hps r with
    | none => rw [hb] at hm; exact absurd hm (by simp)
    | some res =>
      obtain ⟨h1, hps1, r1⟩ := res
      rw [hb] at hm
      simp only at hm
      apply ih _ _ _ _ hm
      have hspec := helicopter_next_frame_spec env car_speed h hps r h1 hps1 r1 hb
      have h2 := heli_inv_step h h1 (done ++ rest) hps hps1 ((heli_inv_middle _ _ _ _).1 hinv) hspec
      have h3 := (heli_inv_middle done rest h1 hps1).2 h2
      simpa using h3

/-- A completed call of `helicopters_next_frame` keeps the invariant. -/
theorem helicopters_next_frame_inv (env : heli_env) (car_speed : ℚ) (m m2 : heli_manager_t)
    (hm : helicopters_next_frame env car_speed m = some m2)
    (hinv : heli_inv m.helicopters m.helipads) : heli_inv m2.helicopters m2.helipads := by
  unfold helicopters_next_frame at hm
  split_ifs at hm
  · simp only [Option.some.injEq] at hm
    subst hm
    exact hinv
  · exact helicopters_loop_inv env car_speed _ _ _ _ _ hm (by simpa using hinv)

theorem heli_inv_of_init_inv (k : Nat) (m : heli_manager_t) (h : heli_init_inv k m) :
    heli_inv m.helicopters m.helipads := by
  obtain ⟨ha, hb, hc, hd, -⟩ := h
  refine ⟨hc, ?_, ?_⟩
  · intro x hx
    have hlt := (hd x.dest_hp (List.mem_map_of_mem _ hx)).2
    refine ⟨m.helipads[x.dest_hp], List.getElem?_eq_getElem hlt, Or.inr ?_, fun _ => ?_⟩
    · exact (hb _ _ (List.getElem?_eq_getElem hlt)).2 (List.mem_map_of_mem _ hx)
    · exact ha _ _ (List.getElem?_eq_getElem hlt)
  · intro ix p hp hheld
    have hin : p.in_use = true := by
      rcases hheld with hr | hu
      · rw [ha ix p hp] at hr
        cases hr
      · exact hu
    have := (hb ix p hp).1 hin
    simpa using this

theorem update_helipad_length (hps : List helipad_t) (i : Nat) (f : helipad_t → helipad_t) :
    (update_helipad hps i f).length = hps.length := by
  unfold update_helipad
  simp

/-- The body of the loop of `add_helicopters` keeps its invariant. -/
theorem add_helicopters_body_inv (env : heli_env) (k : Nat) (loc : cube_t) (m : heli_manager_t)
    (hinv : heli_init_inv k m) (hk : k < m.helipads.length) :
    heli_init_inv (k + 1) (add_helicopters_body env k loc m)
    ∧ (add_helicopters_body env k loc m).helipads.length = m.helipads.length := by
  obtain ⟨ha, hb, hc, hd, he⟩ := hinv
  have hkd : k ∉ m.helicopters.map helicopter_t.dest_hp := fun hmem => by
    have := (hd k hmem).1
    omega
  -- the state after a skipped helipad
  have hskip : ∀ r : rand_gen_t,
      heli_init_inv (k + 1)
        { m with helipads := update_helipad m.helipads k (fun h => { h with bcube := loc }),
                 rgen := r } := by
    intro r
    refine ⟨?_, ?_, hc, ?_, he⟩
    · intro ix p hp
      simp only [update_helipad_get] at hp
      split_ifs at hp with hix
      · cases hq : m.helipads[ix]? with
        | none => rw [hq] at hp; cases hp
        | some q =>
          rw [hq] at hp
          simp only [Option.map_some', Option.some.injEq] at hp
          subst hp
          exact ha ix q hq
      · exact ha ix p hp
    · intro ix p hp
      simp only [update_helipad_get] at hp
      split_ifs at hp with hix
      · cases hq : m.helipads[ix]? with
        | none => rw [hq] at hp; cases hp
        | some q =>
          rw [hq] at hp
          simp only [Option.map_some', Option.some.injEq] at hp
          subst hp
          exact hb ix q hq
      · exact hb ix p hp
    · intro d hd2
      have := hd d hd2
      rw [update_helipad_length]
      exact ⟨by omega, this.2⟩
  have hadd : ∀ (hnew : helicopter_t) (r : rand_gen_t), hnew.dest_hp = k →
      hnew.state = heli_state.STATE_WAIT →
      heli_init_inv (k + 1)
        { helipads := update_helipad
            (update_helipad m.helipads k (fun h => { h with bcube := loc })) k
            (fun h => { h with in_use := true }),
          helicopters := m.helicopters ++ [hnew], rgen := r } := by
    intro hnew r hnd hns
    refine ⟨?_, ?_, ?_, ?_, ?_⟩
    · intro ix p hp
      simp only [update_helipad_get] at hp
      split_ifs at hp with hix
      · cases hq : m.helipads[ix]? with
        | none => rw [hq] at hp; cases hp
        | some q =>
          rw [hq] at hp
          simp only [Option.map_some', Option.some.injEq] at hp
          subst hp
          exact ha ix q hq
      · exact ha ix p hp
    · intro ix p hp
      simp only [update_helipad_get] at hp
      simp only [List.map_append, List.map_cons, List.map_nil, List.mem_append,
        List.mem_singleton]
      split_ifs at hp with hix
      · cases hq : m.helipads[ix]? with
        | none => rw [hq] at hp; cases hp
        | some q =>
          rw [hq] at hp
          simp only [Option.map_some', Option.some.injEq] at hp
          subst hp
          exact ⟨fun _ => Or.inr (by rw [hnd]; exact hix.symm), fun _ => rfl⟩
      · rw [hb ix p hp]
        exact ⟨Or.inl, fun h => h.elim id (fun h2 => absurd (by rw [h2, hnd]) hix)⟩
    · simp only [List.map_append, List.map_cons, List.map_nil]
      rw [List.nodup_append]
      refine ⟨hc, List.nodup_singleton _, ?_⟩
      intro a ha1 ha2
      simp only [List.mem_singleton] at ha2
      rw [ha2, hnd] at ha1
      exact hkd ha1
    · intro d hd2
      simp only [List.map_append, List.map_cons, List.map_nil, List.mem_append,
        List.mem_singleton] at hd2
      simp only [update_helipad_length]
      rcases hd2 with hd2 | hd2
      · have := hd d hd2
        exact ⟨by omega, this.2⟩
      · rw [hd2, hnd]
        exact ⟨by omega, hk⟩
    · intro h hh
      simp only [List.mem_append, List.mem_singleton] at hh
      rcases hh with hh | hh
      · exact he h hh
      · rw [hh]
        exact hns
  unfold add_helicopters_body
  simp only [rand_gen_t.rand_bool, rand_gen_t.rand, rand_gen_t.rand_dir_xy,
    rand_gen_t.rand_uniform]
  split_ifs
  all_goals first
    | exact ⟨hskip _, update_helipad_length _ _ _⟩
    | exact ⟨hadd _ _ rfl rfl, by simp only [update_helipad_length]⟩

/-- The loop of `add_helicopters` keeps its invariant. -/
theorem add_helicopters_loop_inv (env : heli_env) :
    ∀ (locs : List cube_t) (k : Nat) (m : heli_manager_t), heli_init_inv k m →
      k + locs.length ≤ m.helipads.length →
      ∃ k2, heli_init_inv k2 (add_helicopters_loop env k locs m) := by
  intro locs
  induction locs with
  | nil =>
    intro k m hinv _
    exact ⟨k, hinv⟩
  | cons loc rest ih =>
    intro k m hinv hlen
    simp only [List.length_cons] at hlen
    obtain ⟨h1, h2⟩ := add_helicopters_body_inv env k loc m hinv (by omega)
    rw [add_helicopters_loop]
    exact ih (k + 1) _ h1 (by rw [h2]; omega)

/-- The state produced by `add_helicopters` satisfies the invariant of helicopters and
helipads. -/
theorem add_helicopters_inv (env : heli_env) (rgen : rand_gen_t) (hp_locs : List cube_t) :
    heli_inv (add_helicopters env rgen hp_locs).helicopters
      (add_helicopters env rgen hp_locs).helipads := by
  unfold add_helicopters
  split_ifs
  · refine ⟨List.nodup_nil, ?_, ?_⟩
    · intro h hh
      cases hh
    · intro ix p hp
      simp at hp
  · have hinit : heli_init_inv 0
        ⟨List.replicate hp_locs.length helipad_t.default, [], rgen⟩ := by
      refine ⟨?_, ?_, List.nodup_nil, ?_, ?_⟩
      · intro ix p hp
        have hmem := List.getElem?_mem hp
        rw [List.eq_of_mem_replicate hmem]
        rfl
      · intro ix p hp
        have hmem := List.getElem?_mem hp
        rw [List.eq_of_mem_replicate hmem]
        simp [helipad_t.default]
      · intro d hd
        simp at hd
      · intro h hh
        cases hh
    obtain ⟨k2, hk2⟩ := add_helicopters_loop_inv env hp_locs 0 _ hinit (by simp)
    exact heli_inv_of_init_inv k2 _ hk2

/-- Every reachable state of the helicopter manager satisfies the invariant. -/
theorem heli_reachable_inv (m : heli_manager_t) (hr : heli_reachable m) :
    heli_inv m.helicopters m.helipads := by
  induction hr with
  | init env rgen hp_locs => exact add_helicopters_inv env rgen hp_locs
  | step env car_speed m m2 _ hstep ih => exact helicopters_next_frame_inv env car_speed m m2 hstep ih

/-- C6: in every state reachable from the state produced by `add_helicopters` through any
number of completed `helicopters_next_frame` steps, for every outcome of the random
choices, each helipad with `reserved` or `in_use` set is the `dest_hp` of exactly one
helicopter, and no two helicopters share a `dest_hp`. -/
theorem helipad_held_by_exactly_one_helicopter (m : heli_manager_t) (hr : heli_reachable m) :
    (∀ (ix : Nat) (p : helipad_t), m.helipads[ix]? = some p →
        (p.reserved = true ∨ p.in_use = true) →
        m.helicopters.countP (fun h => h.dest_hp == ix) = 1)
    ∧ (m.helicopters.map helicopter_t.dest_hp).Nodup := by
  obtain ⟨hJ1, -, hJ3⟩ := heli_reachable_inv m hr
  refine ⟨?_, hJ1⟩
  intro ix p hp hheld
  obtain ⟨h, hh, hd⟩ := hJ3 ix p hp hheld
  have hmem : ix ∈ m.helicopters.map helicopter_t.dest_hp := by
    rw [← hd]
    exact List.mem_map_of_mem _ hh
  have hcount := List.count_eq_one_of_mem hJ1 hmem
  rw [List.count, List.countP_map] at hcount
  exact hcount


/-- On the sample data `add_helicopters` puts a helicopter on each of the two helipads, and
the first call of `helicopters_next_frame` completes. -/
theorem sample_helicopters_step :
    (add_helicopters sample_heli_env sample_rgen sample_hp_locs).helicopters.map
        helicopter_t.dest_hp = [0, 1]
    ∧ (add_helicopters sample_heli_env sample_rgen sample_hp_locs).helipads.map
        helipad_t.in_use = [true, true]
    ∧ ∃ m2, helicopters_next_frame sample_heli_env 1
        (add_helicopters sample_heli_env sample_rgen sample_hp_locs) = some m2 := by
  refine ⟨?_, ?_, ?_⟩
  · simp [add_helicopters, add_helicopters_loop, add_helicopters_body, sample_heli_env,
      sample_rgen, sample_hp_locs, rand_gen_t.rand_bool, rand_gen_t.rand,
      rand_gen_t.rand_dir_xy, rand_gen_t.rand_uniform, helicopter_t.create, DYNAMIC_HELICOPTERS]
  · simp [add_helicopters, add_helicopters_loop, add_helicopters_body, sample_heli_env,
      sample_rgen, sample_hp_locs, rand_gen_t.rand_bool, rand_gen_t.rand,
      rand_gen_t.rand_dir_xy, rand_gen_t.rand_uniform, helicopter_t.create, DYNAMIC_HELICOPTERS,
      update_helipad, helipad_t.default, List.modify, List.replicate]
  · apply Option.isSome_iff_exists.1
    simp [add_helicopters, add_helicopters_loop, add_helicopters_body, sample_heli_env,
      sample_rgen, sample_hp_locs, rand_gen_t.rand_bool, rand_gen_t.rand,
      rand_gen_t.rand_dir_xy, rand_gen_t.rand_uniform, helicopter_t.create, DYNAMIC_HELICOPTERS,
      update_helipad, helipad_t.default, List.modify, List.replicate, helicopters_next_frame,
      helicopters_loop, helicopter_next_frame, heli_wait_step, all_zeros]
    norm_num

theorem helipad_held_by_exactly_one_helicopter_witness :
    ∃ m2, helicopters_next_frame sample_heli_env 1
        (add_helicopters sample_heli_env sample_rgen sample_hp_locs) = some m2
      ∧ ((∀ (ix : Nat) (p : helipad_t), m2.helipads[ix]? = some p →
            (p.reserved = true ∨ p.in_use = true) →
            m2.helicopters.countP (fun h => h.dest_hp == ix) = 1)
        ∧ (m2.helicopters.map helicopter_t.dest_hp).Nodup) := by
  obtain ⟨-, -, m2, hm2⟩ := sample_helicopters_step
  exact ⟨m2, hm2, helipad_held_by_exactly_one_helicopter m2
    (heli_reachable.step sample_heli_env 1 _ m2
      (heli_reachable.init sample_heli_env sample_rgen sample_hp_locs) hm2)⟩

/-! ## Properties of `car_t::check_collision` on other pairs -/

/-- C14: for two cars with the same travel axis and opposite directions, whatever their
positions and gap, `check_collision` returns false and returns both cars exactly as they
were (box, speed and every other field). -/
theorem check_collision_opposite_dirs_no_effect (road : car_t → cube_t) (a b : car_t)
    (hdim : b.dim = a.dim) (hdir : a.dir ≠ b.dir) :
    a.check_collision road b = (false, a, b) := by
  unfold car_t.check_collision
  rw [if_neg (not_not.2 hdim), if_pos hdir]

theorem check_collision_opposite_dirs_no_effect_witness :
    (unit_car 0 1 1).check_collision (fun _ => ⟨-10, 10, 0, 1, 0, 1⟩)
        { unit_car (1 / 2) 1 1 with dir := false }
      = (false, unit_car 0 1 1, { unit_car (1 / 2) 1 1 with dir := false }) :=
  check_collision_opposite_dirs_no_effect (fun _ => ⟨-10, 10, 0, 1, 0, 1⟩) (unit_car 0 1 1)
    { unit_car (1 / 2) 1 1 with dir := false } rfl (by simp [unit_car])

/-- The outcomes of `check_collision` on two cars with different travel axes. -/
theorem car_t.check_collision_cross_cases (road : car_t → cube_t) (a b : car_t)
    (hdim : b.dim ≠ a.dim) :
    a.check_collision road b =
      if b.front_intersects_car a = true then
        (true, a, b.decelerate_fast.set_bcube b.prev_bcube)
      else if a.front_intersects_car b = true then
        (true, a.decelerate_fast.set_bcube a.prev_bcube, b)
      else (false, a, b) := by
  unfold car_t.check_collision
  rw [if_pos hdim]
  rfl

/-- Evaluation of `check_collision` on the two sample cars with different axes: the front
probe of the car on the y axis is inside the car on the x axis, so the car on the y axis is
stopped and put back to its previous-frame box. -/
theorem check_collision_cross_example :
    cross_car_y.front_intersects_car cross_car_x = true
    ∧ cross_car_x.check_collision (fun _ => ⟨-10, 10, -10, 10, 0, 1⟩) cross_car_y
      = (true, cross_car_x,
          { cross_car_y with cur_speed := 0, bcube := ⟨1, 2, -3 / 4, 5 / 4, 0, 1⟩ }) := by
  have h1 : cross_car_y.front_intersects_car cross_car_x = true := by
    simp [car_t.front_intersects_car, car_t.get_front, car_t.get_center, car_t.get_length,
      cube_t.get_cube_center, cube_t.contains_pt, cube_t.d, point.add_dim, cross_car_x,
      cross_car_y, unit_car, car_t.set_bcube]
    norm_num
  refine ⟨h1, ?_⟩
  rw [car_t.check_collision_cross_cases _ _ _ (by simp [cross_car_x, cross_car_y, unit_car,
    car_t.set_bcube]), if_pos h1]
  simp [car_t.decelerate_fast, car_t.decelerate, car_t.set_bcube, cross_car_y, unit_car]
  norm_num

/-- C12, counterexample: the front probe of each of the two sample cars is inside the other
car. The call returns true and puts the car on the y axis back to its previous-frame box
`[1, 2] x [-0.75, 1.25]`, and the front probe point `(1.5, 0.6)` of the other car, which is
unchanged, is still inside that restored box. -/
theorem check_collision_cross_probe_claim_fails :
    cross_car_y.dim ≠ cross_car_x.dim
    ∧ (cross_car_x.check_collision (fun _ => ⟨-10, 10, -10, 10, 0, 1⟩) cross_car_y).1 = true
    ∧ (cross_car_x.check_collision (fun _ => ⟨-10, 10, -10, 10, 0, 1⟩) cross_car_y).2.1
        = cross_car_x
    ∧ (cross_car_x.check_collision (fun _ => ⟨-10, 10, -10, 10, 0, 1⟩) cross_car_y).2.2.bcube
        = cross_car_y.prev_bcube
    ∧ (cross_car_x.check_collision (fun _ => ⟨-10, 10, -10, 10, 0, 1⟩)
          cross_car_y).2.2.bcube.contains_pt (cross_car_x.get_front (1 / 4)) = true := by
  rw [check_collision_cross_example.2]
  refine ⟨by simp [cross_car_x, cross_car_y, unit_car, car_t.set_bcube], rfl, rfl, rfl, ?_⟩
  simp [car_t.get_front, car_t.get_center, car_t.get_length, cube_t.get_cube_center,
    cube_t.contains_pt, cube_t.d, point.add_dim, cross_car_x, unit_car, car_t.set_bcube]
  norm_num

/-- C12, amended: for two cars with different travel axes for which `check_collision`
returns true, the box of the car that was reverted is its `prev_bcube` and the other car is
unchanged; hence the front probe points of the other car are outside the restored box
exactly when they are outside the previous-frame box of the reverted car, which the call
does not test. -/
theorem check_collision_cross_probe_vs_prev_box (road : car_t → cube_t) (a b : car_t)
    (hdim : b.dim ≠ a.dim) (hret : (a.check_collision road b).1 = true) :
    (b.front_intersects_car a = true →
      (a.check_collision road b).2.1 = a
      ∧ (a.check_collision road b).2.2.bcube = b.prev_bcube
      ∧ (a.front_intersects_car (a.check_collision road b).2.2 = false ↔
          (b.prev_bcube.contains_pt (a.get_front (1 / 4)) = false
            ∧ b.prev_bcube.contains_pt (a.get_front (1 / 2)) = false)))
    ∧ (b.front_intersects_car a = false →
      (a.check_collision road b).2.2 = b
      ∧ (a.check_collision road b).2.1.bcube = a.prev_bcube
      ∧ (b.front_intersects_car (a.check_collision road b).2.1 = false ↔
          (a.prev_bcube.contains_pt (b.get_front (1 / 4)) = false
            ∧ a.prev_bcube.contains_pt (b.get_front (1 / 2)) = false))) := by
  rw [car_t.check_collision_cross_cases road a b hdim] at hret ⊢
  by_cases h1 : b.front_intersects_car a = true
  · rw [if_pos h1]
    refine ⟨fun _ => ⟨rfl, rfl, ?_⟩, fun h => ?_⟩
    · simp [car_t.front_intersects_car, car_t.set_bcube, car_t.decelerate_fast,
        car_t.decelerate]
    · rw [h1] at h
      cases h
  · rw [if_neg h1] at hret ⊢
    by_cases h2 : a.front_intersects_car b = true
    · rw [if_pos h2]
      refine ⟨fun h => absurd h h1, fun _ => ⟨rfl, rfl, ?_⟩⟩
      simp [car_t.front_intersects_car, car_t.set_bcube, car_t.decelerate_fast,
        car_t.decelerate]
    · rw [if_neg h2] at hret
      cases hret

theorem check_collision_cross_probe_vs_prev_box_witness :
    (cross_car_x.check_collision (fun _ => ⟨-10, 10, -10, 10, 0, 1⟩) cross_car_y).2.1
        = cross_car_x
    ∧ (cross_car_x.check_collision (fun _ => ⟨-10, 10, -10, 10, 0, 1⟩) cross_car_y).2.2.bcube
        = cross_car_y.prev_bcube
    ∧ (cross_car_x.front_intersects_car
          (cross_car_x.check_collision (fun _ => ⟨-10, 10, -10, 10, 0, 1⟩) cross_car_y).2.2
          = false ↔
        (cross_car_y.prev_bcube.contains_pt (cross_car_x.get_front (1 / 4)) = false
          ∧ cross_car_y.prev_bcube.contains_pt (cross_car_x.get_front (1 / 2)) = false)) :=
  (check_collision_cross_probe_vs_prev_box (fun _ => ⟨-10, 10, -10, 10, 0, 1⟩) cross_car_x
    cross_car_y (by simp [cross_car_x, cross_car_y, unit_car, car_t.set_bcube])
    (by rw [check_collision_cross_example.2])).1 check_collision_cross_example.1

/-- C15: for two cars of the same city of which exactly one is parked, the comparator puts
the moving car before the parked car and not the parked car before the moving car, whatever
their roads, positions and the camera position; hence in an array sorted by the comparator
every parked car of a city is at a later index than every moving car of that city. -/
theorem comp_moving_before_parked (camera_pos : point) (mv pk : car_t)
    (hcity : mv.cur_city = pk.cur_city) (hmv : mv.is_parked = false)
    (hpk : pk.is_parked = true) :
    comp_car_road_then_pos camera_pos mv pk = true
    ∧ comp_car_road_then_pos camera_pos pk mv = false
    ∧ ∀ cars : List car_t,
        cars.Pairwise (fun c1 c2 => comp_car_road_then_pos camera_pos c2 c1 = false) →
        ∀ i j : Nat, cars[i]? = some pk → cars[j]? = some mv → j < i := by
  have h1 : comp_car_road_then_pos camera_pos mv pk = true := by
    unfold comp_car_road_then_pos
    rw [if_neg (not_not.2 hcity), if_pos (by rw [hmv, hpk]; decide), hpk]
  have h2 : comp_car_road_then_pos camera_pos pk mv = false := by
    unfold comp_car_road_then_pos
    rw [if_neg (not_not.2 hcity.symm), if_pos (by rw [hmv, hpk]; decide), hmv]
  refine ⟨h1, h2, ?_⟩
  intro cars hsorted i j hi hj
  by_contra hlt
  have hne : i ≠ j := by
    intro hij
    subst hij
    rw [hi] at hj
    have hpm : pk = mv := Option.some.inj hj
    rw [hpm, hmv] at hpk
    exact Bool.false_ne_true hpk
  have hij : i < j := lt_of_le_of_ne (not_lt.1 hlt) hne
  obtain ⟨hil, hie⟩ := List.getElem?_eq_some.1 hi
  obtain ⟨hjl, hje⟩ := List.getElem?_eq_some.1 hj
  have hrel := List.pairwise_iff_getElem.1 hsorted i j hil hjl hij
  rw [hie, hje, h1] at hrel
  exact Bool.noConfusion hrel

/-- C15, instance: a moving and a parked unit car of city 0 on different roads, in the sorted
array that holds the moving car first. -/
theorem comp_moving_before_parked_witness :
    comp_car_road_then_pos all_zeros { city_car 0 0 (1 / 2) 1 with cur_road := 7 }
        (city_car 0 3 0 0) = true
    ∧ comp_car_road_then_pos all_zeros (city_car 0 3 0 0)
        { city_car 0 0 (1 / 2) 1 with cur_road := 7 } = false
    ∧ ∀ cars : List car_t,
        cars.Pairwise (fun c1 c2 => comp_car_road_then_pos all_zeros c2 c1 = false) →
        ∀ i j : Nat, cars[i]? = some (city_car 0 3 0 0) →
          cars[j]? = some { city_car 0 0 (1 / 2) 1 with cur_road := 7 } → j < i :=
  comp_moving_before_parked all_zeros { city_car 0 0 (1 / 2) 1 with cur_road := 7 }
    (city_car 0 3 0 0) rfl (by norm_num [car_t.is_parked, city_car, unit_car])
    (by norm_num [car_t.is_parked, city_car, unit_car])

/-- C16, counterexample: two cars of city 0, a parked one on road 1 and a moving one on road
2. The car on the smaller road id is not put first: the comparator puts the moving car of
road 2 before the parked car of road 1. -/
theorem comp_road_before_parked_claim_fails :
    ({ city_car 0 0 0 0 with cur_road := 1 } : car_t).cur_city
        = ({ city_car 0 0 (1 / 2) 1 with cur_road := 2 } : car_t).cur_city
    ∧ ({ city_car 0 0 0 0 with cur_road := 1 } : car_t).cur_road
        < ({ city_car 0 0 (1 / 2) 1 with cur_road := 2 } : car_t).cur_road
    ∧ comp_car_road_then_pos all_zeros { city_car 0 0 0 0 with cur_road := 1 }
        { city_car 0 0 (1 / 2) 1 with cur_road := 2 } = false
    ∧ comp_car_road_then_pos all_zeros { city_car 0 0 (1 / 2) 1 with cur_road := 2 }
        { city_car 0 0 0 0 with cur_road := 1 } = true := by
  refine ⟨rfl, by decide, ?_, ?_⟩ <;>
    norm_num [comp_car_road_then_pos, car_t.is_parked, city_car, unit_car]

/-- C16, amended: the key is (city, parked state, road, position). For two cars of the same
city and different road ids, the car on the smaller road id comes first when both are parked
or both are moving; when exactly one is parked the moving car comes first, whatever the road
ids. -/
theorem comp_parked_state_before_road (camera_pos : point) (c1 c2 : car_t)
    (hcity : c1.cur_city = c2.cur_city) (hroad : c1.cur_road ≠ c2.cur_road) :
    (c1.is_parked = c2.is_parked →
      (comp_car_road_then_pos camera_pos c1 c2 = true ↔ c1.cur_road < c2.cur_road))
    ∧ (c1.is_parked ≠ c2.is_parked →
      (comp_car_road_then_pos camera_pos c1 c2 = true ↔ c1.is_parked = false)) := by
  constructor
  · intro hp
    unfold comp_car_road_then_pos
    rw [if_neg (not_not.2 hcity), if_neg (not_not.2 hp), if_pos hroad]
    exact decide_eq_true_iff
  · intro hp
    unfold comp_car_road_then_pos
    rw [if_neg (not_not.2 hcity), if_pos hp]
    revert hp
    cases c1.is_parked <;> cases c2.is_parked <;> simp

/-- C16, instance of the amended statement on the cars of the counterexample. -/
theorem comp_parked_state_before_road_witness :
    (({ city_car 0 0 0 0 with cur_road := 1 } : car_t).is_parked
        = ({ city_car 0 0 (1 / 2) 1 with cur_road := 2 } : car_t).is_parked →
      (comp_car_road_then_pos all_zeros { city_car 0 0 0 0 with cur_road := 1 }
          { city_car 0 0 (1 / 2) 1 with cur_road := 2 } = true
        ↔ ({ city_car 0 0 0 0 with cur_road := 1 } : car_t).cur_road
          < ({ city_car 0 0 (1 / 2) 1 with cur_road := 2 } : car_t).cur_road))
    ∧ (({ city_car 0 0 0 0 with cur_road := 1 } : car_t).is_parked
        ≠ ({ city_car 0 0 (1 / 2) 1 with cur_road := 2 } : car_t).is_parked →
      (comp_car_road_then_pos all_zeros { city_car 0 0 0 0 with cur_road := 1 }
          { city_car 0 0 (1 / 2) 1 with cur_road := 2 } = true
        ↔ ({ city_car 0 0 0 0 with cur_road := 1 } : car_t).is_parked = false)) :=
  comp_parked_state_before_road all_zeros { city_car 0 0 0 0 with cur_road := 1 }
    { city_car 0 0 (1 / 2) 1 with cur_road := 2 } rfl (by decide)

/-! ## Properties of the loop body of `helicopters_next_frame` -/

/-- One round of the sampling loop of `helicopters_next_frame` on a non-empty helipad list. -/
theorem choose_new_dest_hp_succ (hps : List helipad_t) (d n : Nat) (r : rand_gen_t)
    (hne : hps ≠ []) :
    ∃ p, hps[r.ints r.pos % hps.length]? = some p
      ∧ choose_new_dest_hp hps d (n + 1) r =
        if (r.ints r.pos % hps.length ≠ d && p.is_avail) = true then
          some (some (r.ints r.pos % hps.length), { r with pos := r.pos + 1 })
        else choose_new_dest_hp hps d n { r with pos := r.pos + 1 } := by
  have hlen : 0 < hps.length := List.length_pos.2 hne
  have hlt : r.ints r.pos % hps.length < hps.length := Nat.mod_lt _ hlen
  refine ⟨hps[r.ints r.pos % hps.length], List.getElem?_eq_getElem hlt, ?_⟩
  rw [choose_new_dest_hp]
  simp only [rand_gen_t.rand, List.getElem?_eq_getElem hlt]

/-- The sampling loop finds no pad when every draw is the current pad or a pad that is not
available; it then has consumed all `n` draws. -/
theorem choose_new_dest_hp_none (hps : List helipad_t) (d : Nat) (hne : hps ≠ []) :
    ∀ (n : Nat) (r : rand_gen_t),
      (∀ i, i < n → r.ints (r.pos + i) % hps.length = d
        ∨ ∀ p, hps[r.ints (r.pos + i) % hps.length]? = some p → p.is_avail = false) →
      choose_new_dest_hp hps d n r = some (none, { r with pos := r.pos + n }) := by
  intro n
  induction n with
  | zero => intro r _; rfl
  | succ n ih =>
    intro r hmiss
    obtain ⟨p, hp, hstep⟩ := choose_new_dest_hp_succ hps d n r hne
    have h0 := hmiss 0 (Nat.succ_pos n)
    rw [Nat.add_zero] at h0
    have hc : ¬ (r.ints r.pos % hps.length ≠ d && p.is_avail) = true := by
      intro hc
      simp only [Bool.and_eq_true, decide_eq_true_eq] at hc
      rcases h0 with h0 | h0
      · exact hc.1 h0
      · rw [h0 p hp] at hc
        exact Bool.false_ne_true hc.2
    rw [hstep, if_neg hc, ih]
    · simp only [Nat.add_assoc, Nat.add_comm 1 n]
    · intro i hi
      have := hmiss (i + 1) (Nat.succ_lt_succ hi)
      simpa only [Nat.add_assoc, Nat.add_comm 1 i] using this

/-- The waiting branch of the loop body when the countdown expires in this step and the
sampling loop finds no pad: the helicopter waits one more second. -/
theorem heli_wait_step_retry (env : heli_env) (car_speed : ℚ) (h : helicopter_t)
    (hps : List helipad_t) (r r1 : rand_gen_t) (hv : h.velocity = all_zeros)
    (hw0 : h.wait_time ≠ 0) (hexp : h.wait_time - env.fticks / env.TICKS_PER_SECOND ≤ 0)
    (hch : choose_new_dest_hp hps h.dest_hp 20 r = some (none, r1)) :
    heli_wait_step env car_speed h hps r = some ({ h with wait_time := 1 }, hps, r1) := by
  unfold heli_wait_step
  simp only
  rw [if_neg (not_not.2 hv), if_neg hw0, if_neg (not_lt.2 hexp), hch]

/-- C18: for a waiting helicopter (at rest, with a non-empty helipad list) whose countdown
expires in this step while no pad other than its own is available, the loop body of
`helicopters_next_frame` does not fail: the helicopter stays in WAIT with `wait_time` 1; its
velocity (zero), destination, box and every other field are as before, and the helipads are
unchanged. -/
theorem heli_wait_retry_when_no_pad (env : heli_env) (car_speed : ℚ) (h : helicopter_t)
    (hps : List helipad_t) (r : rand_gen_t)
    (hst : h.state = heli_state.STATE_WAIT) (hv : h.velocity = all_zeros)
    (hw0 : h.wait_time ≠ 0) (hexp : h.wait_time - env.fticks / env.TICKS_PER_SECOND ≤ 0)
    (hne : hps ≠ [])
    (hnone : ∀ (ix : Nat) (p : helipad_t), hps[ix]? = some p → ix ≠ h.dest_hp →
      p.is_avail = false) :
    helicopter_next_frame env car_speed h hps r
        = some ({ h with wait_time := 1 }, hps, { r with pos := r.pos + 20 })
    ∧ ({ h with wait_time := 1 } : helicopter_t).state = heli_state.STATE_WAIT
    ∧ ({ h with wait_time := 1 } : helicopter_t).wait_time = 1
    ∧ ({ h with wait_time := 1 } : helicopter_t).velocity = all_zeros
    ∧ ({ h with wait_time := 1 } : helicopter_t).dest_hp = h.dest_hp
    ∧ ({ h with wait_time := 1 } : helicopter_t).bcube = h.bcube := by
  refine ⟨?_, hst, rfl, hv, rfl, rfl⟩
  unfold helicopter_next_frame
  rw [if_pos hst]
  apply heli_wait_step_retry env car_speed h hps r _ hv hw0 hexp
  apply choose_new_dest_hp_none hps h.dest_hp hne 20 r
  intro i _
  by_cases hid : r.ints (r.pos + i) % hps.length = h.dest_hp
  · exact Or.inl hid
  · exact Or.inr (fun p hp => hnone _ p hp hid)

/-- C18, instance: the waiting helicopter on pad 0 while pad 1 is reserved, with the draws
0, 1, 2, ... -/
theorem heli_wait_retry_when_no_pad_witness :
    helicopter_next_frame sample_heli_env 1 waiting_heli busy_helipads sample_rgen
        = some ({ waiting_heli with wait_time := 1 }, busy_helipads,
            { sample_rgen with pos := sample_rgen.pos + 20 })
    ∧ ({ waiting_heli with wait_time := 1 } : helicopter_t).state = heli_state.STATE_WAIT
    ∧ ({ waiting_heli with wait_time := 1 } : helicopter_t).wait_time = 1
    ∧ ({ waiting_heli with wait_time := 1 } : helicopter_t).velocity = all_zeros
    ∧ ({ waiting_heli with wait_time := 1 } : helicopter_t).dest_hp = waiting_heli.dest_hp
    ∧ ({ waiting_heli with wait_time := 1 } : helicopter_t).bcube = waiting_heli.bcube :=
  heli_wait_retry_when_no_pad sample_heli_env 1 waiting_heli busy_helipads sample_rgen rfl rfl
    (by norm_num [waiting_heli, helicopter_t.create])
    (by norm_num [waiting_heli, helicopter_t.create, sample_heli_env])
    (by simp [busy_helipads])
    (by
      intro ix p hp hix
      match ix, hp, hix with
      | 0, _, hix => exact absurd rfl hix
      | 1, hp, _ =>
        have hpe : p = ⟨⟨20, 22, 0, 2, 12, 12⟩, false, true⟩ := (Option.some.inj hp).symm
        rw [hpe]
        rfl
      | n + 2, hp, _ => simp [busy_helipads] at hp)

/-- The loop body for a helicopter that does not wait and passes the three assertions of the
moving branch. -/
theorem helicopter_next_frame_moving (env : heli_env) (car_speed : ℚ) (h : helicopter_t)
    (hps : List helipad_t) (r : rand_gen_t) (pad : helipad_t)
    (hst : h.state ≠ heli_state.STATE_WAIT) (hw : h.wait_time = 0)
    (hpad : hps[h.dest_hp]? = some pad) (hres : pad.reserved = true) :
    helicopter_next_frame env car_speed h hps r =
      (if h.state = heli_state.STATE_TAKEOFF then heli_takeoff_step env car_speed h pad hps r
        else if h.state = heli_state.STATE_LAND then heli_land_step env car_speed h pad hps r
        else heli_fly_step env car_speed h pad hps r).map (heli_blade_step env) := by
  unfold helicopter_next_frame
  rw [if_neg hst, if_neg (not_not.2 hw), hpad]
  simp only
  rw [if_neg (by rw [hres]; decide)]

/-- The rotor statement changes nothing but the blade angle. -/
theorem heli_blade_step_keeps (env : heli_env) (res : heli_result) :
    (heli_blade_step env res).1.bcube = res.1.bcube
    ∧ (heli_blade_step env res).1.velocity = res.1.velocity
    ∧ (heli_blade_step env res).1.state = res.1.state
    ∧ (heli_blade_step env res).1.wait_time = res.1.wait_time
    ∧ (heli_blade_step env res).1.dest_hp = res.1.dest_hp
    ∧ (heli_blade_step env res).2 = res.2 := by
  unfold heli_blade_step
  split_ifs <;> exact ⟨rfl, rfl, rfl, rfl, rfl, rfl⟩

/-- The inner loop of `find_next_car_after_turn` keeps its invariant. -/
theorem find_next_car_scan_inv (env : turn_env) (cars : List car_t) (ci : Nat) (car : car_t)
    (city_ix road_ix seg_ix dest_orient : Nat) (D : ℚ) :
    ∀ (its : List Nat) (s s2 : turn_scan_t),
      turn_scan_inv cars ci car.get_center dest_orient D s →
      find_next_car_scan env cars ci car city_ix road_ix seg_ix dest_orient its s = some s2 →
      turn_scan_inv cars ci car.get_center dest_orient D s2 := by
  intro its
  induction its with
  | nil =>
    intro s s2 hinv h
    simp only [find_next_car_scan, Option.some.injEq] at h
    subst h
    exact hinv
  | cons it rest ih =>
    intro s s2 hinv h
    rw [find_next_car_scan] at h
    cases hc : cars[it]? with
    | none =>
      rw [hc] at h
      simp only [Option.some.injEq] at h
      subst h
      exact hinv
    | some c =>
      rw [hc] at h
      simp only at h
      by_cases h1 : it = ci
      · rw [if_pos h1] at h
        exact ih _ _ hinv h
      rw [if_neg h1] at h
      by_cases h2 : c.cur_city ≠ city_ix
      · rw [if_pos h2] at h
        cases h
      rw [if_neg h2] at h
      by_cases h3 : c.cur_road ≠ road_ix
      · rw [if_pos h3] at h
        simp only [Option.some.injEq] at h
        subst h
        exact hinv
      rw [if_neg h3] at h
      by_cases h4 : (if c.cur_road_type = env.TYPE_RSEG then c.cur_seg ≠ seg_ix
          else c.cur_road_type ≠ car.cur_road_type ∨ c.cur_seg ≠ car.cur_seg)
      · rw [if_pos h4] at h
        exact ih _ _ hinv h
      rw [if_neg h4] at h
      by_cases h5 : c.get_orient ≠ dest_orient
      · rw [if_pos h5] at h
        exact ih _ _ hinv h
      rw [if_neg h5] at h
      by_cases h6 : p2p_dist_sq car.get_center (c.get_front (1 / 2))
          < p2p_dist_sq car.get_center c.get_center
      · rw [if_pos h6] at h
        exact ih _ _ hinv h
      rw [if_neg h6] at h
      by_cases h7 : p2p_dist_sq car.get_center c.get_center < s.dmin_sq
      · rw [if_pos h7] at h
        refine ih _ _ ?_ h
        obtain ⟨hd, hret⟩ := hinv
        refine ⟨le_trans (le_of_lt h7) hd, fun i hi => ?_⟩
        simp only at hi
        by_cases h8 : some it ≠ s.car_in_front
        · rw [if_pos h8] at hi
          have hii : it = i := Option.some.inj hi
          subst hii
          exact ⟨h1, rfl, c, hc, not_not.1 h5, lt_of_lt_of_le h7 hd⟩
        · rw [if_neg h8] at hi
          obtain ⟨ha, hb, hcc⟩ := hret i hi
          have h9 : some it = s.car_in_front := not_not.1 h8
          rw [hb] at h9
          exact ⟨ha, h9, hcc⟩
      rw [if_neg h7] at h
      by_cases h8 : (match s.prev_dist_sq with
          | none => false
          | some p => decide (p2p_dist_sq car.get_center c.get_center > p)) = true
      · rw [if_pos h8] at h
        simp only [Option.some.injEq] at h
        subst h
        exact hinv
      · rw [if_neg h8] at h
        exact ih _ _ (show turn_scan_inv cars ci car.get_center dest_orient D
          { s with prev_dist_sq := some (p2p_dist_sq car.get_center c.get_center) } from hinv) h

/-- The outer loop of `find_next_car_after_turn` keeps the invariant. -/
theorem find_next_car_blocks_inv (env : turn_env) (cars : List car_t) (ci : Nat) (car : car_t)
    (city_ix road_ix seg_ix dest_orient : Nat) (D : ℚ) :
    ∀ (cbs : List car_block_t) (s s2 : turn_scan_t),
      turn_scan_inv cars ci car.get_center dest_orient D s →
      find_next_car_blocks env cars ci car city_ix road_ix seg_ix dest_orient cbs s = some s2 →
      turn_scan_inv cars ci car.get_center dest_orient D s2 := by
  intro cbs
  induction cbs with
  | nil =>
    intro s s2 hinv h
    simp only [find_next_car_blocks, Option.some.injEq] at h
    subst h
    exact hinv
  | cons cb rest ih =>
    intro s s2 hinv h
    rw [find_next_car_blocks] at h
    by_cases h1 : cb.cur_city ≠ city_ix
    · rw [if_pos h1] at h
      exact ih _ _ hinv h
    rw [if_neg h1] at h
    by_cases h2 : ¬ (cb.first_parked ≤ cars.length ∧ cb.start ≤ cb.first_parked)
    · rw [if_pos h2] at h
      cases h
    rw [if_neg h2] at h
    simp only at h
    cases hs : find_next_car_scan env cars ci car city_ix road_ix seg_ix dest_orient
        (List.range' (lower_bound_road cars road_ix (cb.first_parked - cb.start) cb.start
            (cb.first_parked - cb.start))
          (cb.first_parked - lower_bound_road cars road_ix (cb.first_parked - cb.start) cb.start
            (cb.first_parked - cb.start)))
        { s with prev_dist_sq := none } with
    | none => rw [hs] at h; cases h
    | some s1 =>
      rw [hs] at h
      simp only at h
      have hinv0 : turn_scan_inv cars ci car.get_center dest_orient D
          { s with prev_dist_sq := none } := hinv
      exact ih _ _ (find_next_car_scan_inv env cars ci car city_ix road_ix seg_ix dest_orient D
        _ _ _ hinv0 hs) h

/-- C21, counterexample: the turning car at index 2 of `turn_cars` enters the call with its
link on the car at index 1. The scan first selects the farther car at index 0 and then the
closer car at index 1, and the call returns index 1: the car that the link referred to when
the function was entered. -/
theorem find_next_car_newly_found_claim_fails :
    turn_cars[2]?.bind car_t.car_in_front = some 1
    ∧ find_next_car_after_turn sample_turn_env [⟨0, 0, 3⟩, ⟨3, 0, 0⟩] turn_cars 2
      = some (some 1, some 1) := by
  refine ⟨rfl, ?_⟩
  simp [find_next_car_after_turn, find_next_car_blocks, find_next_car_scan, lower_bound_road,
    turn_cars, sample_turn_env, unit_car, car_t.get_orient, car_t.get_max_lookahead_dist,
    car_t.get_length, car_t.get_center, car_t.get_front, cube_t.get_cube_center, cube_t.d,
    point.add_dim, p2p_dist_sq, List.range']
  norm_num

/-- C21, amended: for the car at index `ci`, `find_next_car_after_turn` returns -1 without
scanning (and without touching the link) when the car has no turn direction and its
intersection is not a global connector intersection. Whenever it returns an index `i >= 0`,
`cars[i]` is a car of the array other than the queried car and on return the link
`car_in_front` refers to `cars[i]`; `cars[i]` is also not the car that the link referred to
when the function was entered, provided the queried car has no turn direction or the car of
the entry link does not have the destination orientation. -/
theorem find_next_car_returns_linked_other (env : turn_env) (car_blocks : List car_block_t)
    (cars : List car_t) (ci : Nat) (car : car_t) (hcar : cars[ci]? = some car) :
    (car.turn_dir = env.TURN_NONE → env.is_global_conn_int car = false →
      find_next_car_after_turn env car_blocks cars ci = some (none, car.car_in_front))
    ∧ ∀ (i : Nat) (link : Option Nat),
        find_next_car_after_turn env car_blocks cars ci = some (some i, link) →
        i ≠ ci ∧ i < cars.length ∧ link = some i
        ∧ ((car.turn_dir = env.TURN_NONE
            ∨ ∀ (f : Nat) (cf : car_t), car.car_in_front = some f → cars[f]? = some cf →
                cf.get_orient ≠ env.get_dest_orient_for_car_in_isec car) →
          car.car_in_front ≠ some i) := by
  constructor
  · intro ht hg
    unfold find_next_car_after_turn
    rw [hcar]
    simp only
    rw [if_pos ⟨ht, hg⟩]
  · intro i link h
    unfold find_next_car_after_turn at h
    rw [hcar] at h
    simp only at h
    by_cases hg : car.turn_dir = env.TURN_NONE ∧ env.is_global_conn_int car = false
    · rw [if_pos hg] at h
      simp at h
    rw [if_neg hg] at h
    by_cases ha : ¬ (env.rix_xy car (env.get_dest_orient_for_car_in_isec car) < 0
        ↔ env.conn_ix car (env.get_dest_orient_for_car_in_isec car) < 0)
    · rw [if_pos ha] at h
      cases h
    rw [if_neg ha] at h
    split at h
    · cases h
    · rename_i s hb
      simp only [Option.some.injEq, Prod.mk.injEq] at h
      obtain ⟨hret, hlink⟩ := h
      have hinv := find_next_car_blocks_inv env cars ci car _ _ _ _ _ _ _ _
        ⟨le_refl _, fun j hj => by cases hj⟩ hb
      obtain ⟨-, hr⟩ := hinv
      obtain ⟨h1, h2, c, hc, horient, hdist⟩ := hr i hret
      refine ⟨h1, (List.getElem?_eq_some.1 hc).1, by rw [← hlink, h2], fun hG hentry => ?_⟩
      rw [hentry] at hdist
      simp only [Option.some_bind, hc, Option.map_some', horient, ne_eq, not_true_eq_false,
        if_false] at hdist
      rcases hG with ht | ho
      · rw [if_pos ht] at hdist
        exact absurd hdist (not_lt.2 (min_le_right _ _))
      · exact ho i c hentry hc horient

/-- Evaluation of `find_next_car_after_turn` for the turning car of `turn_cars` when it
enters the call without a link: the scan selects the car at index 0 and then the closer car
at index 1. -/
theorem find_next_car_example :
    find_next_car_after_turn sample_turn_env [⟨0, 0, 3⟩, ⟨3, 0, 0⟩]
        [{ unit_car 6 1 1 with dir := false }, { unit_car 8 1 1 with dir := false },
         { unit_car 10 1 1 with dir := false, turn_dir := 1 }] 2
      = some (some 1, some 1) := by
  simp [find_next_car_after_turn, find_next_car_blocks, find_next_car_scan, lower_bound_road,
    sample_turn_env, unit_car, car_t.get_orient, car_t.get_max_lookahead_dist,
    car_t.get_length, car_t.get_center, car_t.get_front, cube_t.get_cube_center, cube_t.d,
    point.add_dim, p2p_dist_sq, List.range']
  norm_num

/-- C21, instance: the turning car at `[10, 11]` without a link, behind the cars at `[6, 7]`
and `[8, 9]`: the call returns index 1. -/
theorem find_next_car_returns_linked_other_witness :
    find_next_car_after_turn sample_turn_env [⟨0, 0, 3⟩, ⟨3, 0, 0⟩]
        [{ unit_car 6 1 1 with dir := false }, { unit_car 8 1 1 with dir := false },
         { unit_car 10 1 1 with dir := false, turn_dir := 1 }] 2
      = some (some 1, some 1)
    ∧ (1 : Nat) ≠ 2
    ∧ 1 < [({ unit_car 6 1 1 with dir := false } : car_t), { unit_car 8 1 1 with dir := false },
         { unit_car 10 1 1 with dir := false, turn_dir := 1 }].length
    ∧ (some 1 : Option Nat) = some 1 :=
  ⟨find_next_car_example,
    ((find_next_car_returns_linked_other sample_turn_env [⟨0, 0, 3⟩, ⟨3, 0, 0⟩]
      [{ unit_car 6 1 1 with dir := false }, { unit_car 8 1 1 with dir := false },
       { unit_car 10 1 1 with dir := false, turn_dir := 1 }] 2
      { unit_car 10 1 1 with dir := false, turn_dir := 1 } rfl).2 1 (some 1)
      find_next_car_example).1,
    ((find_next_car_returns_linked_other sample_turn_env [⟨0, 0, 3⟩, ⟨3, 0, 0⟩]
      [{ unit_car 6 1 1 with dir := false }, { unit_car 8 1 1 with dir := false },
       { unit_car 10 1 1 with dir := false, turn_dir := 1 }] 2
      { unit_car 10 1 1 with dir := false, turn_dir := 1 } rfl).2 1 (some 1)
      find_next_car_example).2.1,
    ((find_next_car_returns_linked_other sample_turn_env [⟨0, 0, 3⟩, ⟨3, 0, 0⟩]
      [{ unit_car 6 1 1 with dir := false }, { unit_car 8 1 1 with dir := false },
       { unit_car 10 1 1 with dir := false, turn_dir := 1 }] 2
      { unit_car 10 1 1 with dir := false, turn_dir := 1 } rfl).2 1 (some 1)
      find_next_car_example).2.2.1⟩

/-! ## The link to the closest car in the lookahead box -/

/-- The move loop appends the cars it has visited, and it appends one `mark_blocked` call for
each visited car that after its move is not parked, not stopped at a light, almost stopped
and inside an intersection. -/
theorem next_frame_move_cars_blocked (env : frame_env) (speed : ℚ) :
    ∀ (rest : List car_t) (cix : Nat) (s s2 : frame_state),
      next_frame_move_cars env speed cix rest s = some s2 →
      ∃ new : List car_t, s2.cars = s.cars ++ new
        ∧ s2.blocked = s.blocked
          ++ (new.filter (fun m => !m.is_parked && !m.stopped_at_light && m.is_almost_stopped
                && env.in_isect m)).map (fun m => (env.get_car_isec m, m.dim, m.dir)) := by
  intro rest
  induction rest with
  | nil =>
    intro cix s s2 h
    simp only [next_frame_move_cars, Option.some.injEq] at h
    subst h
    exact ⟨[], by simp, by simp⟩
  | cons c rest ih =>
    intro cix s s2 h
    rw [next_frame_move_cars] at h
    by_cases hp : ({ c with car_in_front := none } : car_t).is_parked = true
    · rw [if_pos hp] at h
      obtain ⟨new, h1, h2⟩ := ih _ _ _ h
      refine ⟨{ c with car_in_front := none } :: new, by simpa using h1, ?_⟩
      rw [h2, List.filter_cons_of_neg (by simp [hp])]
    · rw [if_neg hp] at h
      cases hm : car_t.move env.CONN_ROAD_SPEED_MULT env.road_width env.tfticks
          { c with car_in_front := none } speed with
      | none => rw [hm] at h; exact absurd h (by simp)
      | some m =>
        rw [hm] at h
        simp only at h
        have hk : m.is_parked = false := by
          rw [(car_t.move_keeps_city_and_max_speed _ _ _ _ _ _ hm).2]
          simpa using hp
        obtain ⟨new, h1, h2⟩ := ih _ _ _ h
        refine ⟨m :: new, by simpa using h1, ?_⟩
        rw [h2]
        by_cases hb : (!m.stopped_at_light && m.is_almost_stopped && env.in_isect m) = true
        · rw [if_pos hb, List.filter_cons_of_pos (by simpa [hk] using hb)]
          simp
        · rw [if_neg hb, List.filter_cons_of_neg (by simpa [hk] using hb)]

/-- C24, counterexample: the array of one moving car that stands still inside intersection
3, held by a red light. After the first pass the car is not parked, almost stopped and
inside the intersection, and no `mark_blocked` call has been made. -/
theorem next_frame_red_light_claim_fails :
    next_frame_first_pass isect_env 1 [red_light_car]
      = some ⟨[{ red_light_car with car_in_front := none }], [⟨0, 0, 1⟩, ⟨1, 0, 0⟩], false, [], []⟩
    ∧ red_light_car.is_parked = false
    ∧ red_light_car.stopped_at_light = true
    ∧ red_light_car.is_almost_stopped = true
    ∧ isect_env.in_isect { red_light_car with car_in_front := none } = true := by
  refine ⟨?_, ?_, rfl, ?_, rfl⟩
  · simp [next_frame_first_pass, next_frame_move_cars, isect_env, sample_env, red_light_car,
      unit_car, car_t.move, car_t.is_parked, car_t.is_stopped, car_blocks_add_car,
      car_blocks_new_city, car_blocks_mark_parked, set_back_first_parked, car_block_t.create]
  · simp [red_light_car, unit_car, car_t.is_parked]
  · norm_num [red_light_car, unit_car, car_t.is_almost_stopped]

/-- C24, amended: after a completed first pass of `next_frame` the `mark_blocked` calls made
are, in the order of the car array, exactly one call `(intersection, dim, dir)` for each car
that after its move is not parked, not stopped at a light, almost stopped and inside an
intersection; no call is made for a car that is parked, stopped at a light, not almost
stopped or not inside an intersection. -/
theorem next_frame_marks_blocked_unless_at_light (env : frame_env) (speed : ℚ)
    (cars : List car_t) (s : frame_state)
    (h : next_frame_first_pass env speed cars = some s) :
    s.blocked
      = (s.cars.filter (fun m => !m.is_parked && !m.stopped_at_light && m.is_almost_stopped
            && env.in_isect m)).map (fun m => (env.get_car_isec m, m.dim, m.dir)) := by
  unfold next_frame_first_pass at h
  cases hl : next_frame_move_cars env speed 0 cars ⟨[], [], false, [], []⟩ with
  | none => rw [hl] at h; exact absurd h (by simp)
  | some s1 =>
    rw [hl] at h
    simp only [Option.some.injEq] at h
    subst h
    obtain ⟨new, h1, h2⟩ := next_frame_move_cars_blocked env speed cars 0 _ s1 hl
    simp only [List.nil_append] at h1 h2
    show s1.blocked = _
    rw [h2]
    show _ = (s1.cars.filter _).map _
    rw [h1]

/-- C24, instance: the array of one moving car that stands still inside intersection 3 and
is not held by a light: the pass marks intersection 3 for the pair (x axis, positive). -/
theorem next_frame_marks_blocked_unless_at_light_witness :
    next_frame_first_pass isect_env 1 [unit_car 0 0 1]
      = some ⟨[unit_car 0 0 1], [⟨0, 0, 1⟩, ⟨1, 0, 0⟩], false, [], [(3, false, true)]⟩
    ∧ [((3 : Nat), false, true)]
      = ([unit_car 0 0 1].filter (fun m => !m.is_parked && !m.stopped_at_light
            && m.is_almost_stopped && isect_env.in_isect m)).map
          (fun m => (isect_env.get_car_isec m, m.dim, m.dir)) := by
  have hs : next_frame_first_pass isect_env 1 [unit_car 0 0 1]
      = some ⟨[unit_car 0 0 1], [⟨0, 0, 1⟩, ⟨1, 0, 0⟩], false, [], [(3, false, true)]⟩ := by
    simp [next_frame_first_pass, next_frame_move_cars, isect_env, sample_env,
      unit_car, car_t.move, car_t.is_parked, car_t.is_stopped, car_blocks_add_car,
      car_blocks_new_city, car_blocks_mark_parked, set_back_first_parked, car_block_t.create,
      car_t.is_almost_stopped]
  exact ⟨hs, next_frame_marks_blocked_unless_at_light isect_env 1 [unit_car 0 0 1] _ hs⟩

/-! ## The waiting marker of `car_t::move` -/

/-- The waiting marker after a completed `car_t::move` of a car that is not destroyed, not
stopped at a light and not stopped: it is reset (position set to the new front, start set to
the clock) when the new front is more than one car length away from the stored position, and
it is unchanged when the new front is at most one car length away. -/
theorem car_t.move_waiting_marker (conn_mult road_width tfticks : ℚ) (c : car_t)
    (speed_mult : ℚ) (m : car_t) (h : c.move conn_mult road_width tfticks speed_mult = some m)
    (hgo : (c.destroyed || c.stopped_at_light || c.is_stopped) = false) :
    (|m.bcube.d m.dim m.dir - c.waiting_pos| > m.get_length →
      m.waiting_pos = m.bcube.d m.dim m.dir ∧ m.waiting_start = tfticks)
    ∧ (|m.bcube.d m.dim m.dir - c.waiting_pos| ≤ m.get_length →
      m.waiting_pos = c.waiting_pos ∧ m.waiting_start = c.waiting_start) := by
  rw [car_t.move_eq, if_neg (by rw [hgo]; decide)] at h
  by_cases ha : ¬ (speed_mult ≥ 0 ∧ c.cur_speed > 0 ∧ c.cur_speed ≤ conn_mult * c.max_speed)
  · rw [if_pos ha] at h
    cases h
  rw [if_neg ha] at h
  have hdim : ∀ v, (c.move_by v).dim = c.dim := fun _ => rfl
  have hdir : ∀ v, (c.move_by v).dir = c.dir := fun _ => rfl
  have hwp : ∀ v, (c.move_by v).waiting_pos = c.waiting_pos := fun _ => rfl
  by_cases hw : |(c.move_by (if c.dir then c.move_dist road_width speed_mult
        else -c.move_dist road_width speed_mult)).bcube.d c.dim c.dir - c.waiting_pos|
      > (c.move_by (if c.dir then c.move_dist road_width speed_mult
        else -c.move_dist road_width speed_mult)).get_length
  · rw [if_pos hw] at h
    have hm := (Option.some.inj h).symm
    subst hm
    refine ⟨fun _ => ⟨rfl, rfl⟩, fun hle => absurd hw (not_lt.2 ?_)⟩
    exact hle
  · rw [if_neg hw] at h
    have hm := (Option.some.inj h).symm
    subst hm
    exact ⟨fun hgt => absurd hgt hw, fun _ => ⟨rfl, rfl⟩⟩

/-- C25, failing input: a unit car with speed 1/2 whose front is at 1 and whose waiting
marker is at 1/2 moves by 1/2. Its new front, 3/2, differs from the stored `waiting_pos` by
exactly one car length, and the call leaves `waiting_pos` and the waiting start time as they
were (the clock is 7, the stored start time 0). -/
theorem move_keeps_waiting_marker_at_one_length :
    waiting_car.move 2 4 7 1
      = some { unit_car (1 / 2) (1 / 2) 1 with
          prev_bcube := waiting_car.bcube, waiting_pos := 1 / 2 }
    ∧ |({ unit_car (1 / 2) (1 / 2) 1 with
          prev_bcube := waiting_car.bcube, waiting_pos := 1 / 2 } : car_t).bcube.d false true
        - waiting_car.waiting_pos|
      = ({ unit_car (1 / 2) (1 / 2) 1 with
          prev_bcube := waiting_car.bcube, waiting_pos := 1 / 2 } : car_t).get_length
    ∧ ({ unit_car (1 / 2) (1 / 2) 1 with
          prev_bcube := waiting_car.bcube, waiting_pos := 1 / 2 } : car_t).waiting_pos
      = waiting_car.waiting_pos
    ∧ ({ unit_car (1 / 2) (1 / 2) 1 with
          prev_bcube := waiting_car.bcube, waiting_pos := 1 / 2 } : car_t).waiting_start
      = waiting_car.waiting_start := by
  refine ⟨?_, ?_, rfl, rfl⟩
  · simp [car_t.move, waiting_car, unit_car, car_t.is_stopped, car_t.move_by, cube_t.d,
      cube_t.set_d, car_t.get_length]
    norm_num [abs_of_pos]
  · norm_num [waiting_car, unit_car, cube_t.d, car_t.get_length]

/-! ## Bounded walks along the links to the car in front -/

/-- On two cars that are each other's car in front the counting loop runs through all its
iterations. -/
theorem count_cars_in_front_loop_circular :
    ∀ (n : Nat) (num : Nat),
      car_t.count_cars_in_front_loop circular_cars { unit_car 0 0 1 with car_in_front := some 1 }
          ⟨0, 0, 0, 0, 0, 0⟩ n { unit_car 0 0 1 with car_in_front := some 1 } num = num + n
      ∧ car_t.count_cars_in_front_loop circular_cars { unit_car 0 0 1 with car_in_front := some 1 }
          ⟨0, 0, 0, 0, 0, 0⟩ n { unit_car 2 0 1 with car_in_front := some 0 } num = num + n := by
  intro n
  induction n with
  | zero => intro num; exact ⟨rfl, rfl⟩
  | succ n ih =>
    intro num
    constructor
    · rw [car_t.count_cars_in_front_loop]
      have h1 : (({ unit_car 0 0 1 with car_in_front := some 1 } : car_t).car_in_front.bind
          (fun f => circular_cars[f]?)) = some { unit_car 2 0 1 with car_in_front := some 0 } := rfl
      rw [h1]
      simp only
      rw [if_neg (by simp [cube_t.is_all_zeros]), (ih _).2,
        if_pos (by simp [unit_car])]
      omega
    · rw [car_t.count_cars_in_front_loop]
      have h1 : (({ unit_car 2 0 1 with car_in_front := some 0 } : car_t).car_in_front.bind
          (fun f => circular_cars[f]?)) = some { unit_car 0 0 1 with car_in_front := some 1 } := rfl
      rw [h1]
      simp only
      rw [if_neg (by simp [cube_t.is_all_zeros]), (ih _).1,
        if_pos (by simp [unit_car])]
      omega

/-- On the circular chain of two cars `count_cars_in_front` (with the all-zero range)
returns 50. -/
theorem count_cars_in_front_circular :
    car_t.count_cars_in_front circular_cars { unit_car 0 0 1 with car_in_front := some 1 }
      ⟨0, 0, 0, 0, 0, 0⟩ = 50 := by
  unfold car_t.count_cars_in_front
  rw [(count_cars_in_front_loop_circular 50 0).1]

/-- A car followed by a car that comes towards it on the same axis, which is followed by a
car going the same way as the first: the oncoming car is visited but neither counted nor
measured. -/
theorem cars_in_front_skip_oncoming :
    car_t.count_cars_in_front oncoming_cars { unit_car 0 0 1 with car_in_front := some 1 }
        ⟨0, 0, 0, 0, 0, 0⟩ = 1
    ∧ car_t.get_sum_len_space_for_cars_in_front oncoming_cars
        { unit_car 0 0 1 with car_in_front := some 1 } ⟨-10, 10, -10, 10, 0, 1⟩ = 15 / 4 := by
  constructor
  · simp [car_t.count_cars_in_front, car_t.count_cars_in_front_loop, oncoming_cars, unit_car,
      cube_t.is_all_zeros]
  · simp [car_t.get_sum_len_space_for_cars_in_front, car_t.get_sum_len_loop, oncoming_cars,
      unit_car, cube_t.contains_pt_xy, car_t.get_center, cube_t.get_cube_center,
      car_t.get_length, cube_t.d, MIN_CAR_STOP_SEP]
    norm_num

/-! ## The sort order as a strict weak ordering -/

/-- The comparator is the lexicographic order on the keys of `comp_key`. -/
theorem comp_car_road_then_pos_iff_key (camera_pos : point) (a b : car_t) :
    comp_car_road_then_pos camera_pos a b = true
      ↔ comp_key_lt (comp_key camera_pos a) (comp_key camera_pos b) := by
  unfold comp_car_road_then_pos comp_key_lt comp_key
  simp only
  by_cases hc : a.cur_city = b.cur_city
  · rw [if_neg (not_not.2 hc)]
    by_cases hp : a.is_parked = b.is_parked
    · rw [if_neg (not_not.2 hp)]
      by_cases hr : a.cur_road = b.cur_road
      · rw [if_neg (not_not.2 hr)]
        cases hpa : a.is_parked
        · have hpb : b.is_parked = false := by rw [← hp, hpa]
          simp [hc, hr, hpa, hpb]
        · have hpb : b.is_parked = true := by rw [← hp, hpa]
          simp [hc, hr, hpa, hpb]
      · rw [if_pos hr]
        have hp2 : ¬ (a.is_parked = false ∧ b.is_parked = true) := by
          rw [hp]; cases b.is_parked <;> simp
        simp [hc, hp, hr, hp2]
    · rw [if_pos hp]
      have : b.is_parked = true ↔ (a.is_parked = false ∧ b.is_parked = true) := by
        revert hp
        cases a.is_parked <;> cases b.is_parked <;> simp
      refine this.trans ⟨fun h => Or.inr ⟨hc, Or.inl h⟩, ?_⟩
      rintro (h | ⟨-, h | ⟨h, -⟩⟩)
      · exact absurd h (by rw [hc]; exact lt_irrefl _)
      · exact h
      · exact absurd h hp
  · rw [if_pos hc]
    have hlt : ¬ a.cur_city = b.cur_city := hc
    simp [hlt]

/-- The lexicographic order on keys is irreflexive. -/
theorem comp_key_lt_irrefl (k : Nat × Bool × Nat × ℚ) : ¬ comp_key_lt k k := by
  unfold comp_key_lt
  rintro (h | ⟨-, ⟨h1, h2⟩ | ⟨-, h | ⟨-, h⟩⟩⟩)
  · exact lt_irrefl _ h
  · rw [h1] at h2; cases h2
  · exact lt_irrefl _ h
  · exact lt_irrefl _ h

/-- The lexicographic order on keys is transitive. -/
theorem comp_key_lt_trans (k1 k2 k3 : Nat × Bool × Nat × ℚ) (h12 : comp_key_lt k1 k2)
    (h23 : comp_key_lt k2 k3) : comp_key_lt k1 k3 := by
  unfold comp_key_lt at *
  rcases h12 with h | ⟨e1, h12⟩
  · rcases h23 with h' | ⟨e2, -⟩
    · exact Or.inl (lt_trans h h')
    · exact Or.inl (e2 ▸ h)
  · rcases h23 with h' | ⟨e2, h23⟩
    · exact Or.inl (e1 ▸ h')
    · refine Or.inr ⟨e1.trans e2, ?_⟩
      rcases h12 with ⟨a1, a2⟩ | ⟨p1, h12⟩
      · rcases h23 with ⟨b1, b2⟩ | ⟨p2, -⟩
        · rw [a2] at b1; cases b1
        · exact Or.inl ⟨a1, p2 ▸ a2⟩
      · rcases h23 with ⟨b1, b2⟩ | ⟨p2, h23⟩
        · exact Or.inl ⟨p1 ▸ b1, b2⟩
        · refine Or.inr ⟨p1.trans p2, ?_⟩
          rcases h12 with h | ⟨r1, h12⟩
          · rcases h23 with h' | ⟨r2, -⟩
            · exact Or.inl (lt_trans h h')
            · exact Or.inl (r2 ▸ h)
          · rcases h23 with h' | ⟨r2, h23⟩
            · exact Or.inl (r1 ▸ h')
            · exact Or.inr ⟨r1.trans r2, lt_trans h12 h23⟩

/-- Two keys of which neither is below the other are equal. -/
theorem comp_key_eq_of_incomparable (k1 k2 : Nat × Bool × Nat × ℚ) (h12 : ¬ comp_key_lt k1 k2)
    (h21 : ¬ comp_key_lt k2 k1) : k1 = k2 := by
  unfold comp_key_lt at *
  obtain ⟨c1, p1, r1, q1⟩ := k1
  obtain ⟨c2, p2, r2, q2⟩ := k2
  simp only [not_or, not_and, not_lt] at h12 h21
  have hc : c1 = c2 := le_antisymm h21.1 h12.1
  subst hc
  have hp : p1 = p2 := by
    have a := (h12.2 rfl).1
    have b := (h21.2 rfl).1
    revert a b
    cases p1 <;> cases p2 <;> simp
  subst hp
  have hr : r1 = r2 := le_antisymm ((h21.2 rfl).2 rfl).1 ((h12.2 rfl).2 rfl).1
  subst hr
  have hq : q1 = q2 := le_antisymm (((h21.2 rfl).2 rfl).2 rfl) (((h12.2 rfl).2 rfl).2 rfl)
  subst hq
  rfl

/-- C27: for every camera position `comp_car_road_then_pos` is a strict weak ordering on
cars: it is irreflexive and transitive, and the relation "neither car is ordered before the
other" is transitive. -/
theorem comp_car_road_then_pos_strict_weak (camera_pos : point) :
    (∀ a : car_t, comp_car_road_then_pos camera_pos a a = false)
    ∧ (∀ a b c : car_t, comp_car_road_then_pos camera_pos a b = true →
        comp_car_road_then_pos camera_pos b c = true →
        comp_car_road_then_pos camera_pos a c = true)
    ∧ (∀ a b c : car_t,
        comp_car_road_then_pos camera_pos a b = false →
        comp_car_road_then_pos camera_pos b a = false →
        comp_car_road_then_pos camera_pos b c = false →
        comp_car_road_then_pos camera_pos c b = false →
        comp_car_road_then_pos camera_pos a c = false
        ∧ comp_car_road_then_pos camera_pos c a = false) := by
  have hf : ∀ a b : car_t, comp_car_road_then_pos camera_pos a b = false
      ↔ ¬ comp_key_lt (comp_key camera_pos a) (comp_key camera_pos b) := by
    intro a b
    rw [← comp_car_road_then_pos_iff_key, Bool.not_eq_true]
  refine ⟨fun a => (hf a a).2 (comp_key_lt_irrefl _), fun a b c hab hbc => ?_,
    fun a b c hab hba hbc hcb => ?_⟩
  · rw [comp_car_road_then_pos_iff_key] at hab hbc ⊢
    exact comp_key_lt_trans _ _ _ hab hbc
  · rw [hf] at hab hba hbc hcb ⊢
    rw [hf]
    have e1 := comp_key_eq_of_incomparable _ _ hab hba
    have e2 := comp_key_eq_of_incomparable _ _ hbc hcb
    rw [e1, e2]
    exact ⟨comp_key_lt_irrefl _, comp_key_lt_irrefl _⟩

/-! ## The assertions of the helicopter state machine -/

/-- After a completed loop body the updated helicopter satisfies the asserted conditions
with respect to the updated helipads. -/
theorem helicopter_next_frame_asserts (env : heli_env) (car_speed : ℚ) (h : helicopter_t)
    (hps : List helipad_t) (r : rand_gen_t) (h1 : helicopter_t) (hps1 : List helipad_t)
    (r1 : rand_gen_t) (hs : helicopter_next_frame env car_speed h hps r = some (h1, hps1, r1)) :
    heli_asserts h1 hps1 := by
  unfold helicopter_next_frame at hs
  by_cases hw : h.state = heli_state.STATE_WAIT
  · rw [if_pos hw] at hs
    unfold heli_wait_step at hs
    simp only at hs
    by_cases hv : h.velocity ≠ all_zeros
    · rw [if_pos hv] at hs; cases hs
    rw [if_neg hv] at hs
    have hv0 : h.velocity = all_zeros := not_not.1 hv
    by_cases h0 : h.wait_time = 0
    · rw [if_pos h0] at hs
      simp only [Option.some.injEq, Prod.mk.injEq] at hs
      obtain ⟨rfl, rfl, -⟩ := hs
      exact ⟨fun _ => hv0, fun hn => absurd hw hn⟩
    rw [if_neg h0] at hs
    by_cases hpos : h.wait_time - env.fticks / env.TICKS_PER_SECOND > 0
    · rw [if_pos hpos] at hs
      simp only [Option.some.injEq, Prod.mk.injEq] at hs
      obtain ⟨rfl, rfl, -⟩ := hs
      exact ⟨fun _ => hv0, fun hn => absurd hw hn⟩
    rw [if_neg hpos] at hs
    cases hch : choose_new_dest_hp hps h.dest_hp 20 r with
    | none => rw [hch] at hs; cases hs
    | some res =>
      obtain ⟨o, r2⟩ := res
      rw [hch] at hs
      cases o with
      | none =>
        simp only [Option.some.injEq, Prod.mk.injEq] at hs
        obtain ⟨rfl, rfl, -⟩ := hs
        exact ⟨fun _ => hv0, fun hn => absurd hw hn⟩
      | some k =>
        simp only at hs
        by_cases hd : ¬ h.dest_hp < hps.length
        · rw [if_pos hd] at hs; cases hs
        rw [if_neg hd] at hs
        cases hpk : hps[k]? with
        | none => rw [hpk] at hs; cases hs
        | some pk =>
          rw [hpk] at hs
          simp only [Option.map_eq_some', Prod.mk.injEq] at hs
          obtain ⟨zmax, -, rfl, rfl, -⟩ := hs
          refine ⟨(fun hst => by cases hst), fun _ => ⟨rfl, ?_, ?_⟩⟩
          · rw [update_helipad_length, update_helipad_length]
            exact (List.getElem?_eq_some.1 hpk).1
          · have hkd : h.dest_hp ≠ k :=
              fun he => (choose_new_dest_hp_avail hps h.dest_hp 20 r r2 k hch).1 he.symm
            refine ⟨{ pk with reserved := true }, ?_, rfl⟩
            show (update_helipad _ k _)[k]? = _
            rw [update_helipad_get, if_pos rfl, update_helipad_get, if_neg hkd, hpk]
            rfl
  · rw [if_neg hw] at hs
    by_cases hwt : h.wait_time ≠ 0
    · rw [if_pos hwt] at hs; cases hs
    rw [if_neg hwt] at hs
    have hwt0 : h.wait_time = 0 := not_not.1 hwt
    cases hpad : hps[h.dest_hp]? with
    | none => rw [hpad] at hs; cases hs
    | some pad =>
      rw [hpad] at hs
      simp only at hs
      by_cases hrs : (!pad.reserved) = true
      · rw [if_pos hrs] at hs; cases hs
      rw [if_neg hrs, Option.map_eq_some'] at hs
      have hres : pad.reserved = true := by simpa using hrs
      have hlen : h.dest_hp < hps.length := (List.getElem?_eq_some.1 hpad).1
      obtain ⟨res, hres2, hbl⟩ := hs
      obtain ⟨-, hbv, hbs, hbw, hbd, hb2⟩ := heli_blade_step_keeps env res
      rw [hbl] at hbv hbs hbw hbd hb2
      simp only at hbv hbs hbw hbd
      have hhps : hps1 = res.2.1 := by rw [← hb2]
      -- the moving branches that keep the helipads and do not enter WAIT
      have hkeep : res.2.1 = hps → res.1.wait_time = 0 → res.1.dest_hp = h.dest_hp →
          res.1.state ≠ heli_state.STATE_WAIT → heli_asserts h1 hps1 := by
        intro e1 e2 e3 e4
        rw [hhps, e1]
        refine ⟨fun hst => absurd (hbs ▸ hst) e4, fun _ => ⟨by rw [hbw, e2], ?_, ?_⟩⟩
        · rw [hbd, e3]; exact hlen
        · rw [hbd, e3]; exact ⟨pad, hpad, hres⟩
      by_cases htk : h.state = heli_state.STATE_TAKEOFF
      · rw [if_pos htk] at hres2
        unfold heli_takeoff_step at hres2
        simp only [rand_gen_t.rand_uniform] at hres2
        split_ifs at hres2 <;> simp only [Option.some.injEq] at hres2 <;> subst hres2
        · exact hkeep rfl hwt0 rfl (by simp)
        · exact hkeep rfl hwt0 rfl (by simp [htk])
      rw [if_neg htk] at hres2
      by_cases hld : h.state = heli_state.STATE_LAND
      · rw [if_pos hld] at hres2
        unfold heli_land_step at hres2
        simp only [rand_gen_t.rand_uniform] at hres2
        split_ifs at hres2 <;> simp only [Option.some.injEq] at hres2 <;> subst hres2
        · exact ⟨fun _ => hbv, fun hn => absurd hbs hn⟩
        · exact hkeep rfl hwt0 rfl (by simp [hld])
      rw [if_neg hld] at hres2
      unfold heli_fly_step at hres2
      simp only at hres2
      split_ifs at hres2 with hfly <;> simp only [Option.some.injEq] at hres2 <;> subst hres2
      · exact hkeep rfl hwt0 rfl (by simp)
      · exact hkeep rfl hwt0 rfl hw

/-- Each of the three effects of the loop body leaves the destination helipads of the other
helicopters and the number of helipads as they were. -/
theorem heli_step_spec_others (h h1 : helicopter_t) (others : List helicopter_t)
    (hps hps1 : List helipad_t) (hinv : heli_inv (h :: others) hps)
    (hspec : heli_step_spec h hps h1 hps1) :
    hps1.length = hps.length ∧ ∀ x ∈ others, hps1[x.dest_hp]? = hps[x.dest_hp]? := by
  obtain ⟨hJ1, hJ2, -⟩ := hinv
  simp only [List.map_cons, List.nodup_cons, List.mem_map, not_exists, not_and] at hJ1
  obtain ⟨hnot, -⟩ := hJ1
  have hne : ∀ x ∈ others, h.dest_hp ≠ x.dest_hp := fun x hx he => hnot x hx he.symm
  rcases hspec with ⟨-, rfl, -⟩ | ⟨-, -, rfl⟩ | ⟨-, -, -, ⟨pn, hpn, hav⟩, rfl⟩
  · exact ⟨rfl, fun _ _ => rfl⟩
  · refine ⟨update_helipad_length _ _ _, fun x hx => ?_⟩
    rw [update_helipad_get, if_neg (hne x hx)]
  · refine ⟨by rw [update_helipad_length, update_helipad_length], fun x hx => ?_⟩
    have hnew : h1.dest_hp ≠ x.dest_hp := by
      intro he
      obtain ⟨p, hp, hheld, -⟩ := hJ2 x (List.mem_cons_of_mem _ hx)
      rw [← he, hpn] at hp
      cases hp
      exact helipad_t.not_held_of_avail _ hav hheld
    rw [update_helipad_get, if_neg hnew, update_helipad_get, if_neg (hne x hx)]

/-- The asserted conditions of a helicopter depend on the helipads only through their number
and the destination helipad. -/
theorem heli_asserts_congr (x : helicopter_t) (hps hps1 : List helipad_t)
    (hlen : hps1.length = hps.length) (hget : hps1[x.dest_hp]? = hps[x.dest_hp]?)
    (ha : heli_asserts x hps) : heli_asserts x hps1 := by
  unfold heli_asserts at *
  rw [hlen, hget]
  exact ha

/-- The loop of `helicopters_next_frame`, run over the helicopters `rest` while the
helicopters `tail` are still to come, keeps the invariant of helicopters and helipads and
the asserted conditions of all helicopters. -/
theorem helicopters_loop_asserts (env : heli_env) (car_speed : ℚ) (tail : List helicopter_t) :
    ∀ (rest done : List helicopter_t) (hps : List helipad_t) (r : rand_gen_t)
      (m : heli_manager_t),
      helicopters_loop env car_speed rest done hps r = some m →
      heli_inv (done ++ (rest ++ tail)) hps →
      (∀ x ∈ done ++ (rest ++ tail), heli_asserts x hps) →
      heli_inv (m.helicopters ++ tail) m.helipads
      ∧ ∀ x ∈ m.helicopters ++ tail, heli_asserts x m.helipads := by
  intro rest
  induction rest with
  | nil =>
    intro done hps r m hm hinv ha
    simp only [helicopters_loop, Option.some.injEq] at hm
    subst hm
    exact ⟨by simpa using hinv, by simpa using ha⟩
  | cons h rest ih =>
    intro done hps r m hm hinv ha
    rw [helicopters_loop] at hm
    cases hb : helicopter_next_frame env car_speed h hps r with
    | none => rw [hb] at hm; exact absurd hm (by simp)
    | some res =>
      obtain ⟨h1, hps1, r1⟩ := res
      rw [hb] at hm
      simp only at hm
      have hspec := helicopter_next_frame_spec env car_speed h hps r h1 hps1 r1 hb
      have hmid : heli_inv (h :: (done ++ (rest ++ tail))) hps :=
        (heli_inv_middle done (rest ++ tail) h hps).1 (by simpa using hinv)
      have h2 := heli_inv_step h h1 (done ++ (rest ++ tail)) hps hps1 hmid hspec
      have h3 := (heli_inv_middle done (rest ++ tail) h1 hps1).2 h2
      obtain ⟨hlen, hoth⟩ := heli_step_spec_others h h1 (done ++ (rest ++ tail)) hps hps1 hmid hspec
      apply ih (done ++ [h1]) hps1 r1 m hm
      · simpa using h3
      · intro x hx
        simp only [List.mem_append, List.mem_singleton] at hx
        rcases hx with (hx | rfl) | hx
        · exact heli_asserts_congr x hps hps1 hlen
            (hoth x (List.mem_append_left _ hx))
            (ha x (List.mem_append_left _ hx))
        · exact helicopter_next_frame_asserts env car_speed h hps r x hps1 r1 hb
        · have hx2 : x ∈ rest ++ tail := List.mem_append.2 hx
          exact heli_asserts_congr x hps hps1 hlen
            (hoth x (List.mem_append_right _ hx2))
            (ha x (List.mem_append_right _ (List.mem_cons_of_mem _ hx2)))

/-- The helicopters created by the body of the loop of `add_helicopters` wait at rest. -/
theorem add_helicopters_body_waiting (env : heli_env) (k : Nat) (loc : cube_t)
    (m : heli_manager_t)
    (hm : ∀ h ∈ m.helicopters, h.state = heli_state.STATE_WAIT ∧ h.velocity = all_zeros) :
    ∀ h ∈ (add_helicopters_body env k loc m).helicopters,
      h.state = heli_state.STATE_WAIT ∧ h.velocity = all_zeros := by
  unfold add_helicopters_body
  simp only [rand_gen_t.rand_bool, rand_gen_t.rand, rand_gen_t.rand_dir_xy,
    rand_gen_t.rand_uniform, helicopter_t.create]
  split_ifs <;> intro h hh
  all_goals first
    | exact hm h hh
    | (simp only [List.mem_append, List.mem_singleton] at hh
       rcases hh with hh | rfl
       · exact hm h hh
       · exact ⟨rfl, rfl⟩)

/-- All helicopters created by `add_helicopters` wait at rest. -/
theorem add_helicopters_waiting (env : heli_env) (rgen : rand_gen_t) (hp_locs : List cube_t) :
    ∀ h ∈ (add_helicopters env rgen hp_locs).helicopters,
      h.state = heli_state.STATE_WAIT ∧ h.velocity = all_zeros := by
  have hloop : ∀ (locs : List cube_t) (k : Nat) (m : heli_manager_t),
      (∀ h ∈ m.helicopters, h.state = heli_state.STATE_WAIT ∧ h.velocity = all_zeros) →
      ∀ h ∈ (add_helicopters_loop env k locs m).helicopters,
        h.state = heli_state.STATE_WAIT ∧ h.velocity = all_zeros := by
    intro locs
    induction locs with
    | nil => intro k m hm; exact hm
    | cons loc rest ih =>
      intro k m hm
      rw [add_helicopters_loop]
      exact ih _ _ (add_helicopters_body_waiting env k loc m hm)
  unfold add_helicopters
  split_ifs
  · intro h hh; cases hh
  · exact hloop _ _ _ (fun h hh => by cases hh)

/-- In every reachable state of the helicopter manager every helicopter satisfies the
asserted conditions. -/
theorem heli_reachable_asserts (m : heli_manager_t) (hr : heli_reachable m) :
    ∀ x ∈ m.helicopters, heli_asserts x m.helipads := by
  induction hr with
  | init env rgen hp_locs =>
    intro x hx
    obtain ⟨hs, hv⟩ := add_helicopters_waiting env rgen hp_locs x hx
    exact ⟨fun _ => hv, fun hn => absurd hs hn⟩
  | step env car_speed m m2 hreach hstep ih =>
    have hinv := heli_reachable_inv m hreach
    unfold helicopters_next_frame at hstep
    split_ifs at hstep
    · simp only [Option.some.injEq] at hstep
      subst hstep
      exact ih
    · have := (helicopters_loop_asserts env car_speed [] m.helicopters [] m.helipads m.rgen m2
        hstep (by simpa using hinv) (by simpa using ih)).2
      simpa using this

/-- C28: in every state reachable from `add_helicopters` through completed
`helicopters_next_frame` steps, every helicopter in state WAIT has zero velocity and every
helicopter in another state (TAKEOFF, FLY or LAND) has `wait_time == 0`, a `dest_hp` that is
a valid helipad index, and a destination helipad whose `reserved` flag is set. The same
holds at the moment a further call of `helicopters_next_frame` reaches a helicopter in its
loop, for the helipads as left by the helicopters updated before it, so these assertions do
not fail. -/
theorem heli_asserts_hold_when_reachable (m : heli_manager_t) (hr : heli_reachable m) :
    (∀ h ∈ m.helicopters,
      (h.state = heli_state.STATE_WAIT → h.velocity = all_zeros)
      ∧ (h.state ≠ heli_state.STATE_WAIT →
          h.wait_time = 0 ∧ h.dest_hp < m.helipads.length
            ∧ ∃ p, m.helipads[h.dest_hp]? = some p ∧ p.reserved = true))
    ∧ (∀ (env : heli_env) (car_speed : ℚ) (pre post : List helicopter_t) (h : helicopter_t)
        (mid : heli_manager_t), m.helicopters = pre ++ h :: post →
        helicopters_loop env car_speed pre [] m.helipads m.rgen = some mid →
        (h.state = heli_state.STATE_WAIT → h.velocity = all_zeros)
        ∧ (h.state ≠ heli_state.STATE_WAIT →
            h.wait_time = 0 ∧ h.dest_hp < mid.helipads.length
              ∧ ∃ p, mid.helipads[h.dest_hp]? = some p ∧ p.reserved = true)) := by
  have ha := heli_reachable_asserts m hr
  have hinv := heli_reachable_inv m hr
  refine ⟨fun h hh => ha h hh, fun env car_speed pre post h mid hsplit hloop => ?_⟩
  have hmid := (helicopters_loop_asserts env car_speed (h :: post) pre [] m.helipads m.rgen mid
    hloop (by rw [List.nil_append, ← hsplit]; exact hinv)
    (by rw [List.nil_append, ← hsplit]; exact ha)).2
  exact hmid h (List.mem_append_right _ (List.mem_cons_self _ _))

/-- C28, instance: the state after `add_helicopters` and one call of
`helicopters_next_frame` on the sample data. -/
theorem heli_asserts_hold_when_reachable_witness :
    ∃ m2, helicopters_next_frame sample_heli_env 1
        (add_helicopters sample_heli_env sample_rgen sample_hp_locs) = some m2
      ∧ ∀ h ∈ m2.helicopters,
          (h.state = heli_state.STATE_WAIT → h.velocity = all_zeros)
          ∧ (h.state ≠ heli_state.STATE_WAIT →
              h.wait_time = 0 ∧ h.dest_hp < m2.helipads.length
                ∧ ∃ p, m2.helipads[h.dest_hp]? = some p ∧ p.reserved = true) := by
  obtain ⟨-, -, m2, hm2⟩ := sample_helicopters_step
  exact ⟨m2, hm2, (heli_asserts_hold_when_reachable m2
    (heli_reachable.step sample_heli_env 1 _ m2
      (heli_reachable.init sample_heli_env sample_rgen sample_hp_locs) hm2)).1⟩

/-! ## The road-scoped index of map mode on arrays with parked cars -/

/-- C29, failing inputs. On the sorted array that holds one parked car the map-mode loop
calls `back()` on the empty vector `car_blocks_by_road`. On the sorted array that holds a
moving car of city 0 and a parked car of city 1 the index is built, and the block of city 1
has `start = 1` and `first_parked = 2`, while the entry 1 of `cars_by_road`, which lies in
`[start, first_parked)`, covers the car with index 1, a parked car. -/
theorem cars_by_road_index_parked_first :
    (city_car 0 0 0 0).is_parked = true
    ∧ next_frame_cars_by_road 10 [city_car 0 0 0 0] = none
    ∧ (city_car 1 0 0 0).is_parked = true
    ∧ [city_car 0 0 (1 / 2) 1, city_car 1 0 0 0].Pairwise
        (fun c1 c2 => comp_car_road_then_pos all_zeros c2 c1 = false)
    ∧ next_frame_cars_by_road 10 [city_car 0 0 (1 / 2) 1, city_car 1 0 0 0]
      = some ([⟨0, 0, 1⟩, ⟨1, 1, 2⟩, ⟨2, 0, 0⟩],
          [⟨(city_car 0 0 (1 / 2) 1).bcube, 0⟩, ⟨(city_car 1 0 0 0).bcube, 1⟩,
           ⟨⟨0, 0, 0, 0, 0, 0⟩, 2⟩]) := by
  refine ⟨?_, ?_, ?_, ?_, ?_⟩
  · simp [city_car, unit_car, car_t.is_parked]
  · simp [next_frame_cars_by_road, cars_by_road_loop, city_car, unit_car, car_t.is_parked]
  · simp [city_car, unit_car, car_t.is_parked]
  · simp [comp_car_road_then_pos, city_car, unit_car, car_t.is_parked]
  · simp [next_frame_cars_by_road, cars_by_road_loop, city_car, unit_car, car_t.is_parked,
      set_back_first_parked, car_block_t.create]

/-! ## Parked cars in the collision pass -/

/-- The rounding to an integer returns the floor or the next integer, at most 1/2 away. -/
theorem round_half_even_bounds (x : ℚ) :
    (⌊x⌋ : ℤ) ≤ round_half_even x ∧ round_half_even x ≤ ⌊x⌋ + 1
    ∧ |(round_half_even x : ℚ) - x| ≤ 1 / 2 := by
  have h1 := Int.floor_le x
  have h2 := Int.lt_floor_add_one x
  unfold round_half_even
  split_ifs with ha hb hc
  · refine ⟨le_refl _, by omega, ?_⟩
    rw [abs_le]
    constructor <;> linarith
  · refine ⟨by omega, le_refl _, ?_⟩
    rw [abs_le]
    push_cast
    constructor <;> linarith
  · refine ⟨le_refl _, by omega, ?_⟩
    rw [abs_le]
    constructor <;> linarith
  · refine ⟨by omega, le_refl _, ?_⟩
    rw [abs_le]
    push_cast
    constructor <;> linarith

/-- An integer is not changed by the rounding to an integer. -/
theorem round_half_even_intCast (n : ℤ) : round_half_even (n : ℚ) = n := by
  unfold round_half_even
  rw [Int.floor_intCast, sub_self, if_pos (by norm_num)]

/-- A rational within less than 1/2 of an integer rounds to that integer. -/
theorem round_half_even_eq (x : ℚ) (n : ℤ) (h : |x - n| < 1 / 2) : round_half_even x = n := by
  rw [abs_lt] at h
  obtain ⟨h1, h2⟩ := h
  by_cases hn : (n : ℚ) ≤ x
  · have hf : ⌊x⌋ = n := Int.floor_eq_iff.2 ⟨hn, by linarith⟩
    unfold round_half_even
    rw [hf, if_pos (by linarith)]
  · have hf : ⌊x⌋ = n - 1 := Int.floor_eq_iff.2 ⟨by push_cast; linarith, by push_cast; linarith⟩
    unfold round_half_even
    rw [hf, if_neg (by push_cast; linarith), if_pos (by push_cast; linarith)]
    omega

/-- A rational half way between two integers rounds to the even one. -/
theorem round_half_even_tie (x : ℚ) (n : ℤ) (h : x = n + 1 / 2) :
    round_half_even x = if n % 2 = 0 then n else n + 1 := by
  have hf : ⌊x⌋ = n := Int.floor_eq_iff.2 ⟨by linarith, by linarith⟩
  unfold round_half_even
  rw [hf, if_neg (by linarith), if_neg (by linarith)]

/-- The rounding to an integer does not pass an integer bound on the magnitude. -/
theorem round_half_even_abs_le (x : ℚ) (N : ℤ) (h : |x| ≤ N) : |round_half_even x| ≤ N := by
  obtain ⟨h1, h2, -⟩ := round_half_even_bounds x
  rw [abs_le] at h ⊢
  have hf1 : -N ≤ ⌊x⌋ := Int.le_floor.2 (by push_cast; exact h.1)
  by_cases hx : (⌊x⌋ : ℚ) = x
  · have : round_half_even x = ⌊x⌋ := by
      rw [← hx, round_half_even_intCast, Int.floor_intCast]
    rw [this]
    exact ⟨hf1, by exact_mod_cast (hx ▸ h.2 : ((⌊x⌋ : ℤ) : ℚ) ≤ N)⟩
  · have hlt : (⌊x⌋ : ℚ) < x := lt_of_le_of_ne (Int.floor_le x) hx
    have : ⌊x⌋ < N := by exact_mod_cast lt_of_lt_of_le hlt h.2
    exact ⟨by omega, by omega⟩

/-- The binary logarithm of a positive rational with `2 ^ k <= x < 2 ^ (k + 1)` is `k`. -/
theorem int_log_two_eq (x : ℚ) (k : ℤ) (h1 : (2 : ℚ) ^ k ≤ x) (h2 : x < (2 : ℚ) ^ (k + 1)) :
    Int.log 2 x = k := by
  have hx : 0 < x := lt_of_lt_of_le (by positivity) h1
  have a : k ≤ Int.log 2 x := by
    rw [← Int.zpow_le_iff_le_log (by norm_num) hx]
    exact_mod_cast h1
  have b : Int.log 2 x < k + 1 := by
    rw [← Int.lt_zpow_iff_log_lt (by norm_num) hx]
    exact_mod_cast h2
  omega

/-- A positive rational lies between the powers of two given by its binary logarithm. -/
theorem int_log_two_bounds (x : ℚ) (hx : 0 < x) :
    (2 : ℚ) ^ Int.log 2 x ≤ x ∧ x < (2 : ℚ) ^ (Int.log 2 x + 1) := by
  constructor
  · have h : ((2 : ℕ) : ℚ) ^ Int.log 2 x ≤ x :=
      (Int.zpow_le_iff_le_log (by norm_num) hx).2 (le_refl _)
    exact_mod_cast h
  · have h : x < ((2 : ℕ) : ℚ) ^ (Int.log 2 x + 1) :=
      (Int.lt_zpow_iff_log_lt (by norm_num) hx).2 (by omega)
    exact_mod_cast h

/-- Evaluation of the rounding at a value whose binade is known. -/
theorem round_float_eval (p : ℕ) (emin : ℤ) (x : ℚ) (k : ℤ) (h1 : (2 : ℚ) ^ k ≤ |x|)
    (h2 : |x| < (2 : ℚ) ^ (k + 1)) :
    round_float p emin x
      = (round_half_even (x / 2 ^ max (k - ((p : ℤ) - 1)) emin) : ℚ)
          * 2 ^ max (k - ((p : ℤ) - 1)) emin := by
  have hx : x ≠ 0 := by
    intro h
    rw [h, abs_zero] at h1
    exact absurd h1 (not_le.2 (by positivity))
  unfold round_float
  rw [if_neg hx, int_log_two_eq |x| k h1 h2]

/-- The rounding error is at most half a unit in the last place. -/
theorem round_float_error (p : ℕ) (emin : ℤ) (x : ℚ) :
    |round_float p emin x - x| ≤ |x| * 2 ^ (-(p : ℤ)) + 2 ^ (emin - 1) := by
  by_cases hx : x = 0
  · rw [hx]
    simp only [round_float, if_true, sub_self, abs_zero, zero_mul, zero_add]
    positivity
  have hpos : 0 < |x| := abs_pos.2 hx
  obtain ⟨hl, -⟩ := int_log_two_bounds |x| hpos
  unfold round_float
  rw [if_neg hx]
  generalize Int.log 2 |x| = k at hl
  obtain ⟨-, -, hr⟩ := round_half_even_bounds (x / 2 ^ max (k - ((p : ℤ) - 1)) emin)
  generalize hE : max (k - ((p : ℤ) - 1)) emin = e at hr
  have he : (0 : ℚ) < 2 ^ e := by positivity
  have hfac : (round_half_even (x / 2 ^ e) : ℚ) * 2 ^ e - x
      = ((round_half_even (x / 2 ^ e) : ℚ) - x / 2 ^ e) * 2 ^ e := by
    field_simp
  rw [hfac, abs_mul, abs_of_pos he]
  have hmain : |(round_half_even (x / 2 ^ e) : ℚ) - x / 2 ^ e| * 2 ^ e ≤ 1 / 2 * 2 ^ e :=
    mul_le_mul_of_nonneg_right hr (le_of_lt he)
  have hle : (2 : ℚ) ^ e ≤ 2 ^ (k - ((p : ℤ) - 1)) + 2 ^ emin := by
    rw [← hE]
    rcases max_cases (k - ((p : ℤ) - 1)) emin with ⟨h, -⟩ | ⟨h, -⟩
    · rw [h]
      have : (0 : ℚ) < 2 ^ emin := by positivity
      linarith
    · rw [h]
      have : (0 : ℚ) < 2 ^ (k - ((p : ℤ) - 1)) := by positivity
      linarith
  have h1 : (2 : ℚ) ^ (k - ((p : ℤ) - 1)) = 2 ^ k * 2 ^ (-(p : ℤ)) * 2 := by
    rw [show k - ((p : ℤ) - 1) = k + -(p : ℤ) + 1 by ring, zpow_add₀ (by norm_num),
      zpow_add₀ (by norm_num), zpow_one]
  have h2 : (2 : ℚ) ^ emin = 2 ^ (emin - 1) * 2 := by
    rw [zpow_sub_one₀ (by norm_num)]
    field_simp
  have h3 : (2 : ℚ) ^ k * 2 ^ (-(p : ℤ)) ≤ |x| * 2 ^ (-(p : ℤ)) :=
    mul_le_mul_of_nonneg_right hl (by positivity)
  rw [h1, h2] at hle
  linarith

/-- A number with at most `p` significant bits and a unit in the last place of at least
`2 ^ emin` is not changed by the rounding. -/
theorem round_float_exact (p : ℕ) (emin : ℤ) (m e : ℤ) (hm : |m| < 2 ^ p) (he : emin ≤ e) :
    round_float p emin ((m : ℚ) * 2 ^ e) = (m : ℚ) * 2 ^ e := by
  by_cases hm0 : m = 0
  · rw [hm0]
    simp [round_float]
  have hx : (m : ℚ) * 2 ^ e ≠ 0 := mul_ne_zero (by exact_mod_cast hm0) (by positivity)
  have hpos : 0 < |(m : ℚ) * 2 ^ e| := abs_pos.2 hx
  obtain ⟨hl, -⟩ := int_log_two_bounds _ hpos
  unfold round_float
  rw [if_neg hx]
  generalize Int.log 2 |(m : ℚ) * 2 ^ e| = k at hl ⊢
  have hk : k < p + e := by
    have h1 : |(m : ℚ) * 2 ^ e| < 2 ^ ((p : ℤ) + e) := by
      rw [abs_mul, abs_of_pos (by positivity : (0 : ℚ) < 2 ^ e), zpow_add₀ (by norm_num)]
      apply mul_lt_mul_of_pos_right _ (by positivity)
      have : ((|m| : ℤ) : ℚ) < ((2 ^ p : ℤ) : ℚ) := by exact_mod_cast hm
      rw [zpow_natCast]
      push_cast at this
      exact this
    have h2 : (2 : ℚ) ^ k < 2 ^ ((p : ℤ) + e) := lt_of_le_of_lt hl h1
    exact (zpow_lt_zpow_iff_right₀ (by norm_num : (1 : ℚ) < 2)).1 h2
  have hE : max (k - ((p : ℤ) - 1)) emin ≤ e := max_le (by omega) he
  generalize max (k - ((p : ℤ) - 1)) emin = E at hE
  obtain ⟨n, hn⟩ : ∃ n : ℕ, e = E + n := ⟨(e - E).toNat, by omega⟩
  have hdiv : (m : ℚ) * 2 ^ e / 2 ^ E = ((m * 2 ^ n : ℤ) : ℚ) := by
    rw [hn, zpow_add₀ (by norm_num), zpow_natCast]
    push_cast
    field_simp
    ring
  rw [hdiv, round_half_even_intCast, hn, zpow_add₀ (by norm_num), zpow_natCast]
  push_cast
  ring

/-- The result of the rounding is a number that the rounding does not change. -/
theorem round_float_idem (p : ℕ) (emin : ℤ) (x : ℚ) (hp : 1 ≤ p) :
    round_float p emin (round_float p emin x) = round_float p emin x := by
  by_cases hx : x = 0
  · rw [hx]
    simp [round_float]
  have hpos : 0 < |x| := abs_pos.2 hx
  obtain ⟨-, hu⟩ := int_log_two_bounds _ hpos
  have hdef : round_float p emin x
      = (round_half_even (x / 2 ^ max (Int.log 2 |x| - ((p : ℤ) - 1)) emin) : ℚ)
          * 2 ^ max (Int.log 2 |x| - ((p : ℤ) - 1)) emin := by
    unfold round_float
    rw [if_neg hx]
  rw [hdef]
  generalize Int.log 2 |x| = k at hu
  have hE1 : k - ((p : ℤ) - 1) ≤ max (k - ((p : ℤ) - 1)) emin := le_max_left _ _
  have hE2 : emin ≤ max (k - ((p : ℤ) - 1)) emin := le_max_right _ _
  generalize max (k - ((p : ℤ) - 1)) emin = E at hE1 hE2
  have hy : |x / 2 ^ E| ≤ ((2 ^ p : ℤ) : ℚ) := by
    rw [abs_div, abs_of_pos (by positivity : (0 : ℚ) < 2 ^ E), div_le_iff₀ (by positivity)]
    push_cast
    rw [← zpow_natCast, ← zpow_add₀ (by norm_num)]
    refine le_trans (le_of_lt hu) (zpow_le_zpow_right₀ (by norm_num) (by omega))
  have hm := round_half_even_abs_le _ _ hy
  generalize round_half_even (x / 2 ^ E) = m at hm
  rcases lt_or_eq_of_le hm with hlt | heq
  · exact round_float_exact p emin m E hlt hE2
  · -- |m| = 2^p : write m * 2^E = (m / 2) * 2^(E+1)
    obtain ⟨q, hq⟩ : ∃ q : ℕ, p = q + 1 := ⟨p - 1, by omega⟩
    have hm2 : ∃ m2 : ℤ, m = 2 * m2 ∧ |m2| < 2 ^ p := by
      rcases abs_cases m with ⟨h1, -⟩ | ⟨h1, -⟩
      · refine ⟨2 ^ q, ?_, ?_⟩
        · rw [← h1, heq, hq, pow_succ]; ring
        · rw [abs_of_pos (by positivity), hq, pow_succ]
          have : (0 : ℤ) < 2 ^ q := by positivity
          omega
      · refine ⟨-2 ^ q, ?_, ?_⟩
        · have : m = -(2 ^ p) := by omega
          rw [this, hq, pow_succ]; ring
        · rw [abs_neg, abs_of_pos (by positivity), hq, pow_succ]
          have : (0 : ℤ) < 2 ^ q := by positivity
          omega
    obtain ⟨m2, hm2e, hm2l⟩ := hm2
    have hre : (m : ℚ) * 2 ^ E = (m2 : ℚ) * 2 ^ (E + 1) := by
      rw [hm2e, zpow_add₀ (by norm_num), zpow_one]
      push_cast
      ring
    rw [hre]
    exact round_float_exact p emin m2 (E + 1) hm2l (by omega)

/-- The rounding keeps the sign of a non-negative number. -/
theorem round_float_nonneg (p : ℕ) (emin : ℤ) (x : ℚ) (hx : 0 ≤ x) : 0 ≤ round_float p emin x := by
  unfold round_float
  split_ifs
  · exact le_refl _
  · apply mul_nonneg _ (by positivity)
    have hq : (0 : ℚ) ≤ x / 2 ^ max (Int.log 2 |x| - ((p : ℤ) - 1)) emin :=
      div_nonneg hx (by positivity)
    have hf : (0 : ℤ) ≤ ⌊x / 2 ^ max (Int.log 2 |x| - ((p : ℤ) - 1)) emin⌋ := Int.floor_nonneg.2 hq
    have := (round_half_even_bounds (x / 2 ^ max (Int.log 2 |x| - ((p : ℤ) - 1)) emin)).1
    exact_mod_cast le_trans hf this

/-- Zero is a `float`. -/
theorem f32_zero : f32 0 = 0 := by simp [f32, round_float]

/-- Zero is a `double`. -/
theorem f64_zero : f64 0 = 0 := by simp [f64, round_float]

/-- The error of a rounding to `float` is at most `2 ^ -24` times the magnitude of the
rounded number, plus `2 ^ -150` for a result in the subnormal range. -/
theorem f32_error (x : ℚ) : |f32 x - x| ≤ |x| / 2 ^ 24 + 1 / 2 ^ 150 := by
  have h := round_float_error 24 (-149) x
  have e1 : (2 : ℚ) ^ (-((24 : ℕ) : ℤ)) = 1 / 2 ^ 24 := by norm_num
  have e2 : (2 : ℚ) ^ ((-149 : ℤ) - 1) = 1 / 2 ^ 150 := by norm_num
  rw [e1, e2] at h
  unfold f32
  linarith

/-- A number `m * 2 ^ e` with `|m| < 2 ^ 24` and `e >= -149` is a `float`. -/
theorem f32_exact (x : ℚ) (m e : ℤ) (hx : x = (m : ℚ) * 2 ^ e) (hm : |m| < 2 ^ 24)
    (he : -149 ≤ e) : f32 x = x := by
  rw [hx]
  exact round_float_exact 24 (-149) m e hm he

/-- A number `m * 2 ^ e` with `|m| < 2 ^ 53` and `e >= -1074` is a `double`. -/
theorem f64_exact (x : ℚ) (m e : ℤ) (hx : x = (m : ℚ) * 2 ^ e) (hm : |m| < 2 ^ 53)
    (he : -1074 ≤ e) : f64 x = x := by
  rw [hx]
  exact round_float_exact 53 (-1074) m e hm he

/-- A rounding to `float` returns a `float`. -/
theorem f32_idem (x : ℚ) : f32 (f32 x) = f32 x := round_float_idem 24 (-149) x (by norm_num)

/-- A rounding to `double` returns a `double`. -/
theorem f64_idem (x : ℚ) : f64 (f64 x) = f64 x := round_float_idem 53 (-1074) x (by norm_num)

/-- The rounding to `float` of a non-negative number is not negative. -/
theorem f32_nonneg (x : ℚ) (hx : 0 ≤ x) : 0 ≤ f32 x := round_float_nonneg 24 (-149) x hx

/-- Evaluation of a rounding to `float`: for `2 ^ k <= |x| < 2 ^ (k + 1)` and
`e = max (k - 23) (-149)`, a value `x` whose quotient by `2 ^ e` is within less than 1/2 of
the integer `n` rounds to `n * 2 ^ e`. -/
theorem f32_eval (x : ℚ) (k e n : ℤ) (h1 : (2 : ℚ) ^ k ≤ |x|) (h2 : |x| < (2 : ℚ) ^ (k + 1))
    (he : e = max (k - 23) (-149)) (hn : |x / 2 ^ e - n| < 1 / 2) :
    f32 x = (n : ℚ) * 2 ^ e := by
  unfold f32
  rw [round_float_eval 24 (-149) x k h1 h2]
  have he2 : max (k - (((24 : ℕ) : ℤ) - 1)) (-149) = e := by
    rw [he]
    norm_num
  rw [he2, round_half_even_eq _ n hn]

/-- Evaluation of a rounding to `float` at a tie: a value `x` whose quotient by `2 ^ e` is
half way between the even integer `n` and `n + 1` rounds to `n * 2 ^ e`. -/
theorem f32_eval_tie_even (x : ℚ) (k e n : ℤ) (h1 : (2 : ℚ) ^ k ≤ |x|)
    (h2 : |x| < (2 : ℚ) ^ (k + 1)) (he : e = max (k - 23) (-149))
    (hn : x / 2 ^ e = n + 1 / 2) (heven : n % 2 = 0) :
    f32 x = (n : ℚ) * 2 ^ e := by
  unfold f32
  rw [round_float_eval 24 (-149) x k h1 h2]
  have he2 : max (k - (((24 : ℕ) : ℤ) - 1)) (-149) = e := by
    rw [he]
    norm_num
  rw [he2, round_half_even_tie _ n hn, if_pos heven]

/-- Evaluation of a rounding to `float` at a tie: a value `x` whose quotient by `2 ^ e` is
half way between the odd integer `n` and `n + 1` rounds to `(n + 1) * 2 ^ e`. -/
theorem f32_eval_tie_odd (x : ℚ) (k e n : ℤ) (h1 : (2 : ℚ) ^ k ≤ |x|)
    (h2 : |x| < (2 : ℚ) ^ (k + 1)) (he : e = max (k - 23) (-149))
    (hn : x / 2 ^ e = n + 1 / 2) (hodd : n % 2 ≠ 0) :
    f32 x = ((n + 1 : ℤ) : ℚ) * 2 ^ e := by
  unfold f32
  rw [round_float_eval 24 (-149) x k h1 h2]
  have he2 : max (k - (((24 : ℕ) : ℤ) - 1)) (-149) = e := by
    rw [he]
    norm_num
  rw [he2, round_half_even_tie _ n hn, if_neg hodd]

/-- Evaluation of a rounding to `double`. -/
theorem f64_eval (x : ℚ) (k e n : ℤ) (h1 : (2 : ℚ) ^ k ≤ |x|) (h2 : |x| < (2 : ℚ) ^ (k + 1))
    (he : e = max (k - 52) (-1074)) (hn : |x / 2 ^ e - n| < 1 / 2) :
    f64 x = (n : ℚ) * 2 ^ e := by
  unfold f64
  rw [round_float_eval 53 (-1074) x k h1 h2]
  have he2 : max (k - (((53 : ℕ) : ℤ) - 1)) (-1074) = e := by
    rw [he]
    norm_num
  rw [he2, round_half_even_eq _ n hn]

/-- The `float` nearest to 0.3. -/
theorem f32_three_tenths : f32 (3 / 10) = 10066330 / 2 ^ 25 := by
  rw [f32_eval (3 / 10) (-2) (-25) 10066330 (by norm_num [abs_of_pos]) (by norm_num [abs_of_pos])
    (by norm_num) (by norm_num [abs_lt])]
  norm_num

/-- The sum of 1 and of the `float` nearest to 0.3 is half way between two `float` values and
rounds to the lower one. -/
theorem f32_one_add_three_tenths :
    f32 (1 + 10066330 / 2 ^ 25) = 43620760 / 2 ^ 25 := by
  rw [f32_eval_tie_even (1 + 10066330 / 2 ^ 25) 0 (-23) 10905190 (by norm_num [abs_of_pos])
    (by norm_num [abs_of_pos]) (by norm_num) (by norm_num) (by norm_num)]
  norm_num

/-- The error of a rounding to `float` in terms of the rounded value. -/
theorem f32_error_of_result (x : ℚ) : |f32 x - x| ≤ |f32 x| / 2 ^ 23 + 1 / 2 ^ 149 := by
  have h := f32_error x
  have h2 : |x| ≤ |f32 x| + |f32 x - x| := by
    have := abs_sub_abs_le_abs_sub x (f32 x)
    rw [abs_sub_comm x (f32 x)] at this
    linarith
  have h3 : (0 : ℚ) ≤ |f32 x - x| := abs_nonneg _
  have h4 : (0 : ℚ) ≤ |f32 x| := abs_nonneg _
  have h5 : |x| / 2 ^ 24 ≤ (|f32 x| + |f32 x - x|) / 2 ^ 24 :=
    div_le_div_of_nonneg_right h2 (by positivity)
  have e1 : (|f32 x| + |f32 x - x|) / 2 ^ 24 = |f32 x| / 2 ^ 24 + |f32 x - x| / 2 ^ 24 := by ring
  have e2 : |f32 x| / 2 ^ 23 = 2 * (|f32 x| / 2 ^ 24) := by ring
  have e3 : (1 : ℚ) / 2 ^ 149 = 2 * (1 / 2 ^ 150) := by norm_num
  have e4 : |f32 x - x| / 2 ^ 24 ≤ |f32 x - x| / 2 := by
    apply div_le_div_of_nonneg_left h3 (by norm_num) (by norm_num)
  rw [e2, e3]
  linarith

/-- The error of a rounding to `float` of a number of magnitude at most `X`. -/
theorem f32_error_le (x X : ℚ) (hX : |x| ≤ X) : |f32 x - x| ≤ X / 2 ^ 24 + 1 / 2 ^ 150 := by
  have h := f32_error x
  have : |x| / 2 ^ 24 ≤ X / 2 ^ 24 := div_le_div_of_nonneg_right hX (by positivity)
  linarith

/-- The number 2 is a `float`. -/
theorem f32_two : f32 2 = 2 := f32_exact 2 1 1 (by norm_num) (by norm_num) (by norm_num)

/-- The number 1/2 is a `float`. -/
theorem f32_half : f32 (1 / 2) = 1 / 2 :=
  f32_exact (1 / 2) 1 (-1) (by norm_num) (by norm_num) (by norm_num)

/-- The `float` nearest to 0.3 is a `float`. -/
theorem f32_three_tenths_exact : f32 (10066330 / 2 ^ 25) = 10066330 / 2 ^ 25 :=
  f32_exact _ 10066330 (-25) (by norm_num) (by norm_num) (by norm_num)

/-- The number 1 is a `float`. -/
theorem f32_one : f32 1 = 1 := f32_exact 1 1 0 (by norm_num) (by norm_num) (by norm_num)

/-- The number 1 is a `double`. -/
theorem f64_one : f64 1 = 1 := f64_exact 1 1 0 (by norm_num) (by norm_num) (by norm_num)

/-- The `double` nearest to 0.2. -/
theorem f64_one_fifth : f64 (1 / 5) = 7205759403792794 / 2 ^ 55 := by
  rw [f64_eval (1 / 5) (-3) (-55) 7205759403792794 (by norm_num [abs_of_pos])
    (by norm_num [abs_of_pos]) (by norm_num) (by norm_num [abs_lt])]
  norm_num

/-- The `float` nearest to the `double` nearest to 0.2. -/
theorem f32_f64_one_fifth : f32 (7205759403792794 / 2 ^ 55) = 13421773 / 2 ^ 26 := by
  rw [f32_eval (7205759403792794 / 2 ^ 55) (-3) (-26) 13421773 (by norm_num [abs_of_pos])
    (by norm_num [abs_of_pos]) (by norm_num) (by norm_num [abs_lt])]
  norm_num

/-! ## Properties of `car_t::move` with rounding -/

/-- The box after `move_by` with rounding: the two edges of the travel axis are the rounded
sums, the other edges are unchanged. -/
theorem car_t.move_by_f32_bcube (c : car_t) (v : ℚ) :
    (c.move_by_f32 v).bcube.d c.dim false = f32 (c.bcube.d c.dim false + v)
    ∧ (c.move_by_f32 v).bcube.d c.dim true = f32 (c.bcube.d c.dim true + v)
    ∧ (c.move_by_f32 v).bcube.d (!c.dim) false = c.bcube.d (!c.dim) false
    ∧ (c.move_by_f32 v).bcube.d (!c.dim) true = c.bcube.d (!c.dim) true
    ∧ (c.move_by_f32 v).bcube.z1 = c.bcube.z1
    ∧ (c.move_by_f32 v).bcube.z2 = c.bcube.z2 := by
  cases hd : c.dim <;>
    simp [car_t.move_by_f32, cube_t.d, cube_t.set_d, hd]

/-- Function `car_t::move` with rounding in terms of the distance `car_t.move_dist_f32`. -/
theorem car_t.move_f32_eq (conn_mult road_width tfticks : ℚ) (c : car_t) (speed_mult : ℚ) :
    c.move_f32 conn_mult road_width tfticks speed_mult =
      if (c.destroyed || c.stopped_at_light || c.is_stopped) = true then
        some { c with prev_bcube := c.bcube }
      else if ¬ (speed_mult ≥ 0 ∧ c.cur_speed > 0 ∧ c.cur_speed ≤ f32 (conn_mult * c.max_speed))
      then none
      else if |f32 ((c.move_by_f32 (if c.dir then c.move_dist_f32 road_width speed_mult
                  else -c.move_dist_f32 road_width speed_mult)).bcube.d c.dim c.dir
                - c.waiting_pos)|
                > (c.move_by_f32 (if c.dir then c.move_dist_f32 road_width speed_mult
                  else -c.move_dist_f32 road_width speed_mult)).get_length_f32 then
        some { c.move_by_f32 (if c.dir then c.move_dist_f32 road_width speed_mult
                  else -c.move_dist_f32 road_width speed_mult) with
                prev_bcube := c.bcube,
                waiting_pos := (c.move_by_f32 (if c.dir then c.move_dist_f32 road_width speed_mult
                  else -c.move_dist_f32 road_width speed_mult)).bcube.d c.dim c.dir,
                waiting_start := tfticks }
      else
        some { c.move_by_f32 (if c.dir then c.move_dist_f32 road_width speed_mult
                  else -c.move_dist_f32 road_width speed_mult) with prev_bcube := c.bcube } := by
  rfl

/-- The travel distance of the unit car with speed 0.3 (as a `float`) on a road of width 2:
the speed itself. -/
theorem unit_car_move_dist_f32 :
    (unit_car 0 (10066330 / 2 ^ 25) 1).move_dist_f32 2 1 = 10066330 / 2 ^ 25 := by
  have h1 : (unit_car 0 (10066330 / 2 ^ 25) 1).dz = 0 := rfl
  have h2 : (unit_car 0 (10066330 / 2 ^ 25) 1).cur_speed = 10066330 / 2 ^ 25 := rfl
  unfold car_t.move_dist_f32
  rw [if_neg (not_not.2 h1), h2, mul_one, f32_three_tenths_exact,
    show ((1 : ℚ) / 4 * 2) = 1 / 2 by norm_num, f32_half]
  norm_num

/-- Evaluation of `car_t::move` with rounding on the unit car at `[0, 1]` with speed 0.3 (as
a `float`), multiplier 1 and road width 2: the low edge becomes `0.3f` and the high edge the
rounded sum `1 + 0.3f`. -/
theorem unit_car_move_f32 :
    (unit_car 0 (10066330 / 2 ^ 25) 1).move_f32 2 2 0 1
      = some ((unit_car 0 (10066330 / 2 ^ 25) 1).set_bcube
          ⟨10066330 / 2 ^ 25, 43620760 / 2 ^ 25, 0, 1, 0, 1⟩) := by
  have hb : (unit_car 0 (10066330 / 2 ^ 25) 1).move_by_f32 (10066330 / 2 ^ 25)
      = (unit_car 0 (10066330 / 2 ^ 25) 1).set_bcube
          ⟨10066330 / 2 ^ 25, 43620760 / 2 ^ 25, 0, 1, 0, 1⟩ := by
    simp only [car_t.move_by_f32, unit_car, cube_t.d, cube_t.set_d, car_t.set_bcube, zero_add,
      f32_three_tenths_exact, f32_one_add_three_tenths]
  rw [car_t.move_f32_eq, if_neg (by simp [unit_car, car_t.is_stopped]),
    if_neg (by
      rw [not_not]
      refine ⟨by norm_num, by norm_num [unit_car], ?_⟩
      simp only [unit_car, mul_one, f32_two]
      norm_num)]
  rw [unit_car_move_dist_f32]
  have hdir : (unit_car 0 (10066330 / 2 ^ 25) 1).dir = true := rfl
  simp only [hdir, if_true, hb]
  have hpos : ((unit_car 0 (10066330 / 2 ^ 25) 1).set_bcube
      ⟨10066330 / 2 ^ 25, 43620760 / 2 ^ 25, 0, 1, 0, 1⟩).bcube.d
        (unit_car 0 (10066330 / 2 ^ 25) 1).dim true = 43620760 / 2 ^ 25 := rfl
  have hw : (unit_car 0 (10066330 / 2 ^ 25) 1).waiting_pos = 0 + 1 := rfl
  have hlen : ((unit_car 0 (10066330 / 2 ^ 25) 1).set_bcube
      ⟨10066330 / 2 ^ 25, 43620760 / 2 ^ 25, 0, 1, 0, 1⟩).get_length_f32
        = 33554430 / 2 ^ 25 := by
    simp only [car_t.get_length_f32, car_t.set_bcube, unit_car, cube_t.d]
    rw [show ((43620760 : ℚ) / 2 ^ 25 - 10066330 / 2 ^ 25) = 33554430 / 2 ^ 25 by norm_num]
    exact f32_exact _ 16777215 (-24) (by norm_num) (by norm_num) (by norm_num)
  rw [hpos, hw, hlen,
    show ((43620760 : ℚ) / 2 ^ 25 - (0 + 1)) = 10066328 / 2 ^ 25 by norm_num,
    f32_exact (10066328 / 2 ^ 25) 10066328 (-25) (by norm_num) (by norm_num) (by norm_num),
    if_neg (by norm_num [abs_of_pos])]
  rfl

/-- Case analysis of `car_t::move` with rounding: a car that completes the call either
returned early with only `prev_bcube` updated, or satisfied the asserted precondition and
was moved by the clamped distance, with its waiting marker possibly reset. -/
theorem car_t.move_f32_cases (conn_mult road_width tfticks : ℚ) (c : car_t) (speed_mult : ℚ)
    (c2 : car_t) (h : c.move_f32 conn_mult road_width tfticks speed_mult = some c2) :
    ((c.destroyed = true ∨ c.stopped_at_light = true ∨ c.cur_speed = 0)
      ∧ c2 = { c with prev_bcube := c.bcube })
    ∨ (¬ (c.destroyed = true ∨ c.stopped_at_light = true ∨ c.cur_speed = 0)
      ∧ (speed_mult ≥ 0 ∧ c.cur_speed > 0 ∧ c.cur_speed ≤ f32 (conn_mult * c.max_speed))
      ∧ ∃ w ws : ℚ, c2 = { c.move_by_f32 (if c.dir then c.move_dist_f32 road_width speed_mult
                                        else -c.move_dist_f32 road_width speed_mult) with
                            prev_bcube := c.bcube, waiting_pos := w, waiting_start := ws }) := by
  rw [car_t.move_f32_eq] at h
  have hiff : (c.destroyed || c.stopped_at_light || c.is_stopped) = true ↔
      (c.destroyed = true ∨ c.stopped_at_light = true ∨ c.cur_speed = 0) := by
    simp [car_t.is_stopped, or_assoc]
  by_cases hs : (c.destroyed || c.stopped_at_light || c.is_stopped) = true
  · left
    rw [if_pos hs] at h
    exact ⟨hiff.1 hs, (Option.some.inj h).symm⟩
  · right
    rw [if_neg hs] at h
    by_cases hp : speed_mult ≥ 0 ∧ c.cur_speed > 0 ∧ c.cur_speed ≤ f32 (conn_mult * c.max_speed)
    · refine ⟨fun hc => hs (hiff.2 hc), hp, ?_⟩
      rw [if_neg (not_not.2 hp)] at h
      generalize (if c.dir then c.move_dist_f32 road_width speed_mult
          else -c.move_dist_f32 road_width speed_mult) = v at h ⊢
      split_ifs at h
      · exact ⟨_, _, (Option.some.inj h).symm⟩
      · exact ⟨_, _, (Option.some.inj h).symm⟩
    · rw [if_pos hp] at h
      exact absurd h (by simp)

/-- C7, counterexample: the unit car at `[0, 1]` with speed 0.3 (the nearest `float`,
`10066330 / 2^25`), moved with multiplier 1 on a road of width 2. The call completes; the low
edge becomes `10066330 / 2^25` and the high edge, the sum `1 + 10066330 / 2^25` rounded to
`float`, becomes `43620760 / 2^25`, so the extent along the travel axis is `1 - 2^-24` after
the call and 1 before it. -/
theorem move_extent_claim_fails :
    ∃ c2 : car_t, (unit_car 0 (10066330 / 2 ^ 25) 1).move_f32 2 2 0 1 = some c2
      ∧ c2.bcube.d c2.dim false = 10066330 / 2 ^ 25
      ∧ c2.bcube.d c2.dim true = 43620760 / 2 ^ 25
      ∧ c2.bcube.d c2.dim true - c2.bcube.d c2.dim false = 1 - 1 / 2 ^ 24
      ∧ (unit_car 0 (10066330 / 2 ^ 25) 1).bcube.d (unit_car 0 (10066330 / 2 ^ 25) 1).dim true
          - (unit_car 0 (10066330 / 2 ^ 25) 1).bcube.d (unit_car 0 (10066330 / 2 ^ 25) 1).dim false
        = 1
      ∧ c2.bcube.d c2.dim true - c2.bcube.d c2.dim false
        ≠ (unit_car 0 (10066330 / 2 ^ 25) 1).bcube.d (unit_car 0 (10066330 / 2 ^ 25) 1).dim true
          - (unit_car 0 (10066330 / 2 ^ 25) 1).bcube.d
              (unit_car 0 (10066330 / 2 ^ 25) 1).dim false := by
  refine ⟨_, unit_car_move_f32, ?_, ?_, ?_, ?_, ?_⟩ <;>
    norm_num [car_t.set_bcube, unit_car, cube_t.d]

/-- C7, amended: whenever `car_t::move` completes (no assertion fault), the edges of the box
on the other horizontal axis and on the vertical axis are unchanged, and so is the travel
axis. A car that is destroyed, stopped at a light or has zero speed keeps its box. Otherwise
the two edges of the travel axis are each the `float` nearest to the old edge plus the same
signed distance, so the extent along the travel axis is kept up to the rounding of the two
sums: it differs from the extent before the call by at most `2^-23` times the sum of the
magnitudes of the two new edges, plus `2^-148`. -/
theorem move_f32_keeps_extent_up_to_rounding (conn_mult road_width tfticks : ℚ) (c : car_t)
    (speed_mult : ℚ) (c2 : car_t)
    (h : c.move_f32 conn_mult road_width tfticks speed_mult = some c2) :
    c2.dim = c.dim
    ∧ c2.bcube.d (!c.dim) false = c.bcube.d (!c.dim) false
    ∧ c2.bcube.d (!c.dim) true = c.bcube.d (!c.dim) true
    ∧ c2.bcube.z1 = c.bcube.z1 ∧ c2.bcube.z2 = c.bcube.z2
    ∧ ((c.destroyed = true ∨ c.stopped_at_light = true ∨ c.cur_speed = 0) → c2.bcube = c.bcube)
    ∧ (∃ v : ℚ, ¬ (c.destroyed = true ∨ c.stopped_at_light = true ∨ c.cur_speed = 0) →
        c2.bcube.d c.dim false = f32 (c.bcube.d c.dim false + v)
        ∧ c2.bcube.d c.dim true = f32 (c.bcube.d c.dim true + v))
    ∧ |(c2.bcube.d c.dim true - c2.bcube.d c.dim false)
          - (c.bcube.d c.dim true - c.bcube.d c.dim false)|
        ≤ (|c2.bcube.d c.dim false| + |c2.bcube.d c.dim true|) / 2 ^ 23 + 1 / 2 ^ 148 := by
  rcases car_t.move_f32_cases _ _ _ _ _ _ h with ⟨hs, rfl⟩ | ⟨hs, -, w, ws, rfl⟩
  · refine ⟨rfl, rfl, rfl, rfl, rfl, fun _ => rfl, ⟨0, fun hn => absurd hs hn⟩, ?_⟩
    simp only [sub_self, abs_zero]
    positivity
  · generalize (if c.dir then c.move_dist_f32 road_width speed_mult
        else -c.move_dist_f32 road_width speed_mult) = v
    obtain ⟨h0, h1, h2, h3, h4, h5⟩ := car_t.move_by_f32_bcube c v
    have hdim : (c.move_by_f32 v).dim = c.dim := rfl
    refine ⟨hdim, h2, h3, h4, h5, fun hc => absurd hc hs, ⟨v, fun _ => ⟨h0, h1⟩⟩, ?_⟩
    show |((c.move_by_f32 v).bcube.d c.dim true - (c.move_by_f32 v).bcube.d c.dim false)
          - (c.bcube.d c.dim true - c.bcube.d c.dim false)|
        ≤ (|(c.move_by_f32 v).bcube.d c.dim false| + |(c.move_by_f32 v).bcube.d c.dim true|)
            / 2 ^ 23 + 1 / 2 ^ 148
    rw [h0, h1]
    have e0 := f32_error_of_result (c.bcube.d c.dim false + v)
    have e1 := f32_error_of_result (c.bcube.d c.dim true + v)
    have hsplit : (f32 (c.bcube.d c.dim true + v) - f32 (c.bcube.d c.dim false + v))
          - (c.bcube.d c.dim true - c.bcube.d c.dim false)
        = (f32 (c.bcube.d c.dim true + v) - (c.bcube.d c.dim true + v))
          - (f32 (c.bcube.d c.dim false + v) - (c.bcube.d c.dim false + v)) := by ring
    rw [hsplit]
    have htri := abs_sub (f32 (c.bcube.d c.dim true + v) - (c.bcube.d c.dim true + v))
      (f32 (c.bcube.d c.dim false + v) - (c.bcube.d c.dim false + v))
    have e3 : (1 : ℚ) / 2 ^ 148 = 1 / 2 ^ 149 + 1 / 2 ^ 149 := by norm_num
    rw [e3, add_div]
    linarith

/-- C7, instance: the unit car at `[0, 1]` with speed 0.3 (as a `float`): the extent after
the call, `1 - 2^-24`, is within the bound of the extent 1 before the call. -/
theorem move_f32_keeps_extent_up_to_rounding_witness :
    (unit_car 0 (10066330 / 2 ^ 25) 1).move_f32 2 2 0 1
      = some ((unit_car 0 (10066330 / 2 ^ 25) 1).set_bcube
          ⟨10066330 / 2 ^ 25, 43620760 / 2 ^ 25, 0, 1, 0, 1⟩)
    ∧ |(((unit_car 0 (10066330 / 2 ^ 25) 1).set_bcube
            ⟨10066330 / 2 ^ 25, 43620760 / 2 ^ 25, 0, 1, 0, 1⟩).bcube.d
              (unit_car 0 (10066330 / 2 ^ 25) 1).dim true
          - ((unit_car 0 (10066330 / 2 ^ 25) 1).set_bcube
            ⟨10066330 / 2 ^ 25, 43620760 / 2 ^ 25, 0, 1, 0, 1⟩).bcube.d
              (unit_car 0 (10066330 / 2 ^ 25) 1).dim false)
          - ((unit_car 0 (10066330 / 2 ^ 25) 1).bcube.d (unit_car 0 (10066330 / 2 ^ 25) 1).dim true
            - (unit_car 0 (10066330 / 2 ^ 25) 1).bcube.d
                (unit_car 0 (10066330 / 2 ^ 25) 1).dim false)|
        ≤ (|((unit_car 0 (10066330 / 2 ^ 25) 1).set_bcube
            ⟨10066330 / 2 ^ 25, 43620760 / 2 ^ 25, 0, 1, 0, 1⟩).bcube.d
              (unit_car 0 (10066330 / 2 ^ 25) 1).dim false|
          + |((unit_car 0 (10066330 / 2 ^ 25) 1).set_bcube
            ⟨10066330 / 2 ^ 25, 43620760 / 2 ^ 25, 0, 1, 0, 1⟩).bcube.d
              (unit_car 0 (10066330 / 2 ^ 25) 1).dim true|) / 2 ^ 23 + 1 / 2 ^ 148 :=
  ⟨unit_car_move_f32,
    (move_f32_keeps_extent_up_to_rounding 2 2 0 _ 1 _ unit_car_move_f32).2.2.2.2.2.2.2⟩

/-- C8, counterexample: the unit car at `[0, 1]` with speed 0.3 (the nearest `float`,
`10066330 / 2^25`), level road (`dz = 0`), multiplier 1, road width 2. The distance of the
claim is `d = min(cur_speed * 1 * 1, 0.5) = 10066330 / 2^25`; the call completes and the high
edge of the box is `43620760 / 2^25`, not `1 + d = 43620762 / 2^25`: the box is not shifted
by exactly `d`. -/
theorem move_exact_shift_claim_fails :
    ∃ c2 : car_t, (unit_car 0 (10066330 / 2 ^ 25) 1).move_f32 2 2 0 1 = some c2
      ∧ (unit_car 0 (10066330 / 2 ^ 25) 1).dz = 0
      ∧ (unit_car 0 (10066330 / 2 ^ 25) 1).dir = true
      ∧ min ((unit_car 0 (10066330 / 2 ^ 25) 1).cur_speed * 1 * 1) ((1 / 4 : ℚ) * 2)
          = 10066330 / 2 ^ 25
      ∧ c2.bcube.x1 = (unit_car 0 (10066330 / 2 ^ 25) 1).bcube.x1 + 10066330 / 2 ^ 25
      ∧ c2.bcube.x2 = 43620760 / 2 ^ 25
      ∧ c2.bcube.x2 ≠ (unit_car 0 (10066330 / 2 ^ 25) 1).bcube.x2 + 10066330 / 2 ^ 25 := by
  refine ⟨_, unit_car_move_f32, rfl, rfl, ?_, ?_, ?_, ?_⟩ <;>
    norm_num [car_t.set_bcube, unit_car]

/-- C8, amended: when `car_t::move` completes, a car that is destroyed, stopped at a light
or has zero speed keeps its box (`d = 0`); otherwise each edge of the travel axis becomes the
`float` nearest to the old edge plus `d` in the direction of travel (`+d` when `dir` is set,
`-d` otherwise), within `2^-24` times the magnitude of that sum plus `2^-150` of it, and the
other edges are unchanged. Here `d = min(dist, float(0.25 * road_width))` with
`dist = float(cur_speed * speed_mult)` when `dz = 0` and
`dist = float(double(float(cur_speed * speed_mult) * g))` otherwise, where the grade factor
`g` is 1 when `dz = 0`, and for `dz != 0` is
`min(1.25, max(0.75, double(1 - double(double(0.5 * dz) / length))))` for the `float`
length of the box when that length is not zero, 0.75 for a box of length zero and `dz > 0`,
and 1.25 for a box of length zero and `dz < 0`. The factor `g` lies within 25% of 1, and `d`
is at most the `float` nearest to a quarter of the (non-negative) road width. -/
theorem move_f32_shifts_by_rounded_dist (conn_mult road_width tfticks : ℚ) (c : car_t)
    (speed_mult : ℚ) (c2 : car_t)
    (h : c.move_f32 conn_mult road_width tfticks speed_mult = some c2) :
    ∃ g d : ℚ,
      g = (if c.dz = 0 then 1
           else if f32 (c.bcube.d c.dim true - c.bcube.d c.dim false) = 0 then
             (if 0 < c.dz then 3 / 4 else 5 / 4)
           else min (5 / 4 : ℚ) (max (3 / 4 : ℚ)
             (f64 (1 - f64 (f64 ((1 / 2 : ℚ) * c.dz)
               / f32 (c.bcube.d c.dim true - c.bcube.d c.dim false))))))
      ∧ d = (if c.destroyed = true ∨ c.stopped_at_light = true ∨ c.cur_speed = 0 then 0
             else min (if c.dz = 0 then f32 (c.cur_speed * speed_mult)
                       else f32 (f64 (f32 (c.cur_speed * speed_mult) * g)))
                    (f32 (road_width / 4)))
      ∧ ((c.destroyed = true ∨ c.stopped_at_light = true ∨ c.cur_speed = 0) →
          c2.bcube = c.bcube)
      ∧ (¬ (c.destroyed = true ∨ c.stopped_at_light = true ∨ c.cur_speed = 0) →
          c2.bcube.d c.dim false = f32 (c.bcube.d c.dim false + (if c.dir then d else -d))
          ∧ c2.bcube.d c.dim true = f32 (c.bcube.d c.dim true + (if c.dir then d else -d)))
      ∧ c2.bcube.d (!c.dim) false = c.bcube.d (!c.dim) false
      ∧ c2.bcube.d (!c.dim) true = c.bcube.d (!c.dim) true
      ∧ c2.bcube.z1 = c.bcube.z1 ∧ c2.bcube.z2 = c.bcube.z2
      ∧ |c2.bcube.d c.dim false - (c.bcube.d c.dim false + (if c.dir then d else -d))|
          ≤ |c.bcube.d c.dim false + (if c.dir then d else -d)| / 2 ^ 24 + 1 / 2 ^ 150
      ∧ |c2.bcube.d c.dim true - (c.bcube.d c.dim true + (if c.dir then d else -d))|
          ≤ |c.bcube.d c.dim true + (if c.dir then d else -d)| / 2 ^ 24 + 1 / 2 ^ 150
      ∧ (3 / 4 : ℚ) ≤ g ∧ g ≤ (5 / 4 : ℚ)
      ∧ (0 ≤ road_width → d ≤ f32 (road_width / 4)) := by
  obtain ⟨g, hg⟩ : ∃ g : ℚ, g = (if c.dz = 0 then 1
      else if f32 (c.bcube.d c.dim true - c.bcube.d c.dim false) = 0 then
        (if 0 < c.dz then 3 / 4 else 5 / 4)
      else min (5 / 4 : ℚ) (max (3 / 4 : ℚ)
        (f64 (1 - f64 (f64 ((1 / 2 : ℚ) * c.dz)
          / f32 (c.bcube.d c.dim true - c.bcube.d c.dim false)))))) := ⟨_, rfl⟩
  obtain ⟨d, hd0⟩ : ∃ d : ℚ,
      d = (if c.destroyed = true ∨ c.stopped_at_light = true ∨ c.cur_speed = 0 then 0
        else min (if c.dz = 0 then f32 (c.cur_speed * speed_mult)
                  else f32 (f64 (f32 (c.cur_speed * speed_mult) * g)))
              (f32 (road_width / 4))) := ⟨_, rfl⟩
  have hg1 : (3 / 4 : ℚ) ≤ g ∧ g ≤ (5 / 4 : ℚ) := by
    rw [hg]
    split_ifs
    · constructor <;> norm_num
    · constructor <;> norm_num
    · constructor <;> norm_num
    · exact ⟨le_min (by norm_num) (le_max_left _ _), min_le_left _ _⟩
  have hd1 : 0 ≤ road_width → d ≤ f32 (road_width / 4) := by
    intro hrw
    rw [hd0]
    by_cases hs : c.destroyed = true ∨ c.stopped_at_light = true ∨ c.cur_speed = 0
    · rw [if_pos hs]
      exact f32_nonneg _ (by linarith)
    · rw [if_neg hs]
      exact min_le_right _ _
  refine ⟨g, d, hg, hd0, ?_⟩
  rcases car_t.move_f32_cases _ _ _ _ _ _ h with ⟨hs, rfl⟩ | ⟨hs, -, w, ws, rfl⟩
  · rw [if_pos hs] at hd0
    subst hd0
    have hz : (if c.dir = true then (0 : ℚ) else -0) = 0 := by split_ifs <;> simp
    refine ⟨fun _ => rfl, fun hn => absurd hs hn, rfl, rfl, rfl, rfl, ?_, ?_, hg1.1, hg1.2, hd1⟩
    · rw [hz, add_zero, sub_self, abs_zero]
      positivity
    · rw [hz, add_zero, sub_self, abs_zero]
      positivity
  · rw [if_neg hs] at hd0
    have hmd : c.move_dist_f32 road_width speed_mult = d := by
      rw [hd0, hg, car_t.move_dist_f32, car_t.get_length_f32,
        show (1 / 4 : ℚ) * road_width = road_width / 4 by ring]
      by_cases hz : c.dz = 0
      · rw [if_neg (not_not.2 hz), if_pos hz]
      · rw [if_pos hz, if_neg hz, if_neg hz]
    rw [hmd]
    generalize (if c.dir then d else -d) = v
    obtain ⟨h0, h1, h2, h3, h4, h5⟩ := car_t.move_by_f32_bcube c v
    refine ⟨fun hc => absurd hc hs, fun _ => ⟨h0, h1⟩, h2, h3, h4, h5, ?_, ?_, hg1.1, hg1.2, hd1⟩
    · show |(c.move_by_f32 v).bcube.d c.dim false - (c.bcube.d c.dim false + v)| ≤ _
      rw [h0]
      exact f32_error _
    · show |(c.move_by_f32 v).bcube.d c.dim true - (c.bcube.d c.dim true + v)| ≤ _
      rw [h1]
      exact f32_error _

/-- C8, instance: the unit car at `[0, 1]` with speed 0.3 (as a `float`). -/
theorem move_f32_shifts_by_rounded_dist_witness :
    (unit_car 0 (10066330 / 2 ^ 25) 1).move_f32 2 2 0 1
      = some ((unit_car 0 (10066330 / 2 ^ 25) 1).set_bcube
          ⟨10066330 / 2 ^ 25, 43620760 / 2 ^ 25, 0, 1, 0, 1⟩)
    ∧ ∃ g d : ℚ,
      g = (if (unit_car 0 (10066330 / 2 ^ 25) 1).dz = 0 then 1
           else if f32 ((unit_car 0 (10066330 / 2 ^ 25) 1).bcube.d
                (unit_car 0 (10066330 / 2 ^ 25) 1).dim true
              - (unit_car 0 (10066330 / 2 ^ 25) 1).bcube.d
                (unit_car 0 (10066330 / 2 ^ 25) 1).dim false) = 0 then
             (if 0 < (unit_car 0 (10066330 / 2 ^ 25) 1).dz then 3 / 4 else 5 / 4)
           else min (5 / 4 : ℚ) (max (3 / 4 : ℚ)
             (f64 (1 - f64 (f64 ((1 / 2 : ℚ) * (unit_car 0 (10066330 / 2 ^ 25) 1).dz)
               / f32 ((unit_car 0 (10066330 / 2 ^ 25) 1).bcube.d
                  (unit_car 0 (10066330 / 2 ^ 25) 1).dim true
                - (unit_car 0 (10066330 / 2 ^ 25) 1).bcube.d
                  (unit_car 0 (10066330 / 2 ^ 25) 1).dim false))))))
      ∧ d = (if (unit_car 0 (10066330 / 2 ^ 25) 1).destroyed = true
              ∨ (unit_car 0 (10066330 / 2 ^ 25) 1).stopped_at_light = true
              ∨ (unit_car 0 (10066330 / 2 ^ 25) 1).cur_speed = 0 then 0
             else min (if (unit_car 0 (10066330 / 2 ^ 25) 1).dz = 0 then
                         f32 ((unit_car 0 (10066330 / 2 ^ 25) 1).cur_speed * 1)
                       else f32 (f64 (f32 ((unit_car 0 (10066330 / 2 ^ 25) 1).cur_speed * 1) * g)))
                    (f32 (2 / 4)))
      ∧ (3 / 4 : ℚ) ≤ g ∧ g ≤ (5 / 4 : ℚ)
      ∧ (0 ≤ (2 : ℚ) → d ≤ f32 (2 / 4)) :=
  ⟨unit_car_move_f32,
    (move_f32_shifts_by_rounded_dist 2 2 0 _ 1 _ unit_car_move_f32).imp fun _ hg =>
      hg.imp fun _ hd => ⟨hd.1, hd.2.1, hd.2.2.2.2.2.2.2.2.2.2⟩⟩

/-! ## The landing branch of `helicopters_next_frame` with rounding -/

/-- The landing branch of the loop body in terms of the two distances it compares:
`land_dz`, the rounded height of the box above the pad, and `max_fall_dist`, the rounded
product of the landing speed and the frame time. -/
theorem heli_land_step_eq (env : heli_env) (car_speed : ℚ) (h : helicopter_t)
    (helipad : helipad_t) (hps : List helipad_t) (r : rand_gen_t) :
    heli_land_step env car_speed h helipad hps r =
      if ¬ f32 (h.bcube.z1 - helipad.bcube.z2) ≥ 0 then none
      else if min (f32 (h.bcube.z1 - helipad.bcube.z2))
          (f32 (f32 (f64 (f64 (1 / 5) * f32 (f64 (f64 (2 * env.CAR_SPEED_SCALE) * car_speed))))
            * env.fticks)) = f32 (h.bcube.z1 - helipad.bcube.z2) then
        some ({ h with
            bcube := h.bcube.sub_f32 ⟨0, 0, min (f32 (h.bcube.z1 - helipad.bcube.z2))
              (f32 (f32 (f64 (f64 (1 / 5) * f32 (f64 (f64 (2 * env.CAR_SPEED_SCALE) * car_speed))))
                * env.fticks))⟩,
            velocity := all_zeros, wait_time := (r.rand_uniform 30 60).1,
            state := heli_state.STATE_WAIT },
          update_helipad hps h.dest_hp (fun p => { p with in_use := true, reserved := false }),
          (r.rand_uniform 30 60).2)
      else
        some ({ h with
            bcube := h.bcube.sub_f32 ⟨0, 0, min (f32 (h.bcube.z1 - helipad.bcube.z2))
              (f32 (f32 (f64 (f64 (1 / 5) * f32 (f64 (f64 (2 * env.CAR_SPEED_SCALE) * car_speed))))
                * env.fticks))⟩ }, hps, r) := by
  rfl

/-- The landing branch of the loop body when the rounded remaining descent `land_dz` is at
most the rounded step `max_fall_dist`: the helicopter is put down and waits. -/
theorem helicopter_next_frame_landed (env : heli_env) (car_speed : ℚ)
    (h : helicopter_t) (hps : List helipad_t) (r : rand_gen_t) (pad : helipad_t)
    (land_dz max_fall_dist : ℚ)
    (hst : h.state = heli_state.STATE_LAND) (hw : h.wait_time = 0)
    (hpad : hps[h.dest_hp]? = some pad) (hres : pad.reserved = true)
    (hdz : 0 ≤ h.bcube.z1 - pad.bcube.z2)
    (hld : land_dz = f32 (h.bcube.z1 - pad.bcube.z2))
    (hmf : max_fall_dist
      = f32 (f32 (f64 (f64 (1 / 5) * f32 (f64 (f64 (2 * env.CAR_SPEED_SCALE) * car_speed))))
          * env.fticks))
    (hle : land_dz ≤ max_fall_dist) :
    ∃ (h1 : helicopter_t) (hps1 : List helipad_t) (r1 : rand_gen_t),
      helicopter_next_frame env car_speed h hps r = some (h1, hps1, r1)
      ∧ h1.bcube.z1 = f32 (h.bcube.z1 - land_dz)
      ∧ |h1.bcube.z1 - pad.bcube.z2|
          ≤ (|h.bcube.z1 - pad.bcube.z2| + |h.bcube.z1 - land_dz|) / 2 ^ 24 + 1 / 2 ^ 149
      ∧ (land_dz = h.bcube.z1 - pad.bcube.z2 → f32 pad.bcube.z2 = pad.bcube.z2 →
          h1.bcube.z1 = pad.bcube.z2)
      ∧ h1.state = heli_state.STATE_WAIT
      ∧ h1.velocity = all_zeros
      ∧ 30 ≤ h1.wait_time ∧ h1.wait_time ≤ 60
      ∧ h1.dest_hp = h.dest_hp
      ∧ hps1 = update_helipad hps h.dest_hp (fun p => { p with in_use := true, reserved := false })
      ∧ hps1[h.dest_hp]? = some { pad with in_use := true, reserved := false }
      ∧ r1 = (r.rand_uniform 30 60).2 := by
  have hnw : h.state ≠ heli_state.STATE_WAIT := by rw [hst]; decide
  have hnt : ¬ h.state = heli_state.STATE_TAKEOFF := by rw [hst]; decide
  have hnn : f32 (h.bcube.z1 - pad.bcube.z2) ≥ 0 := f32_nonneg _ hdz
  rw [helicopter_next_frame_moving env car_speed h hps r pad hnw hw hpad hres, if_neg hnt,
    if_pos hst, heli_land_step_eq, if_neg (not_not.2 hnn), ← hld, ← hmf]
  have hmin : min land_dz max_fall_dist = land_dz := min_eq_left hle
  rw [if_pos hmin, Option.map_some', hmin]
  obtain ⟨hb, hv, hs, hwt, hdp, h2⟩ := heli_blade_step_keeps env
    ({ h with
        bcube := h.bcube.sub_f32 ⟨0, 0, land_dz⟩,
        velocity := all_zeros, wait_time := (r.rand_uniform 30 60).1,
        state := heli_state.STATE_WAIT },
      update_helipad hps h.dest_hp (fun p => { p with in_use := true, reserved := false }),
      (r.rand_uniform 30 60).2)
  have hu0 : (0 : ℚ) ≤ max 0 (min 1 (r.units r.pos)) := le_max_left _ _
  have hu1 : max 0 (min 1 (r.units r.pos)) ≤ (1 : ℚ) := max_le (by norm_num) (min_le_left _ _)
  have hz1 : (heli_blade_step env
      ({ h with
          bcube := h.bcube.sub_f32 ⟨0, 0, land_dz⟩,
          velocity := all_zeros, wait_time := (r.rand_uniform 30 60).1,
          state := heli_state.STATE_WAIT },
        update_helipad hps h.dest_hp (fun p => { p with in_use := true, reserved := false }),
        (r.rand_uniform 30 60).2)).1.bcube.z1 = f32 (h.bcube.z1 - land_dz) := by
    rw [hb]
    rfl
  have hbound : |f32 (h.bcube.z1 - land_dz) - pad.bcube.z2|
      ≤ (|h.bcube.z1 - pad.bcube.z2| + |h.bcube.z1 - land_dz|) / 2 ^ 24 + 1 / 2 ^ 149 := by
    have e1 := f32_error (h.bcube.z1 - pad.bcube.z2)
    have e2 := f32_error (h.bcube.z1 - land_dz)
    rw [← hld] at e1
    have hsplit : f32 (h.bcube.z1 - land_dz) - pad.bcube.z2
        = (f32 (h.bcube.z1 - land_dz) - (h.bcube.z1 - land_dz))
          - (land_dz - (h.bcube.z1 - pad.bcube.z2)) := by ring
    rw [hsplit]
    have htri := abs_sub (f32 (h.bcube.z1 - land_dz) - (h.bcube.z1 - land_dz))
      (land_dz - (h.bcube.z1 - pad.bcube.z2))
    have e3 : (1 : ℚ) / 2 ^ 149 = 1 / 2 ^ 150 + 1 / 2 ^ 150 := by norm_num
    rw [e3, add_div]
    linarith
  have hexact : land_dz = h.bcube.z1 - pad.bcube.z2 → f32 pad.bcube.z2 = pad.bcube.z2 →
      f32 (h.bcube.z1 - land_dz) = pad.bcube.z2 := by
    intro hex hpz
    rw [hex, sub_sub_cancel, hpz]
  have hw30 : (30 : ℚ) ≤ (r.rand_uniform 30 60).1 := by
    simp only [rand_gen_t.rand_uniform]
    linarith
  have hw60 : (r.rand_uniform 30 60).1 ≤ (60 : ℚ) := by
    simp only [rand_gen_t.rand_uniform]
    linarith
  have hget : (update_helipad hps h.dest_hp
      (fun p => { p with in_use := true, reserved := false }))[h.dest_hp]?
      = some { pad with in_use := true, reserved := false } := by
    rw [update_helipad_get, if_pos rfl, hpad]
    rfl
  exact ⟨_, _, _, Prod.ext rfl h2 |> congrArg some, hz1, hz1.symm ▸ hbound,
    fun a b => hz1.trans (hexact a b), hs, hv, hwt.symm ▸ hw30, hwt.symm ▸ hw60, hdp, rfl, hget, rfl⟩

/-- C20, amended: for a helicopter in LAND that passes the assertions of the moving branch,
with `bcube.z1 - pad.z2 >= 0`, let `land_dz` be the `float` nearest to `bcube.z1 - pad.z2`
and `max_fall_dist` the `float` nearest to `land_speed * fticks` (`land_speed` is 0.2 times
the flight speed, computed in `double` and rounded to `float`). If
`land_dz <= max_fall_dist`, the loop body of `helicopters_next_frame` puts the bottom of the
box at the `float` nearest to `bcube.z1 - land_dz`, which is within the two rounding errors
`2^-24 * (|bcube.z1 - pad.z2| + |bcube.z1 - land_dz|) + 2^-149` of the pad surface and is
exactly the pad surface when the difference `bcube.z1 - pad.z2` is a `float`; the state
becomes WAIT, the velocity zero and `wait_time` a value in `[30, 60]`, and the destination
pad gets `in_use = true` and `reserved = false`. Otherwise the bottom and the top of the
box descend to the `float` nearest to their height less `max_fall_dist`, the state stays
LAND and the helipads are unchanged. -/
theorem heli_land_step_reaches_pad_up_to_rounding (env : heli_env) (car_speed : ℚ)
    (h : helicopter_t) (hps : List helipad_t) (r : rand_gen_t) (pad : helipad_t)
    (land_dz max_fall_dist : ℚ)
    (hst : h.state = heli_state.STATE_LAND) (hw : h.wait_time = 0)
    (hpad : hps[h.dest_hp]? = some pad) (hres : pad.reserved = true)
    (hdz : 0 ≤ h.bcube.z1 - pad.bcube.z2)
    (hld : land_dz = f32 (h.bcube.z1 - pad.bcube.z2))
    (hmf : max_fall_dist
      = f32 (f32 (f64 (f64 (1 / 5) * f32 (f64 (f64 (2 * env.CAR_SPEED_SCALE) * car_speed))))
          * env.fticks)) :
    (land_dz ≤ max_fall_dist →
      ∃ (h1 : helicopter_t) (hps1 : List helipad_t) (r1 : rand_gen_t),
        helicopter_next_frame env car_speed h hps r = some (h1, hps1, r1)
        ∧ h1.bcube.z1 = f32 (h.bcube.z1 - land_dz)
        ∧ |h1.bcube.z1 - pad.bcube.z2|
            ≤ (|h.bcube.z1 - pad.bcube.z2| + |h.bcube.z1 - land_dz|) / 2 ^ 24 + 1 / 2 ^ 149
        ∧ (land_dz = h.bcube.z1 - pad.bcube.z2 → f32 pad.bcube.z2 = pad.bcube.z2 →
            h1.bcube.z1 = pad.bcube.z2)
        ∧ h1.state = heli_state.STATE_WAIT
        ∧ h1.velocity = all_zeros
        ∧ 30 ≤ h1.wait_time ∧ h1.wait_time ≤ 60
        ∧ h1.dest_hp = h.dest_hp
        ∧ hps1 = update_helipad hps h.dest_hp (fun p => { p with in_use := true, reserved := false })
        ∧ hps1[h.dest_hp]? = some { pad with in_use := true, reserved := false })
    ∧ (max_fall_dist < land_dz →
      ∃ h1 : helicopter_t,
        helicopter_next_frame env car_speed h hps r = some (h1, hps, r)
        ∧ h1.bcube.z1 = f32 (h.bcube.z1 - max_fall_dist)
        ∧ h1.bcube.z2 = f32 (h.bcube.z2 - max_fall_dist)
        ∧ h1.state = heli_state.STATE_LAND
        ∧ h1.dest_hp = h.dest_hp) := by
  have hnw : h.state ≠ heli_state.STATE_WAIT := by rw [hst]; decide
  have hnt : ¬ h.state = heli_state.STATE_TAKEOFF := by rw [hst]; decide
  have hnn : f32 (h.bcube.z1 - pad.bcube.z2) ≥ 0 := f32_nonneg _ hdz
  rw [helicopter_next_frame_moving env car_speed h hps r pad hnw hw hpad hres, if_neg hnt,
    if_pos hst, heli_land_step_eq, if_neg (not_not.2 hnn), ← hld, ← hmf]
  constructor
  · intro hle
    obtain ⟨h1, hps1, r1, e, e1, e2, e3, e4, e5, e6, e7, e8, e9, e10, -⟩ :=
      helicopter_next_frame_landed env car_speed h hps r pad land_dz max_fall_dist hst hw hpad
        hres hdz hld hmf hle
    rw [helicopter_next_frame_moving env car_speed h hps r pad hnw hw hpad hres, if_neg hnt,
      if_pos hst, heli_land_step_eq, if_neg (not_not.2 hnn), ← hld, ← hmf] at e
    exact ⟨h1, hps1, r1, e, e1, e2, e3, e4, e5, e6, e7, e8, e9, e10⟩
  · intro hlt
    have hmin : min land_dz max_fall_dist = max_fall_dist := min_eq_right (le_of_lt hlt)
    rw [hmin, if_neg (ne_of_lt hlt), Option.map_some']
    obtain ⟨hb, -, hs, -, hdp, h2⟩ := heli_blade_step_keeps env
      ({ h with bcube := h.bcube.sub_f32 ⟨0, 0, max_fall_dist⟩ }, hps, r)
    refine ⟨_, Prod.ext rfl h2 |> congrArg some, ?_, ?_, hs.trans hst, hdp⟩
    · rw [hb]
      rfl
    · rw [hb]
      rfl

/-- The step `max_fall_dist` of the landing branch in the environment `dyadic_heli_env` at
car speed 1: four times the `float` nearest to 0.2. -/
theorem dyadic_max_fall_dist :
    f32 (f32 (f64 (f64 (1 / 5) * f32 (f64 (f64 (2 * dyadic_heli_env.CAR_SPEED_SCALE) * 1))))
      * dyadic_heli_env.fticks) = 13421773 / 2 ^ 24 := by
  have h1 : dyadic_heli_env.CAR_SPEED_SCALE = 1 / 2 := rfl
  have h2 : dyadic_heli_env.fticks = 4 := rfl
  rw [h1, h2, show (2 : ℚ) * (1 / 2) = 1 by norm_num, f64_one, mul_one, f64_one, f32_one,
    mul_one, f64_idem, f64_one_fifth, f32_f64_one_fifth,
    show (13421773 : ℚ) / 2 ^ 26 * 4 = 13421773 / 2 ^ 24 by norm_num]
  exact f32_exact _ 13421773 (-24) (by norm_num) (by norm_num) (by norm_num)

/-- The difference of the `float` numbers nearest to 0.35 and to 0.1 is half way between two
`float` numbers and rounds to 0.25. -/
theorem low_landing_heli_land_dz :
    f32 (low_landing_heli.bcube.z1 - low_helipad.bcube.z2) = 1 / 4 := by
  have h1 : low_landing_heli.bcube.z1 = 11744051 / 2 ^ 25 := rfl
  have h2 : low_helipad.bcube.z2 = 13421773 / 2 ^ 27 := rfl
  rw [h1, h2, show (11744051 : ℚ) / 2 ^ 25 - 13421773 / 2 ^ 27 = 33554431 / 2 ^ 27 by norm_num,
    f32_eval_tie_odd (33554431 / 2 ^ 27) (-3) (-26) 16777215 (by norm_num [abs_of_pos])
      (by norm_num [abs_of_pos]) (by norm_num) (by norm_num) (by norm_num)]
  norm_num

/-- C20, counterexample: a helicopter in LAND with its bottom at the `float` nearest to 0.35,
bound for a reserved pad whose surface is at the `float` nearest to 0.1, with a step
`land_speed * fticks` of about 0.8. The rounded remaining descent is 0.25, below the step, so
the call of `helicopters_next_frame` puts the helicopter into WAIT; its bottom is then at
`0.35f - 0.25 = 3355443 / 2^25`, one unit in the last place below the pad surface
`13421773 / 2^27`. -/
theorem heli_land_exact_claim_fails :
    low_landing_heli.state = heli_state.STATE_LAND
    ∧ 0 ≤ low_landing_heli.bcube.z1 - low_helipad.bcube.z2
    ∧ low_landing_heli.bcube.z1 - low_helipad.bcube.z2
        ≤ (1 / 5 : ℚ) * (2 * dyadic_heli_env.CAR_SPEED_SCALE * 1) * dyadic_heli_env.fticks
    ∧ ∃ (h1 : helicopter_t) (hps1 : List helipad_t) (r1 : rand_gen_t),
        helicopters_next_frame dyadic_heli_env 1 ⟨[low_helipad], [low_landing_heli], sample_rgen⟩
          = some ⟨hps1, [h1], r1⟩
        ∧ h1.state = heli_state.STATE_WAIT
        ∧ h1.bcube.z1 = 3355443 / 2 ^ 25
        ∧ low_helipad.bcube.z2 = 13421773 / 2 ^ 27
        ∧ h1.bcube.z1 ≠ low_helipad.bcube.z2 := by
  refine ⟨rfl, by norm_num [low_landing_heli, helicopter_t.create, low_helipad],
    by norm_num [low_landing_heli, helicopter_t.create, low_helipad, dyadic_heli_env,
      sample_heli_env], ?_⟩
  obtain ⟨h1, hps1, r1, hs, hz, -, -, hst, -⟩ :=
    helicopter_next_frame_landed dyadic_heli_env 1 low_landing_heli [low_helipad] sample_rgen
      low_helipad (1 / 4) (13421773 / 2 ^ 24) rfl rfl rfl rfl
      (by norm_num [low_landing_heli, helicopter_t.create, low_helipad])
      low_landing_heli_land_dz.symm dyadic_max_fall_dist.symm (by norm_num)
  have hz1 : h1.bcube.z1 = 3355443 / 2 ^ 25 := by
    rw [hz, show low_landing_heli.bcube.z1 = 11744051 / 2 ^ 25 from rfl,
      show (11744051 : ℚ) / 2 ^ 25 - 1 / 4 = 3355443 / 2 ^ 25 by norm_num]
    exact f32_exact _ 3355443 (-25) (by norm_num) (by norm_num) (by norm_num)
  refine ⟨h1, hps1, r1, ?_, hst, hz1, rfl, ?_⟩
  · simp only [helicopters_next_frame, helicopters_loop, hs, List.isEmpty_cons,
      Bool.false_eq_true, if_false, List.nil_append]
  · rw [hz1]
    norm_num [low_helipad]

/-- C20, instance: the same helicopter and pad: the bottom of the box ends within the
rounding bound of the pad surface. -/
theorem heli_land_step_reaches_pad_up_to_rounding_witness :
    ∃ (h1 : helicopter_t) (hps1 : List helipad_t) (r1 : rand_gen_t),
      helicopter_next_frame dyadic_heli_env 1 low_landing_heli [low_helipad] sample_rgen
        = some (h1, hps1, r1)
      ∧ h1.bcube.z1 = f32 (low_landing_heli.bcube.z1 - 1 / 4)
      ∧ |h1.bcube.z1 - low_helipad.bcube.z2|
          ≤ (|low_landing_heli.bcube.z1 - low_helipad.bcube.z2|
              + |low_landing_heli.bcube.z1 - 1 / 4|) / 2 ^ 24 + 1 / 2 ^ 149
      ∧ h1.state = heli_state.STATE_WAIT
      ∧ h1.velocity = all_zeros
      ∧ 30 ≤ h1.wait_time ∧ h1.wait_time ≤ 60 :=
  ((heli_land_step_reaches_pad_up_to_rounding dyadic_heli_env 1 low_landing_heli [low_helipad]
    sample_rgen low_helipad (1 / 4) (13421773 / 2 ^ 24) rfl rfl rfl rfl
    (by norm_num [low_landing_heli, helicopter_t.create, low_helipad])
    low_landing_heli_land_dz.symm dyadic_max_fall_dist.symm).1 (by norm_num)).imp
    fun _ h => h.imp fun _ h => h.imp fun _ h =>
      ⟨h.1, h.2.1, h.2.2.1, h.2.2.2.2.1, h.2.2.2.2.2.1, h.2.2.2.2.2.2.1, h.2.2.2.2.2.2.2.1⟩

/-! ## Properties of `car_t::check_collision` with rounding -/

/-- The three roundings of the corrected pose of `check_collision` for a car that travels in
the positive direction: with `a0` the back edge of the car in front, `b0` the front edge of
the car behind and `sep` the separation, all of magnitude at most `M`, the gap between `a0`
and the new front edge differs from `sep` by at most `M / 2^21 + 2^-148`. -/
theorem push_gap_error_pos (a0 b0 sep M : ℚ) (ha : |a0| ≤ M) (hb : |b0| ≤ M) (hs : |sep| ≤ M) :
    |(a0 - f32 (b0 + f32 (0 + f32 (f32 (a0 - b0) + -sep)))) - sep|
      ≤ M / 2 ^ 21 + 1 / 2 ^ 148 := by
  rw [zero_add, f32_idem]
  have hM : 0 ≤ M := le_trans (abs_nonneg _) ha
  obtain ⟨ha1, ha2⟩ := abs_le.1 ha
  obtain ⟨hb1, hb2⟩ := abs_le.1 hb
  obtain ⟨hs1, hs2⟩ := abs_le.1 hs
  have e1 := f32_error_le (a0 - b0) (2 * M) (abs_le.2 ⟨by linarith, by linarith⟩)
  obtain ⟨e1a, e1b⟩ := abs_le.1 e1
  have e2 := f32_error_le (f32 (a0 - b0) + -sep) (3 * M + (2 * M / 2 ^ 24 + 1 / 2 ^ 150))
    (abs_le.2 ⟨by linarith, by linarith⟩)
  obtain ⟨e2a, e2b⟩ := abs_le.1 e2
  have e3 := f32_error_le (b0 + f32 (f32 (a0 - b0) + -sep))
    (2 * M + (2 * M / 2 ^ 24 + 1 / 2 ^ 150)
      + ((3 * M + (2 * M / 2 ^ 24 + 1 / 2 ^ 150)) / 2 ^ 24 + 1 / 2 ^ 150))
    (abs_le.2 ⟨by linarith, by linarith⟩)
  obtain ⟨e3a, e3b⟩ := abs_le.1 e3
  rw [abs_le]
  constructor
  · norm_num at e1a e1b e2a e2b e3a e3b ⊢
    linarith
  · norm_num at e1a e1b e2a e2b e3a e3b ⊢
    linarith

/-- The three roundings of the corrected pose of `check_collision` for a car that travels in
the negative direction. -/
theorem push_gap_error_neg (a0 b0 sep M : ℚ) (ha : |a0| ≤ M) (hb : |b0| ≤ M) (hs : |sep| ≤ M) :
    |(f32 (b0 + f32 (0 + f32 (f32 (a0 - b0) + sep))) - a0) - sep|
      ≤ M / 2 ^ 21 + 1 / 2 ^ 148 := by
  rw [zero_add, f32_idem]
  have hM : 0 ≤ M := le_trans (abs_nonneg _) ha
  obtain ⟨ha1, ha2⟩ := abs_le.1 ha
  obtain ⟨hb1, hb2⟩ := abs_le.1 hb
  obtain ⟨hs1, hs2⟩ := abs_le.1 hs
  have e1 := f32_error_le (a0 - b0) (2 * M) (abs_le.2 ⟨by linarith, by linarith⟩)
  obtain ⟨e1a, e1b⟩ := abs_le.1 e1
  have e2 := f32_error_le (f32 (a0 - b0) + sep) (3 * M + (2 * M / 2 ^ 24 + 1 / 2 ^ 150))
    (abs_le.2 ⟨by linarith, by linarith⟩)
  obtain ⟨e2a, e2b⟩ := abs_le.1 e2
  have e3 := f32_error_le (b0 + f32 (f32 (a0 - b0) + sep))
    (2 * M + (2 * M / 2 ^ 24 + 1 / 2 ^ 150)
      + ((3 * M + (2 * M / 2 ^ 24 + 1 / 2 ^ 150)) / 2 ^ 24 + 1 / 2 ^ 150))
    (abs_le.2 ⟨by linarith, by linarith⟩)
  obtain ⟨e3a, e3b⟩ := abs_le.1 e3
  rw [abs_le]
  constructor
  · norm_num at e1a e1b e2a e2b e3a e3b ⊢
    linarith
  · norm_num at e1a e1b e2a e2b e3a e3b ⊢
    linarith

/-- The deceleration and the turn record inside `check_collision` leave the box, the
previous box, the axis and the direction of the moved car as they were. -/
theorem car_t.check_collision_cmove_f32_fields (a b : car_t) :
    (a.check_collision_cmove_f32 b).bcube = (if a.check_collision_move_c b then b else a).bcube
    ∧ (a.check_collision_cmove_f32 b).prev_bcube
        = (if a.check_collision_move_c b then b else a).prev_bcube
    ∧ (a.check_collision_cmove_f32 b).dim = (if a.check_collision_move_c b then b else a).dim
    ∧ (a.check_collision_cmove_f32 b).dir = (if a.check_collision_move_c b then b else a).dir
    ∧ (a.check_collision_slowed_f32 b).bcube = (if a.check_collision_move_c b then b else a).bcube
    ∧ (a.check_collision_slowed_f32 b).dir = (if a.check_collision_move_c b then b else a).dir := by
  unfold car_t.check_collision_cmove_f32 car_t.check_collision_slowed_f32
  simp only
  split_ifs <;> simp [car_t.decelerate_f32]

/-- The outcomes of `check_collision` with rounding on two cars with the same axis and
direction: without a conflict nothing changes; with a conflict exactly the car selected by
`move_c` is replaced by a car `m` whose box is the corrected pose, the previous pose, or the
clamped pose, and the other car is returned as it was. -/
theorem car_t.check_collision_f32_same_dir (road : car_t → cube_t) (a b : car_t)
    (hdim : b.dim = a.dim) (hdir : a.dir = b.dir) :
    (a.check_collision_in_range_f32 b = false ∧ a.check_collision_f32 road b = (false, a, b))
    ∨ a.check_collision_in_range_f32 b = true ∧ ∃ m : car_t,
        a.check_collision_f32 road b
          = (if a.check_collision_move_c b then (true, a, m) else (true, m, b))
        ∧ m.dim = a.dim ∧ m.dir = a.dir
        ∧ m.prev_bcube = (if a.check_collision_move_c b then b else a).prev_bcube
        ∧ ((road (a.check_collision_slowed_f32 b)).contains_cube_xy
              ((if a.check_collision_move_c b then b else a).bcube.add_f32
                (a.check_collision_delta_f32 b)) = true
            ∧ m.bcube = (if a.check_collision_move_c b then b else a).bcube.add_f32
                (a.check_collision_delta_f32 b)
          ∨ (road (a.check_collision_slowed_f32 b)).contains_cube_xy
              ((if a.check_collision_move_c b then b else a).bcube.add_f32
                (a.check_collision_delta_f32 b)) = false
            ∧ ((if a.check_collision_move_c b then b else a).bcube
                  ≠ (if a.check_collision_move_c b then b else a).prev_bcube
                ∧ m.bcube = m.prev_bcube
              ∨ (if a.check_collision_move_c b then b else a).bcube
                  = (if a.check_collision_move_c b then b else a).prev_bcube)) := by
  obtain ⟨hb, hp, hd1, hd2, hsb, -⟩ := car_t.check_collision_cmove_f32_fields a b
  have hrd : (if a.check_collision_move_c b then b else a).dim = a.dim := by
    split_ifs <;> simp [hdim]
  have hrr : (if a.check_collision_move_c b then b else a).dir = a.dir := by
    split_ifs <;> simp [hdir]
  unfold car_t.check_collision_f32
  simp only [hdim, hdir, ne_eq, not_true_eq_false, if_false]
  by_cases h1 : a.check_collision_in_range_f32 b = true
  · right
    refine ⟨h1, ?_⟩
    rw [if_neg (not_not.2 h1)]
    by_cases h2 : (road (a.check_collision_slowed_f32 b)).contains_cube_xy
        ((a.check_collision_cmove_f32 b).bcube.add_f32 (a.check_collision_delta_f32 b)) = true
    · rw [if_neg (not_not.2 h2)]
      refine ⟨_, rfl, ?_, ?_, ?_, Or.inl ⟨?_, ?_⟩⟩
      · exact hd1.trans hrd
      · exact (hd2.trans hrr).trans hdir
      · exact hp
      · rw [← hb]; exact h2
      · simp [car_t.set_bcube, hb]
    · rw [if_pos h2]
      have h2f : (road (a.check_collision_slowed_f32 b)).contains_cube_xy
          ((if a.check_collision_move_c b then b else a).bcube.add_f32
            (a.check_collision_delta_f32 b)) = false := by
        rw [← hb]; simpa using h2
      by_cases h3 : (a.check_collision_cmove_f32 b).bcube
          = (a.check_collision_cmove_f32 b).prev_bcube
      · rw [if_neg (not_not.2 h3)]
        refine ⟨_, rfl, ?_, ?_, ?_, Or.inr ⟨h2f, Or.inr ?_⟩⟩
        · exact hd1.trans hrd
        · exact (hd2.trans hrr).trans hdir
        · exact hp
        · rw [← hb, ← hp]; exact h3
      · rw [if_pos h3]
        refine ⟨_, rfl, ?_, ?_, ?_, Or.inr ⟨h2f, Or.inl ⟨?_, ?_⟩⟩⟩
        · exact hd1.trans hrd
        · exact (hd2.trans hrr).trans hdir
        · exact hp
        · rw [← hb, ← hp]; exact h3
        · simp [car_t.set_bcube]
  · left
    exact ⟨by simpa using h1, by rw [if_pos h1]⟩

/-- In the case where the corrected pose is accepted, the gap between the back of the car
in front and the front of the moved car differs from the separation computed by the call by
the error of three roundings: at most `M / 2^21 + 2^-148` when the two edges and the
separation have magnitude at most `M`. -/
theorem travel_gap_after_full_offset_f32 (a b m : car_t) (M : ℚ)
    (hdir : a.dir = b.dir) (hmd : m.dim = a.dim) (hmr : m.dir = a.dir)
    (hmb : m.bcube = (if a.check_collision_move_c b then b else a).bcube.add_f32
      (a.check_collision_delta_f32 b))
    (h1 : |(if a.check_collision_move_c b then a else b).bcube.d a.dim (!a.dir)| ≤ M)
    (h2 : |(if a.check_collision_move_c b then b else a).bcube.d a.dim a.dir| ≤ M)
    (h3 : |a.get_min_sep_dist_to_car_f32 b false| ≤ M) :
    |travel_gap m (if a.check_collision_move_c b then a else b)
        - a.get_min_sep_dist_to_car_f32 b false| ≤ M / 2 ^ 21 + 1 / 2 ^ 148 := by
  obtain ⟨-, -, -, -, hsb, hsd⟩ := car_t.check_collision_cmove_f32_fields a b
  have hrr : (if a.check_collision_move_c b then b else a).dir = a.dir := by
    split_ifs <;> simp [hdir]
  unfold travel_gap
  rw [hmb, hmd, hmr]
  unfold car_t.check_collision_delta_f32
  simp only [hsb, hsd, hrr]
  generalize a.get_min_sep_dist_to_car_f32 b false = sep at h3 ⊢
  cases hc : a.check_collision_move_c b <;> cases hd : a.dim <;> cases hr : a.dir <;>
    simp only [hc, hd, hr, if_true, if_false, Bool.false_eq_true, Bool.not_true, Bool.not_false,
      cube_t.add_f32, cube_t.d, point.set_dim, point.get, all_zeros] at h1 h2 ⊢
  · exact push_gap_error_neg _ _ _ _ h1 h2 h3
  · exact push_gap_error_pos _ _ _ _ h1 h2 h3
  · exact push_gap_error_neg _ _ _ _ h1 h2 h3
  · exact push_gap_error_pos _ _ _ _ h1 h2 h3
  · exact push_gap_error_neg _ _ _ _ h1 h2 h3
  · exact push_gap_error_pos _ _ _ _ h1 h2 h3
  · exact push_gap_error_neg _ _ _ _ h1 h2 h3
  · exact push_gap_error_pos _ _ _ _ h1 h2 h3

/-- C3, amended: for two cars with the same travel axis and direction for which
`check_collision` returns true, the car in front is returned unchanged and the car behind is
replaced by a car `m` such that one of three cases holds. Either the gap between the back of
the car in front and the front of `m` equals the separation `get_min_sep_dist_to_car`
computed by the call up to the error of three roundings: for every bound `M` on the
magnitudes of the two edges and of the separation the gap differs from the separation by at
most `M / 2^21 + 2^-148`, so the gap is at least 0.999 times the separation whenever this
error is at most a thousandth of the separation. Or the box of `m` equals its `prev_bcube`.
Or the car behind was already at its `prev_bcube` when the call began and its fully
corrected pose does not lie inside its road segment box (the clamped case). -/
theorem check_collision_f32_gap_reverted_or_clamped (road : car_t → cube_t) (a b : car_t)
    (hdim : b.dim = a.dim) (hdir : a.dir = b.dir)
    (hret : (a.check_collision_f32 road b).1 = true) :
    ∃ m : car_t,
      a.check_collision_f32 road b
        = (if a.check_collision_move_c b then (true, a, m) else (true, m, b))
      ∧ ((∀ M : ℚ,
            |(if a.check_collision_move_c b then a else b).bcube.d a.dim (!a.dir)| ≤ M →
            |(if a.check_collision_move_c b then b else a).bcube.d a.dim a.dir| ≤ M →
            |a.get_min_sep_dist_to_car_f32 b false| ≤ M →
            |travel_gap m (if a.check_collision_move_c b then a else b)
                - a.get_min_sep_dist_to_car_f32 b false| ≤ M / 2 ^ 21 + 1 / 2 ^ 148
            ∧ (M / 2 ^ 21 + 1 / 2 ^ 148 ≤ a.get_min_sep_dist_to_car_f32 b false / 1000 →
                travel_gap m (if a.check_collision_move_c b then a else b)
                  ≥ (999 / 1000 : ℚ) * a.get_min_sep_dist_to_car_f32 b false))
        ∨ m.bcube = m.prev_bcube
        ∨ ((if a.check_collision_move_c b then b else a).bcube
              = (if a.check_collision_move_c b then b else a).prev_bcube
            ∧ (road (a.check_collision_slowed_f32 b)).contains_cube_xy
                ((if a.check_collision_move_c b then b else a).bcube.add_f32
                  (a.check_collision_delta_f32 b)) = false)) := by
  rcases car_t.check_collision_f32_same_dir road a b hdim hdir with
    ⟨-, h⟩ | ⟨-, m, hm, hmd, hmr, -, hcase⟩
  · rw [h] at hret
    exact absurd hret (by simp)
  · refine ⟨m, hm, ?_⟩
    rcases hcase with ⟨-, hmb⟩ | ⟨hnf, ⟨-, hrev⟩ | hsame⟩
    · left
      intro M h1 h2 h3
      have hgap := travel_gap_after_full_offset_f32 a b m M hdir hmd hmr hmb h1 h2 h3
      refine ⟨hgap, fun htol => ?_⟩
      have := (abs_le.1 hgap).1
      linarith
    · exact Or.inr (Or.inl hrev)
    · exact Or.inr (Or.inr ⟨hsame, hnf⟩)

/-- The roundings to `float` and `double` that occur in the calls of `check_collision` on the sample pairs of cars. -/
theorem check_collision_sample_roundings :
    f32 1 = 1
    ∧ f32 2 = 2
    ∧ f32 (1 / 10) = 13421773 / 134217728
    ∧ f32 (13421773 / 134217728) = 13421773 / 134217728
    ∧ f32 (-(13421773 / 134217728)) = -(13421773 / 134217728)
    ∧ f64 (111 / 100) = 4998995586381251 / 4503599627370496
    ∧ f64 (1 / 4) = 1 / 4
    ∧ f32 (1 / 4) = 1 / 4
    ∧ f64 (999 / 1000) = 8998192055486251 / 9007199254740992
    ∧ f64 (8998192055486251 / 36028797018963968) = 8998192055486251 / 36028797018963968
    ∧ f32 (8998192055486251 / 36028797018963968) = 16760439 / 67108864
    ∧ f32 (-(16760439 / 67108864)) = -(16760439 / 67108864)
    ∧ f32 (83869303 / 67108864) = 10483663 / 8388608
    ∧ f32 10 = 10
    ∧ f32 (-10) = -10
    ∧ f32 (1 / 8) = 1 / 8
    ∧ f32 (-(1 / 8)) = -(1 / 8)
    ∧ f32 (7 / 8) = 7 / 8
    ∧ f32 (999 / 1000) = 16760439 / 16777216
    ∧ f32 (-(1 / 16)) = -(1 / 16)
    ∧ f32 (-(16760439 / 268435456)) = -(16760439 / 268435456)
    ∧ f32 (251675017 / 268435456) = 15729689 / 16777216
    ∧ f32 (268435463 / 268435456) = 1
    ∧ f32 (1023 / 4096) = 1023 / 4096
    ∧ f32 (-(1 / 4096)) = -(1 / 4096)
    ∧ f32 (4095 / 4096) = 4095 / 4096
    ∧ f32 (1 / 16) = 1 / 16
    ∧ f32 (1027 / 16384) = 1027 / 16384
    ∧ f32 (2051 / 16384) = 2051 / 16384
    ∧ f32 (2051 / 32768) = 2051 / 32768
    ∧ f64 (2051 / 131072) = 2051 / 131072
    ∧ f32 (2051 / 131072) = 2051 / 131072
    ∧ f64 (18455291905802300801 / 1180591620717411303424) = 4505686500440015 / 288230376151711744
    ∧ f32 (4505686500440015 / 288230376151711744) = 8392495 / 536870912
    ∧ f32 (536862519505 / 536870912) = 63999 / 64
    ∧ f32 (536912858927 / 536870912) = 64005 / 64
    ∧ f32 (1 / 128) = 1 / 128
    ∧ f32 (-(1027 / 131072)) = -(1027 / 131072)
    ∧ f32 (131070973 / 131072) = 127999 / 128
    ∧ f32 (131079165 / 131072) = 128007 / 128 := by
  have h0 : f32 1 = 1 :=
    f32_exact _ (1) (0) (by norm_num) (by norm_num) (by norm_num)
  have h1 : f32 2 = 2 :=
    f32_exact _ (1) (1) (by norm_num) (by norm_num) (by norm_num)
  have h2 : f32 (1 / 10) = 13421773 / 134217728 := by
    rw [f32_eval (1 / 10) (-4) (-27) (13421773) (by norm_num [abs_of_pos])
      (by norm_num [abs_of_pos]) (by norm_num) (by norm_num [abs_lt])]
    norm_num
  have h3 : f32 (13421773 / 134217728) = 13421773 / 134217728 :=
    f32_exact _ (13421773) (-27) (by norm_num) (by norm_num) (by norm_num)
  have h4 : f32 (-(13421773 / 134217728)) = -(13421773 / 134217728) :=
    f32_exact _ (-13421773) (-27) (by norm_num) (by norm_num) (by norm_num)
  have h5 : f64 (111 / 100) = 4998995586381251 / 4503599627370496 := by
    rw [f64_eval (111 / 100) (0) (-52) (4998995586381251) (by norm_num [abs_of_pos])
      (by norm_num [abs_of_pos]) (by norm_num) (by norm_num [abs_lt])]
    norm_num
  have h6 : f64 (1 / 4) = 1 / 4 :=
    f64_exact _ (1) (-2) (by norm_num) (by norm_num) (by norm_num)
  have h7 : f32 (1 / 4) = 1 / 4 :=
    f32_exact _ (1) (-2) (by norm_num) (by norm_num) (by norm_num)
  have h8 : f64 (999 / 1000) = 8998192055486251 / 9007199254740992 := by
    rw [f64_eval (999 / 1000) (-1) (-53) (8998192055486251) (by norm_num [abs_of_pos])
      (by norm_num [abs_of_pos]) (by norm_num) (by norm_num [abs_lt])]
    norm_num
  have h9 : f64 (8998192055486251 / 36028797018963968) = 8998192055486251 / 36028797018963968 :=
    f64_exact _ (8998192055486251) (-55) (by norm_num) (by norm_num) (by norm_num)
  have h10 : f32 (8998192055486251 / 36028797018963968) = 16760439 / 67108864 := by
    rw [f32_eval (8998192055486251 / 36028797018963968) (-3) (-26) (16760439) (by norm_num [abs_of_pos])
      (by norm_num [abs_of_pos]) (by norm_num) (by norm_num [abs_lt])]
    norm_num
  have h11 : f32 (-(16760439 / 67108864)) = -(16760439 / 67108864) :=
    f32_exact _ (-16760439) (-26) (by norm_num) (by norm_num) (by norm_num)
  have h12 : f32 (83869303 / 67108864) = 10483663 / 8388608 := by
    rw [f32_eval (83869303 / 67108864) (0) (-23) (10483663) (by norm_num [abs_of_pos])
      (by norm_num [abs_of_pos]) (by norm_num) (by norm_num [abs_lt])]
    norm_num
  have h13 : f32 10 = 10 :=
    f32_exact _ (5) (1) (by norm_num) (by norm_num) (by norm_num)
  have h14 : f32 (-10) = -10 :=
    f32_exact _ (-5) (1) (by norm_num) (by norm_num) (by norm_num)
  have h15 : f32 (1 / 8) = 1 / 8 :=
    f32_exact _ (1) (-3) (by norm_num) (by norm_num) (by norm_num)
  have h16 : f32 (-(1 / 8)) = -(1 / 8) :=
    f32_exact _ (-1) (-3) (by norm_num) (by norm_num) (by norm_num)
  have h17 : f32 (7 / 8) = 7 / 8 :=
    f32_exact _ (7) (-3) (by norm_num) (by norm_num) (by norm_num)
  have h18 : f32 (999 / 1000) = 16760439 / 16777216 := by
    rw [f32_eval (999 / 1000) (-1) (-24) (16760439) (by norm_num [abs_of_pos])
      (by norm_num [abs_of_pos]) (by norm_num) (by norm_num [abs_lt])]
    norm_num
  have h19 : f32 (-(1 / 16)) = -(1 / 16) :=
    f32_exact _ (-1) (-4) (by norm_num) (by norm_num) (by norm_num)
  have h20 : f32 (-(16760439 / 268435456)) = -(16760439 / 268435456) :=
    f32_exact _ (-16760439) (-28) (by norm_num) (by norm_num) (by norm_num)
  have h21 : f32 (251675017 / 268435456) = 15729689 / 16777216 := by
    rw [f32_eval (251675017 / 268435456) (-1) (-24) (15729689) (by norm_num [abs_of_pos])
      (by norm_num [abs_of_pos]) (by norm_num) (by norm_num [abs_lt])]
    norm_num
  have h22 : f32 (268435463 / 268435456) = 1 := by
    rw [f32_eval (268435463 / 268435456) (0) (-23) (8388608) (by norm_num [abs_of_pos])
      (by norm_num [abs_of_pos]) (by norm_num) (by norm_num [abs_lt])]
    norm_num
  have h23 : f32 (1023 / 4096) = 1023 / 4096 :=
    f32_exact _ (1023) (-12) (by norm_num) (by norm_num) (by norm_num)
  have h24 : f32 (-(1 / 4096)) = -(1 / 4096) :=
    f32_exact _ (-1) (-12) (by norm_num) (by norm_num) (by norm_num)
  have h25 : f32 (4095 / 4096) = 4095 / 4096 :=
    f32_exact _ (4095) (-12) (by norm_num) (by norm_num) (by norm_num)
  have h26 : f32 (1 / 16) = 1 / 16 :=
    f32_exact _ (1) (-4) (by norm_num) (by norm_num) (by norm_num)
  have h27 : f32 (1027 / 16384) = 1027 / 16384 :=
    f32_exact _ (1027) (-14) (by norm_num) (by norm_num) (by norm_num)
  have h28 : f32 (2051 / 16384) = 2051 / 16384 :=
    f32_exact _ (2051) (-14) (by norm_num) (by norm_num) (by norm_num)
  have h29 : f32 (2051 / 32768) = 2051 / 32768 :=
    f32_exact _ (2051) (-15) (by norm_num) (by norm_num) (by norm_num)
  have h30 : f64 (2051 / 131072) = 2051 / 131072 :=
    f64_exact _ (2051) (-17) (by norm_num) (by norm_num) (by norm_num)
  have h31 : f32 (2051 / 131072) = 2051 / 131072 :=
    f32_exact _ (2051) (-17) (by norm_num) (by norm_num) (by norm_num)
  have h32 : f64 (18455291905802300801 / 1180591620717411303424) = 4505686500440015 / 288230376151711744 := by
    rw [f64_eval (18455291905802300801 / 1180591620717411303424) (-6) (-58) (4505686500440015) (by norm_num [abs_of_pos])
      (by norm_num [abs_of_pos]) (by norm_num) (by norm_num [abs_lt])]
    norm_num
  have h33 : f32 (4505686500440015 / 288230376151711744) = 8392495 / 536870912 := by
    rw [f32_eval (4505686500440015 / 288230376151711744) (-6) (-29) (8392495) (by norm_num [abs_of_pos])
      (by norm_num [abs_of_pos]) (by norm_num) (by norm_num [abs_lt])]
    norm_num
  have h34 : f32 (536862519505 / 536870912) = 63999 / 64 := by
    rw [f32_eval (536862519505 / 536870912) (9) (-14) (16383744) (by norm_num [abs_of_pos])
      (by norm_num [abs_of_pos]) (by norm_num) (by norm_num [abs_lt])]
    norm_num
  have h35 : f32 (536912858927 / 536870912) = 64005 / 64 := by
    rw [f32_eval (536912858927 / 536870912) (9) (-14) (16385280) (by norm_num [abs_of_pos])
      (by norm_num [abs_of_pos]) (by norm_num) (by norm_num [abs_lt])]
    norm_num
  have h36 : f32 (1 / 128) = 1 / 128 :=
    f32_exact _ (1) (-7) (by norm_num) (by norm_num) (by norm_num)
  have h37 : f32 (-(1027 / 131072)) = -(1027 / 131072) :=
    f32_exact _ (-1027) (-17) (by norm_num) (by norm_num) (by norm_num)
  have h38 : f32 (131070973 / 131072) = 127999 / 128 := by
    rw [f32_eval (131070973 / 131072) (9) (-14) (16383872) (by norm_num [abs_of_pos])
      (by norm_num [abs_of_pos]) (by norm_num) (by norm_num [abs_lt])]
    norm_num
  have h39 : f32 (131079165 / 131072) = 128007 / 128 := by
    rw [f32_eval (131079165 / 131072) (9) (-14) (16384896) (by norm_num [abs_of_pos])
      (by norm_num [abs_of_pos]) (by norm_num) (by norm_num [abs_lt])]
    norm_num
  exact ⟨h0, h1, h2, h3, h4, h5, h6, h7, h8, h9, h10, h11, h12, h13, h14, h15, h16, h17, h18, h19, h20, h21, h22, h23, h24, h25, h26, h27, h28, h29, h30, h31, h32, h33, h34, h35, h36, h37, h38, h39⟩

/-- Evaluation of `check_collision` with rounding on a stopped unit car at `[0, 1]` whose
previous pose is its current pose, behind a stopped unit car at `[1.125, 2.125]`, on a
segment that starts at `-0.0625`: the rear car is moved by the clamped offset
`-0.999f * 0.0625` only. -/
theorem check_collision_f32_clamped_example :
    (unit_car 0 0 1).check_collision_f32 (fun _ => ⟨-1 / 16, 10, 0, 1, 0, 1⟩) (unit_car (9 / 8) 0 1)
      = (true, (unit_car 0 0 1).set_bcube ⟨-16760439 / 2 ^ 28, 15729689 / 2 ^ 24, 0, 1, 0, 1⟩,
          unit_car (9 / 8) 0 1) := by
  obtain ⟨h0, h1, h2, h3, h4, h5, h6, h7, h8, h9, h10, h11, h12, h13, h14, h15, h16, h17, h18, h19, h20, h21, h22, h23, h24, h25, h26, h27, h28, h29, h30, h31, h32, h33, h34, h35, h36, h37, h38, h39⟩ := check_collision_sample_roundings
  simp [car_t.check_collision_f32, car_t.check_collision_in_range_f32, car_t.check_collision_move_c,
    car_t.check_collision_cmove_f32, car_t.check_collision_slowed_f32,
    car_t.check_collision_delta_f32, car_t.get_min_sep_dist_to_car_f32, car_t.get_length_f32,
    car_t.is_stopped, car_t.decelerate_f32, car_t.set_bcube, unit_car, cube_t.d, cube_t.set_d,
    cube_t.add_f32, cube_t.intersects_xy, cube_t.contains_cube_xy, point.add_dim, point.set_dim,
    point.get, all_zeros, MIN_CAR_STOP_SEP, f32_zero, f64_zero]
  norm_num [h0, h1, h2, h3, h4, h5, h6, h7, h8, h9, h10, h11, h12, h13, h14, h15, h16, h17, h18, h19, h20, h21, h22, h23, h24, h25, h26, h27, h28, h29, h30, h31, h32, h33, h34, h35, h36, h37, h38, h39, f32_zero, f64_zero]

/-- The separation of the two sample cars near coordinate 1000 as the call computes it. -/
theorem far_pair_sep :
    far_rear_car.get_min_sep_dist_to_car_f32 far_front_car false = 2051 / 2 ^ 17 := by
  obtain ⟨h0, h1, h2, h3, h4, h5, h6, h7, h8, h9, h10, h11, h12, h13, h14, h15, h16, h17, h18, h19, h20, h21, h22, h23, h24, h25, h26, h27, h28, h29, h30, h31, h32, h33, h34, h35, h36, h37, h38, h39⟩ := check_collision_sample_roundings
  simp [car_t.get_min_sep_dist_to_car_f32, car_t.get_length_f32, far_rear_car, far_front_car,
    unit_car, cube_t.d, MIN_CAR_STOP_SEP, f32_zero, f64_zero]
  norm_num [h0, h1, h2, h3, h4, h5, h6, h7, h8, h9, h10, h11, h12, h13, h14, h15, h16, h17, h18, h19, h20, h21, h22, h23, h24, h25, h26, h27, h28, h29, h30, h31, h32, h33, h34, h35, h36, h37, h38, h39, f32_zero, f64_zero]

/-- Of the two sample cars near coordinate 1000 the call moves the one it is called on: its
front edge lies behind the front edge of the argument. -/
theorem far_pair_move_c : far_rear_car.check_collision_move_c far_front_car = false := by
  simp [car_t.check_collision_move_c, far_rear_car, far_front_car, unit_car, cube_t.d]
  norm_num

/-- The deceleration leaves the rear sample car near coordinate 1000 as it is: its speed is
zero already. -/
theorem far_pair_slowed :
    far_rear_car.check_collision_slowed_f32 far_front_car = far_rear_car := by
  obtain ⟨h0, h1, h2, h3, h4, h5, h6, h7, h8, h9, h10, h11, h12, h13, h14, h15, h16, h17, h18, h19, h20, h21, h22, h23, h24, h25, h26, h27, h28, h29, h30, h31, h32, h33, h34, h35, h36, h37, h38, h39⟩ := check_collision_sample_roundings
  simp [car_t.check_collision_slowed_f32, car_t.check_collision_move_c, car_t.is_stopped,
    car_t.decelerate_f32, far_rear_car, far_front_car, unit_car, cube_t.d, f32_zero, f64_zero]
  norm_num [h0, h1, h2, h3, h4, h5, h6, h7, h8, h9, h10, h11, h12, h13, h14, h15, h16, h17, h18, h19, h20, h21, h22, h23, h24, h25, h26, h27, h28, h29, h30, h31, h32, h33, h34, h35, h36, h37, h38, h39, f32_zero, f64_zero]

/-- The two sample cars near coordinate 1000 have the same maximal speed, so the turn
direction of the car in front is not recorded. -/
theorem far_pair_cmove :
    far_rear_car.check_collision_cmove_f32 far_front_car = far_rear_car := by
  rw [car_t.check_collision_cmove_f32, far_pair_slowed, far_pair_move_c]
  simp [far_rear_car, far_front_car, unit_car]

/-- The offset that the call computes for the sample cars near coordinate 1000:
`-(2^-7 + 3 * 2^-17)` along x. -/
theorem far_pair_delta :
    far_rear_car.check_collision_delta_f32 far_front_car = ⟨-(1027 / 131072), 0, 0⟩ := by
  obtain ⟨h0, h1, h2, h3, h4, h5, h6, h7, h8, h9, h10, h11, h12, h13, h14, h15, h16, h17, h18, h19, h20, h21, h22, h23, h24, h25, h26, h27, h28, h29, h30, h31, h32, h33, h34, h35, h36, h37, h38, h39⟩ := check_collision_sample_roundings
  rw [car_t.check_collision_delta_f32, far_pair_slowed, far_pair_move_c, far_pair_sep]
  simp [far_rear_car, far_front_car, unit_car, cube_t.d, point.set_dim, point.get, all_zeros,
    f32_zero, f64_zero]
  norm_num [h0, h1, h2, h3, h4, h5, h6, h7, h8, h9, h10, h11, h12, h13, h14, h15, h16, h17, h18, h19, h20, h21, h22, h23, h24, h25, h26, h27, h28, h29, h30, h31, h32, h33, h34, h35, h36, h37, h38, h39, f32_zero, f64_zero]

/-- The range test of the call succeeds on the sample cars near coordinate 1000. -/
theorem far_pair_range_test :
    far_rear_car.check_collision_in_range_f32 far_front_car = true := by
  obtain ⟨h0, h1, h2, h3, h4, h5, h6, h7, h8, h9, h10, h11, h12, h13, h14, h15, h16, h17, h18, h19, h20, h21, h22, h23, h24, h25, h26, h27, h28, h29, h30, h31, h32, h33, h34, h35, h36, h37, h38, h39⟩ := check_collision_sample_roundings
  rw [car_t.check_collision_in_range_f32, far_pair_sep]
  simp [far_rear_car, far_front_car, unit_car, cube_t.d, cube_t.set_d, cube_t.intersects_xy,
    f32_zero, f64_zero]
  norm_num [h0, h1, h2, h3, h4, h5, h6, h7, h8, h9, h10, h11, h12, h13, h14, h15, h16, h17, h18, h19, h20, h21, h22, h23, h24, h25, h26, h27, h28, h29, h30, h31, h32, h33, h34, h35, h36, h37, h38, h39, f32_zero, f64_zero]

/-- The box of the rear sample car near coordinate 1000 after the rounded addition of the
offset: both sums round to multiples of `2^-14`, so the box moves by `2^-7` exactly. -/
theorem far_rear_car_pushed_box :
    far_rear_car.bcube.add_f32 ⟨-(1027 / 131072), 0, 0⟩
      = ⟨127999 / 128, 128007 / 128, 0, 1, 0, 1⟩ := by
  obtain ⟨h0, h1, h2, h3, h4, h5, h6, h7, h8, h9, h10, h11, h12, h13, h14, h15, h16, h17, h18, h19, h20, h21, h22, h23, h24, h25, h26, h27, h28, h29, h30, h31, h32, h33, h34, h35, h36, h37, h38, h39⟩ := check_collision_sample_roundings
  simp [far_rear_car, unit_car, cube_t.add_f32, f32_zero, f64_zero]
  norm_num [h0, h1, h2, h3, h4, h5, h6, h7, h8, h9, h10, h11, h12, h13, h14, h15, h16, h17, h18, h19, h20, h21, h22, h23, h24, h25, h26, h27, h28, h29, h30, h31, h32, h33, h34, h35, h36, h37, h38, h39, f32_zero, f64_zero]

/-- Evaluation of `check_collision` with rounding on the two sample cars near coordinate
1000: the rear car is moved back by `2^-7` exactly, because the two sums of an edge and the
offset `-(2^-7 + 3 * 2^-17)` round to multiples of `2^-14`. -/
theorem check_collision_f32_far_example :
    far_rear_car.check_collision_f32 (fun _ => ⟨0, 2000, 0, 1, 0, 1⟩) far_front_car
      = (true, far_rear_car.set_bcube ⟨127999 / 128, 128007 / 128, 0, 1, 0, 1⟩,
          far_front_car) := by
  have hfit : (⟨0, 2000, 0, 1, 0, 1⟩ : cube_t).contains_cube_xy
      ⟨127999 / 128, 128007 / 128, 0, 1, 0, 1⟩ = true := by
    simp [cube_t.contains_cube_xy]
    norm_num
  have hdim : far_front_car.dim = far_rear_car.dim := rfl
  have hdir : far_rear_car.dir = far_front_car.dir := rfl
  unfold car_t.check_collision_f32
  simp only [hdim, hdir, ne_eq, not_true_eq_false, if_false, far_pair_range_test,
    far_pair_move_c, far_pair_cmove, far_pair_delta, far_rear_car_pushed_box, hfit,
    Bool.false_eq_true]

/-- The separation of the unit car at `[0, 1]` and a stopped unit car, as the call computes
it, before and after the clamped move. -/
theorem clamped_pair_sep :
    (unit_car 0 0 1).get_min_sep_dist_to_car_f32 (unit_car (9 / 8) 0 1) false = 1 / 4
    ∧ ((unit_car 0 0 1).set_bcube
          ⟨-16760439 / 2 ^ 28, 15729689 / 2 ^ 24, 0, 1, 0, 1⟩).get_min_sep_dist_to_car_f32
        (unit_car (9 / 8) 0 1) false = 1 / 4
    ∧ (unit_car 0 0 1).get_min_sep_dist_to_car_f32 (unit_car (5119 / 4096) 0 1) false = 1 / 4 := by
  obtain ⟨h0, h1, h2, h3, h4, h5, h6, h7, h8, h9, h10, h11, h12, h13, h14, h15, h16, h17, h18, h19, h20, h21, h22, h23, h24, h25, h26, h27, h28, h29, h30, h31, h32, h33, h34, h35, h36, h37, h38, h39⟩ := check_collision_sample_roundings
  refine ⟨?_, ?_, ?_⟩
  all_goals
    simp [car_t.get_min_sep_dist_to_car_f32, car_t.get_length_f32, car_t.set_bcube, unit_car,
      cube_t.d, MIN_CAR_STOP_SEP, f32_zero, f64_zero]
    norm_num [h0, h1, h2, h3, h4, h5, h6, h7, h8, h9, h10, h11, h12, h13, h14, h15, h16, h17, h18, h19, h20, h21, h22, h23, h24, h25, h26, h27, h28, h29, h30, h31, h32, h33, h34, h35, h36, h37, h38, h39, f32_zero, f64_zero]

/-- The corrected pose of the rear car of the sample pairs lies inside the road segment
box. -/
theorem sample_pairs_fit :
    ((fun _ => ⟨-10, 10, 0, 1, 0, 1⟩ : car_t → cube_t)
        ((unit_car 0 0 1).check_collision_slowed_f32 (unit_car (5119 / 4096) 0 1))).contains_cube_xy
      ((if (unit_car 0 0 1).check_collision_move_c (unit_car (5119 / 4096) 0 1) then
          unit_car (5119 / 4096) 0 1 else unit_car 0 0 1).bcube.add_f32
        ((unit_car 0 0 1).check_collision_delta_f32 (unit_car (5119 / 4096) 0 1))) = true
    ∧ ((fun _ => ⟨0, 2000, 0, 1, 0, 1⟩ : car_t → cube_t)
        (far_rear_car.check_collision_slowed_f32 far_front_car)).contains_cube_xy
      ((if far_rear_car.check_collision_move_c far_front_car then far_front_car
          else far_rear_car).bcube.add_f32
        (far_rear_car.check_collision_delta_f32 far_front_car)) = true := by
  obtain ⟨h0, h1, h2, h3, h4, h5, h6, h7, h8, h9, h10, h11, h12, h13, h14, h15, h16, h17, h18, h19, h20, h21, h22, h23, h24, h25, h26, h27, h28, h29, h30, h31, h32, h33, h34, h35, h36, h37, h38, h39⟩ := check_collision_sample_roundings
  refine ⟨?_, ?_⟩
  all_goals
    simp [car_t.check_collision_move_c, car_t.check_collision_slowed_f32,
      car_t.check_collision_delta_f32, car_t.get_min_sep_dist_to_car_f32, car_t.get_length_f32,
      car_t.is_stopped, car_t.decelerate_f32, far_rear_car, far_front_car, unit_car, cube_t.d,
      cube_t.add_f32, cube_t.contains_cube_xy, point.add_dim, point.set_dim, point.get, all_zeros,
      MIN_CAR_STOP_SEP, f32_zero, f64_zero]
    norm_num [h0, h1, h2, h3, h4, h5, h6, h7, h8, h9, h10, h11, h12, h13, h14, h15, h16, h17, h18, h19, h20, h21, h22, h23, h24, h25, h26, h27, h28, h29, h30, h31, h32, h33, h34, h35, h36, h37, h38, h39, f32_zero, f64_zero]

/-- C3, counterexample. First pair: a stopped unit car at `[0, 1]` that is at its
previous-frame pose, 0.125 behind a stopped unit car, on a segment that starts at `-0.0625`.
The call returns true and leaves the car in front unchanged; afterwards the gap is about
0.1874, below 0.999 times the separation 0.25 (computed before or after the call), and the
box of the car behind differs from its `prev_bcube`. Second pair: two stopped cars near
coordinate 1000 with separation `2051 / 2^17` (about 0.015648) on a segment `[0, 2000]`
that contains the corrected pose. The call returns true and moves the car behind; the gap is
then `2^-6 = 0.015625`, which is 0.99854 times the separation, and the box of the car behind
differs from its `prev_bcube`: the rounding of the new edge to a multiple of `2^-14` costs
more than a thousandth of the separation. -/
theorem check_collision_f32_gap_claim_fails :
    (((unit_car 0 0 1).check_collision_f32 (fun _ => ⟨-1 / 16, 10, 0, 1, 0, 1⟩)
        (unit_car (9 / 8) 0 1)).1 = true
    ∧ (unit_car 0 0 1).is_behind (unit_car (9 / 8) 0 1)
    ∧ ((unit_car 0 0 1).check_collision_f32 (fun _ => ⟨-1 / 16, 10, 0, 1, 0, 1⟩)
        (unit_car (9 / 8) 0 1)).2.2 = unit_car (9 / 8) 0 1
    ∧ travel_gap
        ((unit_car 0 0 1).check_collision_f32 (fun _ => ⟨-1 / 16, 10, 0, 1, 0, 1⟩)
          (unit_car (9 / 8) 0 1)).2.1 (unit_car (9 / 8) 0 1)
        < (999 / 1000 : ℚ)
          * (unit_car 0 0 1).get_min_sep_dist_to_car_f32 (unit_car (9 / 8) 0 1) false
    ∧ travel_gap
        ((unit_car 0 0 1).check_collision_f32 (fun _ => ⟨-1 / 16, 10, 0, 1, 0, 1⟩)
          (unit_car (9 / 8) 0 1)).2.1 (unit_car (9 / 8) 0 1)
        < (999 / 1000 : ℚ) *
          ((unit_car 0 0 1).check_collision_f32 (fun _ => ⟨-1 / 16, 10, 0, 1, 0, 1⟩)
            (unit_car (9 / 8) 0 1)).2.1.get_min_sep_dist_to_car_f32 (unit_car (9 / 8) 0 1) false
    ∧ ((unit_car 0 0 1).check_collision_f32 (fun _ => ⟨-1 / 16, 10, 0, 1, 0, 1⟩)
        (unit_car (9 / 8) 0 1)).2.1.bcube
      ≠ ((unit_car 0 0 1).check_collision_f32 (fun _ => ⟨-1 / 16, 10, 0, 1, 0, 1⟩)
        (unit_car (9 / 8) 0 1)).2.1.prev_bcube)
    ∧ ((far_rear_car.check_collision_f32 (fun _ => ⟨0, 2000, 0, 1, 0, 1⟩) far_front_car).1 = true
    ∧ far_rear_car.is_behind far_front_car
    ∧ (far_rear_car.check_collision_f32 (fun _ => ⟨0, 2000, 0, 1, 0, 1⟩) far_front_car).2.2
        = far_front_car
    ∧ ((fun _ => ⟨0, 2000, 0, 1, 0, 1⟩ : car_t → cube_t)
        (far_rear_car.check_collision_slowed_f32 far_front_car)).contains_cube_xy
      ((if far_rear_car.check_collision_move_c far_front_car then far_front_car
          else far_rear_car).bcube.add_f32
        (far_rear_car.check_collision_delta_f32 far_front_car)) = true
    ∧ far_rear_car.get_min_sep_dist_to_car_f32 far_front_car false = 2051 / 2 ^ 17
    ∧ travel_gap
        (far_rear_car.check_collision_f32 (fun _ => ⟨0, 2000, 0, 1, 0, 1⟩) far_front_car).2.1
        far_front_car = 1 / 2 ^ 6
    ∧ travel_gap
        (far_rear_car.check_collision_f32 (fun _ => ⟨0, 2000, 0, 1, 0, 1⟩) far_front_car).2.1
        far_front_car
        < (999 / 1000 : ℚ) * far_rear_car.get_min_sep_dist_to_car_f32 far_front_car false
    ∧ (far_rear_car.check_collision_f32 (fun _ => ⟨0, 2000, 0, 1, 0, 1⟩) far_front_car).2.1.bcube
      ≠ (far_rear_car.check_collision_f32 (fun _ => ⟨0, 2000, 0, 1, 0, 1⟩)
          far_front_car).2.1.prev_bcube) := by
  rw [check_collision_f32_clamped_example, check_collision_f32_far_example, far_pair_sep,
    clamped_pair_sep.1, clamped_pair_sep.2.1]
  refine ⟨⟨rfl, ?_, rfl, ?_, ?_, ?_⟩, ⟨rfl, ?_, rfl, sample_pairs_fit.2, rfl, ?_, ?_, ?_⟩⟩
  · norm_num [car_t.is_behind, unit_car, cube_t.d]
  · norm_num [travel_gap, car_t.set_bcube, unit_car, cube_t.d]
  · norm_num [travel_gap, car_t.set_bcube, unit_car, cube_t.d]
  · norm_num [car_t.set_bcube, unit_car]
  · norm_num [car_t.is_behind, far_rear_car, far_front_car, unit_car, cube_t.d]
  · norm_num [travel_gap, car_t.set_bcube, far_rear_car, far_front_car, unit_car, cube_t.d]
  · norm_num [travel_gap, car_t.set_bcube, far_rear_car, far_front_car, unit_car, cube_t.d]
  · norm_num [car_t.set_bcube, far_rear_car, unit_car]

/-- C3, instance: the two sample cars near coordinate 1000. -/
theorem check_collision_f32_gap_reverted_or_clamped_witness :
    ∃ m : car_t,
      far_rear_car.check_collision_f32 (fun _ => ⟨0, 2000, 0, 1, 0, 1⟩) far_front_car
        = (if far_rear_car.check_collision_move_c far_front_car then (true, far_rear_car, m)
            else (true, m, far_front_car))
      ∧ ((∀ M : ℚ,
            |(if far_rear_car.check_collision_move_c far_front_car then far_rear_car
                else far_front_car).bcube.d far_rear_car.dim (!far_rear_car.dir)| ≤ M →
            |(if far_rear_car.check_collision_move_c far_front_car then far_front_car
                else far_rear_car).bcube.d far_rear_car.dim far_rear_car.dir| ≤ M →
            |far_rear_car.get_min_sep_dist_to_car_f32 far_front_car false| ≤ M →
            |travel_gap m (if far_rear_car.check_collision_move_c far_front_car then far_rear_car
                  else far_front_car)
                - far_rear_car.get_min_sep_dist_to_car_f32 far_front_car false|
              ≤ M / 2 ^ 21 + 1 / 2 ^ 148
            ∧ (M / 2 ^ 21 + 1 / 2 ^ 148
                  ≤ far_rear_car.get_min_sep_dist_to_car_f32 far_front_car false / 1000 →
                travel_gap m (if far_rear_car.check_collision_move_c far_front_car then
                    far_rear_car else far_front_car)
                  ≥ (999 / 1000 : ℚ) * far_rear_car.get_min_sep_dist_to_car_f32 far_front_car false))
        ∨ m.bcube = m.prev_bcube
        ∨ ((if far_rear_car.check_collision_move_c far_front_car then far_front_car
              else far_rear_car).bcube
              = (if far_rear_car.check_collision_move_c far_front_car then far_front_car
                  else far_rear_car).prev_bcube
            ∧ ((fun _ => ⟨0, 2000, 0, 1, 0, 1⟩ : car_t → cube_t)
                (far_rear_car.check_collision_slowed_f32 far_front_car)).contains_cube_xy
                ((if far_rear_car.check_collision_move_c far_front_car then far_front_car
                    else far_rear_car).bcube.add_f32
                  (far_rear_car.check_collision_delta_f32 far_front_car)) = false)) :=
  check_collision_f32_gap_reverted_or_clamped (fun _ => ⟨0, 2000, 0, 1, 0, 1⟩) far_rear_car
    far_front_car rfl rfl (by rw [check_collision_f32_far_example])

